import Mathlib

/-!
# AntDB auxiliary tables: `src/backend/commands/auxtablecmds.c`

A shallow embedding of the auxiliary-table commands of AntDB and the
properties of its specification that concern them.

Conventions of the embedding.

* `Oid` is an unsigned 32-bit integer in C and `AttrNumber` a signed 16-bit
  one.  No arithmetic of the file can overflow them (the only arithmetic is
  `attnum - 1` and `x - FirstLowInvalidHeapAttributeNumber`, done in `int`),
  so they are `Nat` and `Int`.
* C strings are lists of characters, one character per byte.
* `ereport(ERROR, ...)` and `elog(ERROR, ...)` do not return: a function that
  can raise returns `Except Err _`.  A read through a null pointer or outside
  an array is the outcome `Err.fault`.
* `Assert(...)` is compiled out of production builds and is not part of the
  behaviour modelled here.
-/

namespace AntDB

/-! ## Basic PostgreSQL types and macros (`postgres_ext.h`, `access/attnum.h`) -/

abbrev Oid := Nat

abbrev AttrNumber := Int

abbrev CString := List Char

def InvalidOid : Oid := 0

def InvalidAttrNumber : AttrNumber := 0

def OidIsValid (objectId : Oid) : Bool := objectId != InvalidOid

def AttributeNumberIsValid (attributeNumber : AttrNumber) : Bool :=
  attributeNumber != InvalidAttrNumber

def AttrNumberIsForUserDefinedAttr (attributeNumber : AttrNumber) : Bool :=
  decide (attributeNumber > 0)

/-- The SQLSTATE classes raised in or through `auxtablecmds.c`. -/
inductive ErrCode where
  | FEATURE_NOT_SUPPORTED
  | UNDEFINED_COLUMN
  | DATATYPE_MISMATCH
  | UNIQUE_VIOLATION
  | INTERNAL_ERROR
  | EXTERNAL (sqlstate : Nat)
  deriving DecidableEq, Repr

/-- An abnormal outcome: an `ereport(ERROR)` with its SQLSTATE and the column
it names (empty when it names none), or a memory fault. -/
inductive Err where
  | ereport (code : ErrCode) (column : CString)
  | fault
  deriving DecidableEq, Repr

/-! ## The catalog `pg_aux_class` and its manager -/

/-- One row of `pg_aux_class`. -/
structure FormData_pg_aux_class where
  auxrelid : Oid
  relid : Oid
  attnum : AttrNumber
  deriving DecidableEq, Repr

/-- The catalogs an `ObjectAddress` of this file points into. -/
inductive ClassId where
  | RelationRelationId
  | AuxClassRelationId
  deriving DecidableEq, Repr

structure ObjectAddress where
  classId : ClassId
  objectId : Oid
  objectSubId : Int
  deriving DecidableEq, Repr

inductive DependencyType where
  | DEPENDENCY_NORMAL
  | DEPENDENCY_AUTO
  deriving DecidableEq, Repr

/-- One row of `pg_depend`, as written by `recordDependencyOn`. -/
structure Dependency where
  depender : ObjectAddress
  referenced : ObjectAddress
  deptype : DependencyType
  deriving DecidableEq, Repr

/-- The part of the database the catalog manager reads and writes: the rows of
`pg_aux_class` in heap order, the rows of `pg_depend`, and the number of
references to the open `pg_aux_class` relation that `heap_open` has taken and
`heap_close` has not yet given back. -/
structure Catalog where
  pg_aux_class : List FormData_pg_aux_class
  pg_depend : List Dependency
  open_refs : Nat
  deriving DecidableEq, Repr

def heap_open (c : Catalog) : Catalog := { c with open_refs := c.open_refs + 1 }

def heap_close (c : Catalog) : Catalog := { c with open_refs := c.open_refs - 1 }

/-- The search `SearchSysCache1(AUXCLASSIDENT, auxrelid)`: the row whose `auxrelid` is the key. -/
def SearchSysCache1_AUXCLASSIDENT (c : Catalog) (auxrelid : Oid) :
    Option FormData_pg_aux_class :=
  c.pg_aux_class.find? (fun t => t.auxrelid == auxrelid)

/-- The search `SearchSysCache2(AUXCLASSRELIDATT, relid, attnum)`: the row with that pair. -/
def SearchSysCache2_AUXCLASSRELIDATT (c : Catalog) (relid : Oid) (attnum : AttrNumber) :
    Option FormData_pg_aux_class :=
  c.pg_aux_class.find? (fun t => t.relid == relid && t.attnum == attnum)

/-- Modelled from the spec: the index declarations of `pg_aux_class`
(`catalog/indexing.h`) are not among the sources.  The spec's data model has
`auxrelid` unique and `(relid, attnum)` unique, and an insert that breaks
either fails with a constraint violation raised by the store.  This is the
check `CatalogUpdateIndexes` makes for a new row. -/
def CatalogUpdateIndexes (c : Catalog) (t : FormData_pg_aux_class) : Except Err Unit :=
  if c.pg_aux_class.any (fun u => u.auxrelid == t.auxrelid) then
    .error (.ereport .UNIQUE_VIOLATION [])
  else if c.pg_aux_class.any (fun u => u.relid == t.relid && u.attnum == t.attnum) then
    .error (.ereport .UNIQUE_VIOLATION [])
  else
    .ok ()

def recordDependencyOn (c : Catalog) (depender referenced : ObjectAddress)
    (behavior : DependencyType) : Catalog :=
  { c with pg_depend := c.pg_depend ++ [⟨depender, referenced, behavior⟩] }

/-- The call `simple_heap_insert(auxrelation, tuple)`: the row is added at the
end of the heap. -/
def simple_heap_insert (c : Catalog) (tuple : FormData_pg_aux_class) : Catalog :=
  { c with pg_aux_class := c.pg_aux_class ++ [tuple] }

/-- Function `InsertAuxClassTuple`: add the record to `pg_aux_class`, keep the
indexes up to date, and record the two dependency edges.  The index entries
that `CatalogUpdateIndexes` finds are those of the rows before the insert. -/
def InsertAuxClassTuple (c : Catalog) (auxrelid relid : Oid) (attnum : AttrNumber) :
    Except Err Catalog :=
  let tuple : FormData_pg_aux_class := ⟨auxrelid, relid, attnum⟩
  let c1 := heap_open c
  let c2 := simple_heap_insert c1 tuple
  /- keep the catalog indexes up to date -/
  match CatalogUpdateIndexes c1 tuple with
  | .error e => .error e
  | .ok () =>
    let c3 := heap_close c2
    /- reference object address -/
    let referenced : ObjectAddress := ⟨.RelationRelationId, relid, attnum⟩
    /- Make pg_aux_class object depend entry -/
    let c4 := recordDependencyOn c3 ⟨.AuxClassRelationId, auxrelid, 0⟩ referenced
      .DEPENDENCY_AUTO
    /- Make pg_class object depend entry -/
    .ok (recordDependencyOn c4 ⟨.RelationRelationId, auxrelid, 0⟩ referenced
      .DEPENDENCY_NORMAL)

/-- The call `simple_heap_delete(auxrelation, &tuple->t_self)` for the tuple a syscache
search on `key` returned: the first row matching the key leaves the heap. -/
def simple_heap_delete (c : Catalog) (key : FormData_pg_aux_class → Bool) : Catalog :=
  { c with pg_aux_class := c.pg_aux_class.eraseP key }

/-- Function `RemoveAuxClassTuple`: remove the record found by `auxrelid` if that is
valid, else by `(relid, attnum)`.  When no tuple is found the function returns
at once, before `heap_close`. -/
def RemoveAuxClassTuple (c : Catalog) (auxrelid relid : Oid) (attnum : AttrNumber) :
    Catalog :=
  let c1 := heap_open c
  if OidIsValid auxrelid then
    match SearchSysCache1_AUXCLASSIDENT c1 auxrelid with
    | none => c1
    | some _ => heap_close (simple_heap_delete c1 (fun t => t.auxrelid == auxrelid))
  else
    match SearchSysCache2_AUXCLASSRELIDATT c1 relid attnum with
    | none => c1
    | some _ =>
      heap_close (simple_heap_delete c1 (fun t => t.relid == relid && t.attnum == attnum))

/-- Function `LookupAuxRelation`: the auxiliary relation of a master relation and
attribute number, `InvalidOid` when there is none. -/
def LookupAuxRelation (c : Catalog) (relid : Oid) (attnum : AttrNumber) : Oid :=
  if !OidIsValid relid || !AttrNumberIsForUserDefinedAttr attnum then
    InvalidOid
  else
    match SearchSysCache2_AUXCLASSRELIDATT c relid attnum with
    | none => InvalidOid
    | some auxtup => auxtup.auxrelid

/-- Function `LookupAuxMasterRel`: the master relation of an auxiliary relation.  The
argument `attnum` is the out-parameter: `none` is a null pointer, `some v` a
cell holding `v`; the second component of the result is the cell afterwards. -/
def LookupAuxMasterRel (c : Catalog) (auxrelid : Oid) (attnum : Option AttrNumber) :
    Oid × Option AttrNumber :=
  let attnum1 := attnum.map (fun _ => InvalidAttrNumber)
  if !OidIsValid auxrelid then
    (InvalidOid, attnum1)
  else
    match SearchSysCache1_AUXCLASSIDENT c auxrelid with
    | none => (InvalidOid, attnum1)
    | some auxtup => (auxtup.relid, attnum1.map (fun _ => auxtup.attnum))

/-- A call of the catalog manager that changes `pg_aux_class`. -/
inductive CatalogOp where
  | insert (auxrelid relid : Oid) (attnum : AttrNumber)
  | remove (auxrelid relid : Oid) (attnum : AttrNumber)
  deriving DecidableEq, Repr

def applyCatalogOp (c : Catalog) : CatalogOp → Except Err Catalog
  | .insert a r n => InsertAuxClassTuple c a r n
  | .remove a r n => .ok (RemoveAuxClassTuple c a r n)

/-- Run the calls in order; the first one that raises ends the run. -/
def runCatalogOps (c : Catalog) : List CatalogOp → Except Err Catalog
  | [] => .ok c
  | op :: ops =>
    match applyCatalogOp c op with
    | .error e => .error e
    | .ok c1 => runCatalogOps c1 ops

/-- The row `t` is the only row of `l` under either of its two keys. -/
def SoleOwner (t : FormData_pg_aux_class) (l : List FormData_pg_aux_class) : Prop :=
  (∀ u ∈ l, u.auxrelid = t.auxrelid → u = t) ∧
  (∀ u ∈ l, u.relid = t.relid → u.attnum = t.attnum → u = t)

/-- The uniqueness invariants of `pg_aux_class`: no two rows share an
`auxrelid`, and no two rows share a pair `(relid, attnum)`. -/
def UniqueKeys (l : List FormData_pg_aux_class) : Prop :=
  l.Pairwise (fun u v => u.auxrelid ≠ v.auxrelid ∧ ¬ (u.relid = v.relid ∧ u.attnum = v.attnum))

/-- The tuple `RemoveAuxClassTuple` looks for: by `auxrelid` if valid, else by
`(relid, attnum)`. -/
def RemoveTarget (c : Catalog) (auxrelid relid : Oid) (attnum : AttrNumber) :
    Option FormData_pg_aux_class :=
  if OidIsValid auxrelid then SearchSysCache1_AUXCLASSIDENT c auxrelid
  else SearchSysCache2_AUXCLASSRELIDATT c relid attnum

/-! ## Relations, attributes and distribution descriptors -/

/-- The locator types `QueryRewriteAuxStmt` switches on; `OTHER` is any value
that reaches the `default` label. -/
inductive LocatorType where
  | LOCATOR_TYPE_REPLICATED
  | LOCATOR_TYPE_RROBIN
  | LOCATOR_TYPE_USER_DEFINED
  | LOCATOR_TYPE_HASH
  | LOCATOR_TYPE_MODULO
  | LOCATOR_TYPE_CUSTOM
  | LOCATOR_TYPE_RANGE
  | LOCATOR_TYPE_NONE
  | LOCATOR_TYPE_DISTRIBUTED
  | OTHER
  deriving DecidableEq, Repr

/-- The fields of `RelationLocInfo` read by `auxtablecmds.c`. -/
structure RelationLocInfo where
  locatorType : LocatorType
  partAttrNum : AttrNumber
  funcAttrNums : List Int
  deriving DecidableEq, Repr

/-- The fields of `FormData_pg_attribute` read by `auxtablecmds.c`. -/
structure FormData_pg_attribute where
  attname : CString
  atttypid : Oid
  atttypmod : Int
  attnum : AttrNumber
  attisdropped : Bool
  attcollation : Oid
  deriving DecidableEq, Repr

/-- A set of non-negative integers (`nodes/bitmapset.h`), kept as the list of
its members; the order in the list has no meaning. -/
abbrev Bitmapset := List Nat

/-- An open relation: `rd_att` is the attribute array of its tuple descriptor
(`natts` is its length; the attribute numbered `n` is at index `n - 1`).  Every
function of the file that reads `rd_locator_info` dereferences it without a
test, so a relation carries one. -/
structure Relation where
  rd_id : Oid
  relname : CString
  relnamespace : Oid
  relhasoids : Bool
  rd_att : List FormData_pg_attribute
  rd_locator_info : RelationLocInfo
  rd_auxlist : List Oid
  rd_auxatt : Bitmapset
  deriving DecidableEq, Repr

/-- Declarations of the AntDB headers that `auxtablecmds.c` uses and that are
not among the sources (`pgxc/locator.h`, `access/sysattr.h`): the function
behind the test `IsRelationDistributedByValue`, and the numbers of the
node-identifier system attribute and of the first invalid low attribute
number.  `FirstLowInvalidHeapAttributeNumber` lies below every system
attribute number, and system attribute numbers are negative. -/
structure Decls where
  IsLocatorDistributedByValue : LocatorType → Bool
  XC_NodeIdAttributeNumber : AttrNumber
  FirstLowInvalidHeapAttributeNumber : AttrNumber
  low_lt_nodeid : FirstLowInvalidHeapAttributeNumber < XC_NodeIdAttributeNumber
  nodeid_lt_self : XC_NodeIdAttributeNumber < -1

def SelfItemPointerAttributeNumber : AttrNumber := -1

def INT4OID : Oid := 23

def TIDOID : Oid := 27

def NAMEDATALEN : Nat := 64

def FirstNormalObjectId : Oid := 16384

/-- Modelled from the spec: `catalog/pg_aux_class.h` is not among the sources.
The spec fixes the layout of an auxiliary relation: `auxnodeid` is its third
live column. -/
def Anum_aux_table_auxnodeid : Int := 3

/-- Modelled from the spec: `catalog/pg_aux_class.h` is not among the sources.
The spec fixes the layout of an auxiliary relation: `auxctid` is its fourth
live column. -/
def Anum_aux_table_auxctid : Int := 4

def IsRelationDistributedByValue (d : Decls) (loc : RelationLocInfo) : Bool :=
  d.IsLocatorDistributedByValue loc.locatorType

def IsRelationDistributedByUserDefined (loc : RelationLocInfo) : Bool :=
  loc.locatorType == .LOCATOR_TYPE_USER_DEFINED

/-- The read `linitial_int(l)`: the first element; on the empty list (a null pointer)
the read faults. -/
def linitial_int : List Int → Except Err Int
  | [] => .error .fault
  | x :: _ => .ok x

/-- The read `attrs[i]` for a C `int` index into the attribute array: a read outside
the array is a fault. -/
def attrsAt (attrs : List FormData_pg_attribute) (i : Int) : Except Err FormData_pg_attribute :=
  if i < 0 then .error .fault
  else
    match attrs.get? i.toNat with
    | none => .error .fault
    | some a => .ok a

/-! ## Name and column synthesis -/

structure ColumnDef where
  colname : CString
  typeOid : Oid
  typmod : Int
  collOid : Oid
  deriving DecidableEq, Repr

def makeColumnDef (colname : CString) (typeOid : Oid) (typmod : Int) (collOid : Oid) :
    ColumnDef :=
  ⟨colname, typeOid, typmod, collOid⟩

/-- Function `MakeAuxTableColumns`: the column definitions of the auxiliary table of
`auxcolumn` on `rel`, and the value stored through `distattnum` (the caller
passes a non-null pointer). -/
def MakeAuxTableColumns (d : Decls) (auxcolumn : FormData_pg_attribute) (rel : Relation) :
    Except Err (List ColumnDef × AttrNumber) :=
  /- 1. auxiliary column -/
  let tableElts : List ColumnDef := [] ++
    [makeColumnDef auxcolumn.attname auxcolumn.atttypid auxcolumn.atttypmod
      auxcolumn.attcollation]
  /- 2. distribute column -/
  let loc := rel.rd_locator_info
  let attnumR : Except Err AttrNumber :=
    if IsRelationDistributedByValue d loc then .ok loc.partAttrNum
    else if IsRelationDistributedByUserDefined loc then linitial_int loc.funcAttrNums
    else /- should not reach here -/ .ok InvalidAttrNumber
  match attnumR with
  | .error e => .error e
  | .ok attnum =>
    match attrsAt rel.rd_att (attnum - 1) with
    | .error e => .error e
    | .ok discolumn =>
      let tableElts := tableElts ++
        [makeColumnDef discolumn.attname discolumn.atttypid discolumn.atttypmod
          discolumn.attcollation]
      /- 3. additional fixed columns -- auxnodeid -/
      let tableElts := tableElts ++ [makeColumnDef "auxnodeid".toList INT4OID (-1) 0]
      /- 4. additional fixed columns -- auxctid -/
      let tableElts := tableElts ++ [makeColumnDef "auxctid".toList TIDOID (-1) 0]
      .ok (tableElts, attnum)

/-- The copy `StrNCpy(dst, src, n)`: at most `n - 1` bytes of `src`. -/
def StrNCpy (src : CString) (n : Nat) : CString := src.take (n - 1)

/-- The decimal digits `%d` prints for a non-negative `int`. -/
def decimal (k : Nat) : CString := Nat.toDigits 10 k

/-- The call `snprintf(dst, n, "%s%d", s, k)`: at most `n - 1` bytes of `s` followed by
the decimal digits of `k`. -/
def snprintf_s_d (n : Nat) (s : CString) (k : Nat) : CString := (s ++ decimal k).take (n - 1)

/-- The loop of `ChooseAuxTableName`.  `exists_` is the test
`OidIsValid(get_relname_relid(relname, namespaceid))` and `makeObjectName` the
function of that name (`commands/indexcmds.c`).  The loop has no bound of its
own: `none` says it is still running after `fuel` passes.  The counter `pass`
is an `int`; it would take 2^31 - 1 colliding names to overflow it. -/
def ChooseAuxTableNameLoop (makeObjectName : CString → CString → CString → CString)
    (exists_ : CString → Bool) (name1 name2 label : CString) :
    Nat → Nat → CString → Option CString
  | 0, _, _ => none
  | fuel + 1, pass, modlabel =>
    let relname := makeObjectName name1 name2 modlabel
    if !exists_ relname then some relname
    else
      /- found a conflict, so try a new name component -/
      ChooseAuxTableNameLoop makeObjectName exists_ name1 name2 label fuel (pass + 1)
        (snprintf_s_d NAMEDATALEN label (pass + 1))

/-- Function `ChooseAuxTableName`: try the unmodified label first. -/
def ChooseAuxTableName (makeObjectName : CString → CString → CString → CString)
    (exists_ : CString → Bool) (fuel : Nat) (name1 name2 label : CString) : Option CString :=
  ChooseAuxTableNameLoop makeObjectName exists_ name1 name2 label fuel 0
    (StrNCpy label NAMEDATALEN)

/-! ## Statements and queries -/

structure RangeVar where
  schemaname : Option CString
  relname : CString
  deriving DecidableEq, Repr

/-- The call `makeRangeVar(schemaname, relname, -1)`. -/
def makeRangeVar (schemaname : Option CString) (relname : CString) : RangeVar :=
  ⟨schemaname, relname⟩

/-- The fields of `CreateStmt` read or written by `QueryRewriteAuxStmt`;
`relation` is a pointer that may be null. -/
structure CreateStmt where
  relation : Option RangeVar
  tableElts : List ColumnDef
  master_relation : Option RangeVar
  aux_attnum : AttrNumber
  deriving DecidableEq, Repr

/-- The fields of `IndexStmt` read or written by `QueryRewriteAuxStmt`; the
other fields of the index payload are `idxname` and `indexParams`. -/
structure IndexStmt where
  relation : Option RangeVar
  idxname : CString
  indexParams : List CString
  deriving DecidableEq, Repr

structure CreateAuxStmt where
  create_stmt : CreateStmt
  index_stmt : IndexStmt
  master_relation : RangeVar
  aux_column : CString
  deriving DecidableEq, Repr

/-- A utility statement node; `OtherStmt` is a node of any other tag. -/
inductive Node where
  | CreateAuxStmt (s : CreateAuxStmt)
  | CreateStmt (s : CreateStmt)
  | IndexStmt (s : IndexStmt)
  | OtherStmt (tag : Nat)
  deriving DecidableEq, Repr

inductive CmdType where
  | CMD_UNKNOWN
  | CMD_SELECT
  | CMD_UPDATE
  | CMD_INSERT
  | CMD_DELETE
  | CMD_UTILITY
  | CMD_NOTHING
  deriving DecidableEq, Repr

inductive QuerySource where
  | QSRC_ORIGINAL
  | QSRC_PARSER
  | QSRC_INSTEAD_RULE
  | QSRC_QUAL_INSTEAD_RULE
  | QSRC_NON_INSTEAD_RULE
  deriving DecidableEq, Repr

/-- The fields of `Query` read or written by `QueryRewriteAuxStmt`; `body`
stands for all the other fields, which the function leaves alone. -/
structure Query where
  commandType : CmdType
  querySource : QuerySource
  canSetTag : Bool
  utilityStmt : Option Node
  body : Nat
  deriving DecidableEq, Repr

/-- An element of a list of parse or query trees: a `Query`, or a node for
which `IsA(node, Query)` is false. -/
inductive TreeNode where
  | Query (q : Query)
  | NotQuery (n : Node)
  deriving DecidableEq, Repr

/-- A raw parse tree, as `pg_parse_query` returns it. -/
structure RawStmt where
  tree : Nat
  deriving DecidableEq, Repr

/-- The services of the rest of the server that `QueryRewriteAuxStmt` calls,
over a database state `DB`.  Each is a function of what it is passed and of the
database; those that can raise return `Except`.  `pg_analyze_and_rewrite` takes
as its first argument the value the process-wide flag `enable_aux_dml` has
while it runs. -/
structure Services (DB : Type) where
  RangeVarGetRelidExtended : DB → RangeVar → Except Err Oid
  relation_open : DB → Oid → Except Err Relation
  SearchSysCacheAttName : DB → Oid → CString → Option FormData_pg_attribute
  IsDistribColumn : DB → Oid → AttrNumber → Bool
  get_relname_relid : DB → CString → Oid → Oid
  makeObjectName : CString → CString → CString → CString
  deparse_query : Query → CString
  ProcessUtility : DB → Node → CString → Except Err DB
  pg_parse_query : CString → Except Err (List RawStmt)
  pg_analyze_and_rewrite : Bool → DB → RawStmt → CString → Except Err (List TreeNode)

/-- What a call of `QueryRewriteAuxStmt` leaves behind: its result (the
returned list, or the error raised), the flag `enable_aux_dml`, the database,
the utility statements it has passed to `ProcessUtility` (in call order), the
values the flag had at each call of `pg_analyze_and_rewrite`, and the caller's
`Query` object, which the function changes in place. -/
structure Outcome (DB : Type) where
  result : Except Err (List TreeNode)
  enable_aux_dml : Bool
  db : DB
  utility_calls : List Node
  analysis_flags : List Bool
  auxquery : Query

/-! ## The rewrite of a create-auxiliary-table statement -/

/-- The switch of `QueryRewriteAuxStmt` on the master's locator type ("Master
relation check").  The `default` branch holds only `Assert(false)`. -/
def masterRelationCheck (master_reloc : RelationLocInfo) : Except Err Unit :=
  match master_reloc.locatorType with
  | .LOCATOR_TYPE_REPLICATED => .error (.ereport .FEATURE_NOT_SUPPORTED [])
  | .LOCATOR_TYPE_RROBIN => .error (.ereport .FEATURE_NOT_SUPPORTED [])
  | .LOCATOR_TYPE_USER_DEFINED =>
    if master_reloc.funcAttrNums.length > 1 then
      .error (.ereport .FEATURE_NOT_SUPPORTED [])
    else .ok ()
  | .LOCATOR_TYPE_HASH => .ok ()
  | .LOCATOR_TYPE_MODULO => .ok ()
  | .LOCATOR_TYPE_CUSTOM => .ok ()
  | .LOCATOR_TYPE_RANGE => .ok ()
  | .LOCATOR_TYPE_NONE => .ok ()
  | .LOCATOR_TYPE_DISTRIBUTED => .ok ()
  | .OTHER => .ok ()

/-- The three tests of `QueryRewriteAuxStmt` on the named column ("Auxiliary
column check"); the result is the column's `pg_attribute` row. -/
def auxiliaryColumnCheck {DB : Type} (svc : Services DB) (db : DB) (master_relid : Oid)
    (aux_column : CString) : Except Err FormData_pg_attribute :=
  match svc.SearchSysCacheAttName db master_relid aux_column with
  | none => .error (.ereport .UNDEFINED_COLUMN aux_column)
  | some auxattform =>
    if !AttrNumberIsForUserDefinedAttr auxattform.attnum then
      .error (.ereport .FEATURE_NOT_SUPPORTED aux_column)
    else if svc.IsDistribColumn db master_relid auxattform.attnum then
      .error (.ereport .FEATURE_NOT_SUPPORTED aux_column)
    else .ok auxattform

/-- The text of the population statement, as the `appendStringInfo` calls
build it. -/
def insertQueryString (auxrel master : RangeVar) (auxattname disattname : CString) : CString :=
  "INSERT INTO ".toList
    ++ (match auxrel.schemaname with
        | some s => s ++ ".".toList
        | none => [])
    ++ (auxrel.relname ++ " ".toList)
    ++ ("SELECT ".toList ++ auxattname ++ ", ".toList ++ disattname
          ++ ", xc_node_id, ctid FROM ".toList)
    ++ (match master.schemaname with
        | some s => s ++ ".".toList
        | none => [])
    ++ (master.relname ++ ";".toList)

/-- The body of the inner `foreach`: a `Query` is marked, and every element is
appended. -/
def markInsertQuery : TreeNode → TreeNode
  | .Query q => .Query { q with canSetTag := false, querySource := .QSRC_PARSER }
  | .NotQuery n => .NotQuery n

/-- The two nested `foreach` loops inside `PG_TRY`: analyse each raw parse tree
with the flag at `flag`, and append its marked sub-statements to
`rewrite_tree_list`.  The second component counts the calls of
`pg_analyze_and_rewrite` made, the failing one included. -/
def analyzeLoop {DB : Type} (svc : Services DB) (flag : Bool) (db : DB) (querystr : CString) :
    List RawStmt → List TreeNode → Except Err (List TreeNode) × Nat
  | [], rewrite_tree_list => (.ok rewrite_tree_list, 0)
  | lc :: rest, rewrite_tree_list =>
    match svc.pg_analyze_and_rewrite flag db lc querystr with
    | .error e => (.error e, 1)
    | .ok each_querytree_list =>
      let r := analyzeLoop svc flag db querystr rest
        (rewrite_tree_list ++ each_querytree_list.map markInsertQuery)
      (r.1, r.2 + 1)

/-- The region of `QueryRewriteAuxStmt` from the save of `enable_aux_dml` to
its restore after `PG_END_TRY`, entered with the flag at `enable_aux_dml`: the
result of the loops (the list built, or the error re-thrown by `PG_CATCH`),
the flag on leaving the region, and the value the flag had at each call of
`pg_analyze_and_rewrite`. -/
def populationAnalysis {DB : Type} (svc : Services DB) (enable_aux_dml : Bool) (db : DB)
    (querystr : CString) (raw_insert_parsetree : List RawStmt) :
    Except Err (List TreeNode) × Bool × List Bool :=
  let saved_enable_aux_dml := enable_aux_dml
  let enable_aux_dml := true
  let analysed := analyzeLoop svc enable_aux_dml db querystr raw_insert_parsetree []
  let analysis_flags := List.replicate analysed.2 enable_aux_dml
  match analysed.1 with
  | .error e =>
    /- PG_CATCH: restore the flag and re-throw -/
    let enable_aux_dml := saved_enable_aux_dml
    (.error e, enable_aux_dml, analysis_flags)
  | .ok rewrite_tree_list =>
    let enable_aux_dml := saved_enable_aux_dml
    (.ok rewrite_tree_list, enable_aux_dml, analysis_flags)

/-- The part of `QueryRewriteAuxStmt` after its checks, from "choose auxiliary
table name" to the `return`: `auxstmt` is the statement of `auxquery`,
`master_relation` the open master relation and `auxattform` the row of the
column to index. -/
def rewriteCheckedAuxStmt {DB : Type} (d : Decls) (svc : Services DB) (fuel : Nat)
    (enable_aux_dml : Bool) (db : DB) (auxquery : Query) (auxstmt : CreateAuxStmt)
    (master_relation : Relation) (auxattform : FormData_pg_attribute) :
    Option (Outcome DB) :=
  let master_nspid := master_relation.relnamespace
  /- choose auxiliary table name -/
  let named : Option (RangeVar × Option RangeVar) :=
    match auxstmt.create_stmt.relation with
    | some rv => some (rv, auxstmt.index_stmt.relation)
    | none =>
      match ChooseAuxTableName svc.makeObjectName
          (fun relname => OidIsValid (svc.get_relname_relid db relname master_nspid)) fuel
          master_relation.relname auxattform.attname "aux".toList with
      | none => none
      | some relname => some (makeRangeVar none relname, some (makeRangeVar none relname))
  match named with
  | none => none
  | some (create_relation, index_relation) =>
  let index_stmt : IndexStmt := { auxstmt.index_stmt with relation := index_relation }
  let named_stmt : CreateStmt := { auxstmt.create_stmt with relation := some create_relation }
  let auxquery1 : Query := { auxquery with
    utilityStmt := some (.CreateAuxStmt { auxstmt with
      create_stmt := named_stmt, index_stmt := index_stmt }) }
  /- makeup table elements -/
  match MakeAuxTableColumns d auxattform master_relation with
  | .error e => some ⟨.error e, enable_aux_dml, db, [], [], auxquery1⟩
  | .ok (tableElts, distattnum) =>
  let create_stmt : CreateStmt := { named_stmt with
    tableElts := tableElts, aux_attnum := auxattform.attnum }
  let auxquery2 : Query := { auxquery with
    utilityStmt := some (.CreateAuxStmt { auxstmt with
      create_stmt := create_stmt, index_stmt := index_stmt }) }
  match attrsAt master_relation.rd_att (distattnum - 1) with
  | .error e => some ⟨.error e, enable_aux_dml, db, [], [], auxquery2⟩
  | .ok disattform =>
  let create_query : Query := { auxquery2 with
    commandType := .CMD_UTILITY, utilityStmt := some (.CreateStmt create_stmt) }
  let querystr := svc.deparse_query create_query
  /- create auxiliary table first -/
  match svc.ProcessUtility db (.CreateStmt create_stmt) querystr with
  | .error e => some ⟨.error e, enable_aux_dml, db, [.CreateStmt create_stmt], [], auxquery2⟩
  | .ok db1 =>
  /- Insert into auxiliary table -/
  let querystr := insertQueryString create_relation auxstmt.master_relation
    auxattform.attname disattform.attname
  match svc.pg_parse_query querystr with
  | .error e => some ⟨.error e, enable_aux_dml, db1, [.CreateStmt create_stmt], [], auxquery2⟩
  | .ok raw_insert_parsetree =>
  match populationAnalysis svc enable_aux_dml db1 querystr raw_insert_parsetree with
  | (.error e, enable_aux_dml, analysis_flags) =>
    some ⟨.error e, enable_aux_dml, db1, [.CreateStmt create_stmt], analysis_flags, auxquery2⟩
  | (.ok rewrite_tree_list, enable_aux_dml, analysis_flags) =>
  /- Create index for auxiliary table -/
  let auxquery3 : Query := { auxquery2 with
    utilityStmt := some (.IndexStmt index_stmt),
    canSetTag := false,
    querySource := .QSRC_PARSER }
  some ⟨.ok (rewrite_tree_list ++ [.Query auxquery3]), enable_aux_dml, db1,
    [.CreateStmt create_stmt], analysis_flags, auxquery3⟩

/-- The call `QueryRewriteAuxStmt(auxquery)`, made with the flag `enable_aux_dml` at
`enable_aux_dml` and the database at `db`.  `fuel` bounds the loop of
`ChooseAuxTableName`; the result is `none` when that loop is still running
after `fuel` passes. -/
def QueryRewriteAuxStmt {DB : Type} (d : Decls) (svc : Services DB) (fuel : Nat)
    (enable_aux_dml : Bool) (db : DB) (auxquery : Query) : Option (Outcome DB) :=
  let raise (e : Err) : Option (Outcome DB) :=
    some ⟨.error e, enable_aux_dml, db, [], [], auxquery⟩
  if auxquery.commandType != .CMD_UTILITY then raise (.ereport .INTERNAL_ERROR [])
  else
  match auxquery.utilityStmt with
  | none => raise .fault
  | some (.CreateStmt _) => raise (.ereport .INTERNAL_ERROR [])
  | some (.IndexStmt _) => raise (.ereport .INTERNAL_ERROR [])
  | some (.OtherStmt _) => raise (.ereport .INTERNAL_ERROR [])
  | some (.CreateAuxStmt auxstmt) =>
  /- Master relation check -/
  match svc.RangeVarGetRelidExtended db auxstmt.master_relation with
  | .error e => raise e
  | .ok master_relid =>
  match svc.relation_open db master_relid with
  | .error e => raise e
  | .ok master_relation =>
  match masterRelationCheck master_relation.rd_locator_info with
  | .error e => raise e
  | .ok () =>
  /- Auxiliary column check -/
  match auxiliaryColumnCheck svc db master_relid auxstmt.aux_column with
  | .error e => raise e
  | .ok auxattform =>
  rewriteCheckedAuxStmt d svc fuel enable_aux_dml db auxquery auxstmt master_relation
    auxattform

/-! ## Execution-time column mapper -/

/-- The call `bms_make_singleton(x)`; a negative member is refused with
`elog(ERROR)`. -/
def bms_make_singleton (x : Int) : Except Err Bitmapset :=
  if x < 0 then .error (.ereport .INTERNAL_ERROR []) else .ok [x.toNat]

/-- The call `bms_add_member(a, x)`; a negative member is refused with
`elog(ERROR)`. -/
def bms_add_member (a : Bitmapset) (x : Int) : Except Err Bitmapset :=
  if x < 0 then .error (.ereport .INTERNAL_ERROR [])
  else if x.toNat ∈ a then .ok a
  else .ok (a ++ [x.toNat])

/-- The test `bms_is_member(x, a)` for a non-negative `x`. -/
def bms_is_member (x : Int) (a : Bitmapset) : Bool :=
  decide (0 ≤ x) && decide (x.toNat ∈ a)

/-- The call `bms_next_member(a, prevbit)`: the smallest member greater than
`prevbit`, or -2 when there is none. -/
def bms_next_member (a : Bitmapset) (prevbit : Int) : Int :=
  match (a.filter (fun (m : Nat) => decide (prevbit < (m : Int)))).min? with
  | some m => (m : Int)
  | none => -2

/-- The loop `while ((x = bms_next_member(rel->rd_auxatt, x)) >= 0)` of
`MakeAuxMainRelResultAttnos`, entered with `x` and `attr`; `none` says the loop
is still running after `fuel` passes. -/
def auxiliaryColumnsLoop (d : Decls) (rd_auxatt : Bitmapset) :
    Nat → Int → Bitmapset → Option (Except Err Bitmapset)
  | 0, _, _ => none
  | fuel + 1, x, attr =>
    let x := bms_next_member rd_auxatt x
    if x ≥ 0 then
      match bms_add_member attr (x - d.FirstLowInvalidHeapAttributeNumber) with
      | .error e => some (.error e)
      | .ok attr => auxiliaryColumnsLoop d rd_auxatt fuel x attr
    else some (.ok attr)

/-- The call `MakeAuxMainRelResultAttnos(rel)`; `fuel` bounds the passes of its loop
over `rd_auxatt`, and the result is `none` when the loop is still running after
`fuel` passes. -/
def MakeAuxMainRelResultAttnos (d : Decls) (fuel : Nat) (rel : Relation) :
    Option (Except Err Bitmapset) :=
  /- system attrs -/
  match bms_make_singleton
      (SelfItemPointerAttributeNumber - d.FirstLowInvalidHeapAttributeNumber) with
  | .error e => some (.error e)
  | .ok attr =>
  match bms_add_member attr
      (d.XC_NodeIdAttributeNumber - d.FirstLowInvalidHeapAttributeNumber) with
  | .error e => some (.error e)
  | .ok attr =>
  /- distribute key -/
  let keyed : Except Err Bitmapset :=
    if IsRelationDistributedByUserDefined rel.rd_locator_info then
      if rel.rd_locator_info.funcAttrNums.length != 1 then
        .error (.ereport .FEATURE_NOT_SUPPORTED [])
      else
        match linitial_int rel.rd_locator_info.funcAttrNums with
        | .error e => .error e
        | .ok first => bms_add_member attr (first - d.FirstLowInvalidHeapAttributeNumber)
    else if IsRelationDistributedByValue d rel.rd_locator_info then
      bms_add_member attr
        (rel.rd_locator_info.partAttrNum - d.FirstLowInvalidHeapAttributeNumber)
    else
      .error (.ereport .FEATURE_NOT_SUPPORTED [])
  match keyed with
  | .error e => some (.error e)
  | .ok attr =>
  /- auxiliary columns -/
  auxiliaryColumnsLoop d rel.rd_auxatt fuel (-1) attr

/-- Modelled from the spec: `SystemAttributeDefinition` (`catalog/heap.c`) is
not among the sources.  These are the two rows of its table that
`MakeMainRelTargetForAux` asks for: the self-tuple-identifier pseudo-column
`ctid`, of the tuple-identifier type, and the node-identifier pseudo-column
`xc_node_id`, a 4-byte integer, both without type modifier. -/
def SystemAttributeDefinition (d : Decls) (attno : AttrNumber) (_relhasoids : Bool) :
    Option FormData_pg_attribute :=
  if attno = SelfItemPointerAttributeNumber then
    some ⟨"ctid".toList, TIDOID, -1, SelfItemPointerAttributeNumber, false, 0⟩
  else if attno = d.XC_NodeIdAttributeNumber then
    some ⟨"xc_node_id".toList, INT4OID, -1, d.XC_NodeIdAttributeNumber, false, 0⟩
  else none

structure Var where
  varno : Nat
  varattno : AttrNumber
  vartype : Oid
  vartypmod : Int
  varcollid : Oid
  varlevelsup : Nat
  deriving DecidableEq, Repr

def makeVar (varno : Nat) (varattno : AttrNumber) (vartype : Oid) (vartypmod : Int)
    (varcollid : Oid) (varlevelsup : Nat) : Var :=
  ⟨varno, varattno, vartype, vartypmod, varcollid, varlevelsup⟩

structure TargetEntry where
  expr : Var
  resno : AttrNumber
  resname : CString
  resjunk : Bool
  deriving DecidableEq, Repr

def makeTargetEntry (expr : Var) (resno : AttrNumber) (resname : CString) (resjunk : Bool) :
    TargetEntry :=
  ⟨expr, resno, resname, resjunk⟩

/-- An element of the list `MakeMainRelTargetForAux` returns. -/
inductive TargetNode where
  | TargetEntry (te : TargetEntry)
  | Var (var : Var)
  deriving DecidableEq, Repr

/-- The inner loop of `MakeMainRelTargetForAux` over the master's attributes:
the first one that is not dropped and has the name, or a null pointer. -/
def findMainAttr (main_attrs : List FormData_pg_attribute) (attname : CString) :
    Option FormData_pg_attribute :=
  main_attrs.find? (fun main_attr => !main_attr.attisdropped && main_attr.attname == attname)

/-- The element `MakeMainRelTargetForAux` appends for the live auxiliary column
number `anum` mapped to `main_attr`: the `Var` made by `makeVar`, wrapped in a
target entry when `target_entry` is set. -/
def mainRelTarget (relid : Nat) (target_entry : Bool) (anum : Int)
    (main_attr : FormData_pg_attribute) : TargetNode :=
  let var := makeVar relid main_attr.attnum main_attr.atttypid main_attr.atttypmod
    main_attr.attcollation 0
  if target_entry then
    .TargetEntry (makeTargetEntry var anum main_attr.attname false)
  else .Var var

/-- The `Var` of an element of the list `MakeMainRelTargetForAux` returns. -/
def targetVar : TargetNode → Var
  | .TargetEntry te => te.expr
  | .Var var => var

/-- The outer loop of `MakeMainRelTargetForAux` over the auxiliary relation's
attributes still to visit, with the counter `anum` and the list built so far. -/
def MakeMainRelTargetForAuxLoop (d : Decls) (main_rel : Relation) (relid : Nat)
    (target_entry : Bool) :
    List FormData_pg_attribute → Int → List TargetNode → Except Err (List TargetNode)
  | [], _, result => .ok result
  | aux_attr :: rest, anum, result =>
    if aux_attr.attisdropped then
      MakeMainRelTargetForAuxLoop d main_rel relid target_entry rest anum result
    else
      let anum := anum + 1
      let attname := aux_attr.attname
      let main_attr : Option FormData_pg_attribute :=
        if anum == Anum_aux_table_auxnodeid then
          SystemAttributeDefinition d d.XC_NodeIdAttributeNumber main_rel.relhasoids
        else if anum == Anum_aux_table_auxctid then
          SystemAttributeDefinition d SelfItemPointerAttributeNumber main_rel.relhasoids
        else findMainAttr main_rel.rd_att attname
      match main_attr with
      | none => .error (.ereport .DATATYPE_MISMATCH attname)
      | some main_attr =>
        if main_attr.atttypid != aux_attr.atttypid
            || main_attr.atttypmod != aux_attr.atttypmod then
          .error (.ereport .DATATYPE_MISMATCH attname)
        else
          MakeMainRelTargetForAuxLoop d main_rel relid target_entry rest anum
            (result ++ [mainRelTarget relid target_entry anum main_attr])

/-- The call `MakeMainRelTargetForAux(main_rel, aux_rel, relid, target_entry)`:
the outer loop run from the first attribute with `anum = 0` and the empty list. -/
def MakeMainRelTargetForAux (d : Decls) (main_rel aux_rel : Relation) (relid : Nat)
    (target_entry : Bool) : Except Err (List TargetNode) :=
  MakeMainRelTargetForAuxLoop d main_rel relid target_entry aux_rel.rd_att 0 []

/-! ## The relation-cache view of `pg_aux_class` -/

/-- The order of the index `AuxClassRelidAttnumIndexId` among the rows of one
`relid`: by `attnum`. -/
def attnumLE (a b : FormData_pg_aux_class) : Prop := a.attnum ≤ b.attnum

instance : DecidableRel attnumLE := fun a b => inferInstanceAs (Decidable (a.attnum ≤ b.attnum))

/-- The rows that `systable_getnext` returns, in order, for the scan of
`pg_aux_class` through the index `AuxClassRelidAttnumIndexId` with the one key
`relid = relid`: the rows of that `relid`, in the order of the index. -/
def systable_scan_relid (c : Catalog) (relid : Oid) : List FormData_pg_aux_class :=
  (c.pg_aux_class.filter (fun t => t.relid == relid)).insertionSort attnumLE

/-- The `while` loop of `RelationBuildAuxiliary` over the rows of the scan still
to come, with `auxlist` and `auxatt` as built so far. -/
def RelationBuildAuxiliaryLoop :
    List FormData_pg_aux_class → List Oid → Bitmapset → Except Err (List Oid × Bitmapset)
  | [], auxlist, auxatt => .ok (auxlist, auxatt)
  | form_aux :: rest, auxlist, auxatt =>
    let auxlist := auxlist ++ [form_aux.auxrelid]
    match bms_add_member auxatt form_aux.attnum with
    | .error e => .error e
    | .ok auxatt => RelationBuildAuxiliaryLoop rest auxlist auxatt

/-- The call `RelationBuildAuxiliary(rel)` on the catalog `c`: the relation as
the call leaves it.  The catalog is only read (`heap_open` and `heap_close`
with `AccessShareLock` are paired). -/
def RelationBuildAuxiliary (c : Catalog) (rel : Relation) : Except Err Relation :=
  if rel.rd_id < FirstNormalObjectId then .ok rel
  else
    match RelationBuildAuxiliaryLoop (systable_scan_relid c rel.rd_id) [] [] with
    | .error e => .error e
    | .ok (auxlist, auxatt) => .ok { rel with rd_auxlist := auxlist, rd_auxatt := auxatt }

/-! ## A worked example: `orders(id int, region text, status text)` -/

/-- The master relation of the spec's scenario, hash-distributed on `region`. -/
def ordersRelation : Relation :=
  { rd_id := 16384
    relname := "orders".toList
    relnamespace := 2200
    relhasoids := false
    rd_att :=
      [ ⟨"id".toList, 23, -1, 1, false, 0⟩,
        ⟨"region".toList, 25, -1, 2, false, 100⟩,
        ⟨"status".toList, 25, -1, 3, false, 100⟩ ]
    rd_locator_info := ⟨.LOCATOR_TYPE_HASH, 2, []⟩
    rd_auxlist := []
    rd_auxatt := [] }

/-- The auxiliary relation of `orders` on `status`, after a column added to it
later was dropped again. -/
def ordersStatusAux : Relation :=
  { rd_id := 16385
    relname := "orders_status_aux".toList
    relnamespace := 2200
    relhasoids := false
    rd_att :=
      [ ⟨"status".toList, 25, -1, 1, false, 100⟩,
        ⟨"region".toList, 25, -1, 2, false, 100⟩,
        ⟨"........pg.dropped.3........".toList, 0, -1, 3, true, 0⟩,
        ⟨"auxnodeid".toList, 23, -1, 4, false, 0⟩,
        ⟨"auxctid".toList, 27, -1, 5, false, 0⟩ ]
    rd_locator_info := ⟨.LOCATOR_TYPE_HASH, 1, []⟩
    rd_auxlist := []
    rd_auxatt := [] }

/-- The header declarations as Postgres-XC has them: hash, modulo and range
distribute by value; `xc_node_id` is attribute -8 and the first invalid low
attribute number is -9. -/
def exampleDecls : Decls :=
  { IsLocatorDistributedByValue := fun t =>
      t == .LOCATOR_TYPE_HASH || t == .LOCATOR_TYPE_MODULO || t == .LOCATOR_TYPE_RANGE
    XC_NodeIdAttributeNumber := -8
    FirstLowInvalidHeapAttributeNumber := -9
    low_lt_nodeid := by decide
    nodeid_lt_self := by decide }

/-- The three parts joined by underscores: what `makeObjectName` gives for
parts that fit the identifier length together. -/
def exampleObjectName (name1 name2 label : CString) : CString :=
  name1 ++ "_".toList ++ name2 ++ "_".toList ++ label

/-- Services over a database that is the list of relation names of the one
namespace and holds the master relation `rel` under the name `orders`: creating
a table adds its name; the population statement parses to `raws`; the analysis
of the raw tree 0 gives one `INSERT` query when `enable_aux_dml` is on, and the
analysis of any other raw tree, or with the flag off, is refused. -/
def exampleServices (rel : Relation) (raws : List RawStmt) : Services (List CString) :=
  { RangeVarGetRelidExtended := fun _ rv =>
      if rv.relname = "orders".toList then .ok 16384 else .error (.ereport (.EXTERNAL 0) [])
    relation_open := fun _ relid =>
      if relid = 16384 then .ok rel else .error (.ereport .INTERNAL_ERROR [])
    SearchSysCacheAttName := fun _ _ attname =>
      if attname = "ctid".toList then some ⟨"ctid".toList, 27, -1, -1, false, 0⟩
      else rel.rd_att.find? (fun a => !a.attisdropped && a.attname == attname)
    IsDistribColumn := fun _ _ attnum => attnum == rel.rd_locator_info.partAttrNum
    get_relname_relid := fun db relname _ => if relname ∈ db then 16400 else InvalidOid
    makeObjectName := exampleObjectName
    deparse_query := fun _ => "CREATE TABLE".toList
    ProcessUtility := fun db stmt _ =>
      match stmt with
      | .CreateStmt s =>
        match s.relation with
        | some rv => .ok (rv.relname :: db)
        | none => .error (.ereport .INTERNAL_ERROR [])
      | _ => .ok db
    pg_parse_query := fun _ => .ok raws
    pg_analyze_and_rewrite := fun flag _ raw _ =>
      if flag && raw.tree == 0 then .ok [.Query ⟨.CMD_INSERT, .QSRC_ORIGINAL, true, none, 1⟩]
      else .error (.ereport (.EXTERNAL 1) []) }

/-- The statement of the spec's scenario: an auxiliary table on `column` of
`orders`, with a create-table payload that carries no name. -/
def exampleAuxQuery (column : CString) : Query :=
  { commandType := .CMD_UTILITY
    querySource := .QSRC_ORIGINAL
    canSetTag := true
    utilityStmt := some (.CreateAuxStmt
      { create_stmt := ⟨none, [], some ⟨none, "orders".toList⟩, 0⟩
        index_stmt := ⟨none, [], [column]⟩
        master_relation := ⟨none, "orders".toList⟩
        aux_column := column })
    body := 0 }

/-- The distribution descriptors the spec says the rewrite rejects:
replicated, round-robin, and user-defined-function with more than one argument
attribute. -/
def RejectedDistribution (loc : RelationLocInfo) : Prop :=
  loc.locatorType = .LOCATOR_TYPE_REPLICATED ∨
  loc.locatorType = .LOCATOR_TYPE_RROBIN ∨
  (loc.locatorType = .LOCATOR_TYPE_USER_DEFINED ∧ loc.funcAttrNums.length > 1)

/-- The distribution descriptor `loc` resolves to the one shard-key attribute
number `S`: it distributes by value on `partAttrNum = S`, or by a user-defined
function whose only argument attribute is `S`. -/
def ShardKey (d : Decls) (loc : RelationLocInfo) (S : AttrNumber) : Prop :=
  (IsRelationDistributedByValue d loc = true ∧
    IsRelationDistributedByUserDefined loc = false ∧ loc.partAttrNum = S) ∨
  (IsRelationDistributedByValue d loc = false ∧
    IsRelationDistributedByUserDefined loc = true ∧ loc.funcAttrNums = [S])

/-- The content of the buffer `modlabel` of `ChooseAuxTableName` during pass
`pass` of its loop: the label as `StrNCpy` left it in pass 0, and as the
`snprintf` of pass `pass` left it afterwards. -/
def modlabelAt (label : CString) (pass : Nat) : CString :=
  if pass = 0 then StrNCpy label NAMEDATALEN else snprintf_s_d NAMEDATALEN label pass

/-- The column definition that describes the attribute `a`: its name, type,
type modifier and collation. -/
def columnDefOf (a : FormData_pg_attribute) : ColumnDef :=
  ⟨a.attname, a.atttypid, a.atttypmod, a.attcollation⟩

/-- The live columns of a relation, as column definitions, in ordinal order. -/
def liveColumns (rel : Relation) : List ColumnDef :=
  (rel.rd_att.filter (fun a => !a.attisdropped)).map columnDefOf

/-- No two live columns of the relation have the same name. -/
def DistinctLiveNames (rel : Relation) : Prop :=
  (rel.rd_att.filter (fun a => !a.attisdropped)).Pairwise
    (fun a b => a.attname ≠ b.attname)

/-- The master attribute that `MakeMainRelTargetForAux` maps the live auxiliary
column number `anum`, named `attname`, to: the node-identifier or the
self-tuple-identifier pseudo-column at the two fixed ordinals, else the first
live master column of that name; `none` is the null pointer. -/
def mainAttrFor (d : Decls) (main_rel : Relation) (anum : Int) (attname : CString) :
    Option FormData_pg_attribute :=
  if anum == Anum_aux_table_auxnodeid then
    SystemAttributeDefinition d d.XC_NodeIdAttributeNumber main_rel.relhasoids
  else if anum == Anum_aux_table_auxctid then
    SystemAttributeDefinition d SelfItemPointerAttributeNumber main_rel.relhasoids
  else findMainAttr main_rel.rd_att attname

/-- The live auxiliary column number `anum` has no counterpart in the master
relation: it is at neither fixed ordinal, and no live master column has its
name. -/
def NoMasterColumn (main_rel : Relation) (anum : Int) (aux_attr : FormData_pg_attribute) :
    Prop :=
  anum ≠ Anum_aux_table_auxnodeid ∧ anum ≠ Anum_aux_table_auxctid ∧
  ∀ m ∈ main_rel.rd_att, m.attisdropped = false → m.attname ≠ aux_attr.attname

/-- The master attribute mapped to the live auxiliary column number `anum`
differs from it in type or in type modifier. -/
def TypeDiffers (d : Decls) (main_rel : Relation) (anum : Int)
    (aux_attr : FormData_pg_attribute) : Prop :=
  ∃ m, mainAttrFor d main_rel anum aux_attr.attname = some m ∧
    (m.atttypid ≠ aux_attr.atttypid ∨ m.atttypmod ≠ aux_attr.atttypmod)

/-- The test `MakeMainRelTargetForAux` makes of the live auxiliary column number
`anum` before it raises: no master attribute, or one of another type or type
modifier. -/
def mismatched (d : Decls) (main_rel : Relation) (anum : Int)
    (aux_attr : FormData_pg_attribute) : Bool :=
  match mainAttrFor d main_rel anum aux_attr.attname with
  | none => true
  | some main_attr =>
    main_attr.atttypid != aux_attr.atttypid || main_attr.atttypmod != aux_attr.atttypmod

/-- The live attributes of a relation, in ordinal order. -/
def liveAttrs (rel : Relation) : List FormData_pg_attribute :=
  rel.rd_att.filter (fun a => !a.attisdropped)

/-- The relations that the step "choose auxiliary table name" of
`QueryRewriteAuxStmt` leaves in the create-table payload and in the
create-index payload: the ones they carry when the create-table payload has a
name, else the name `ChooseAuxTableName` returns in both; `none` when
`ChooseAuxTableName` is still running after `fuel` passes. -/
def namedRelations {DB : Type} (svc : Services DB) (fuel : Nat) (db : DB)
    (auxstmt : CreateAuxStmt) (master_relation : Relation)
    (auxattform : FormData_pg_attribute) : Option (RangeVar × Option RangeVar) :=
  match auxstmt.create_stmt.relation with
  | some rv => some (rv, auxstmt.index_stmt.relation)
  | none =>
    match ChooseAuxTableName svc.makeObjectName
        (fun relname =>
          OidIsValid (svc.get_relname_relid db relname master_relation.relnamespace)) fuel
        master_relation.relname auxattform.attname "aux".toList with
    | none => none
    | some relname => some (makeRangeVar none relname, some (makeRangeVar none relname))

/-! ## Theorems -/

/-! ### Catalog manager -/

theorem find_auxrelid_of_soleOwner {t : FormData_pg_aux_class}
    {l : List FormData_pg_aux_class} (hmem : t ∈ l) (h : SoleOwner t l) :
    l.find? (fun u => u.auxrelid == t.auxrelid) = some t := by
  cases hf : l.find? (fun u => u.auxrelid == t.auxrelid) with
  | none =>
    rw [List.find?_eq_none] at hf
    exact absurd (by simp) (hf t hmem)
  | some u =>
    have hu : u ∈ l := List.mem_of_find?_eq_some hf
    have hp := List.find?_some hf
    simp only [beq_iff_eq] at hp
    rw [h.1 u hu hp]

theorem find_relidatt_of_soleOwner {t : FormData_pg_aux_class}
    {l : List FormData_pg_aux_class} (hmem : t ∈ l) (h : SoleOwner t l) :
    l.find? (fun u => u.relid == t.relid && u.attnum == t.attnum) = some t := by
  cases hf : l.find? (fun u => u.relid == t.relid && u.attnum == t.attnum) with
  | none =>
    rw [List.find?_eq_none] at hf
    exact absurd (by simp) (hf t hmem)
  | some u =>
    have hu : u ∈ l := List.mem_of_find?_eq_some hf
    have hp := List.find?_some hf
    simp only [Bool.and_eq_true, beq_iff_eq] at hp
    rw [h.2 u hu hp.1 hp.2]

theorem InsertAuxClassTuple_rows {c c1 : Catalog} {a r : Oid} {n : AttrNumber}
    (h : InsertAuxClassTuple c a r n = .ok c1) :
    c1.pg_aux_class = c.pg_aux_class ++ [⟨a, r, n⟩] ∧
    (∀ u ∈ c.pg_aux_class, u.auxrelid ≠ a) ∧
    (∀ u ∈ c.pg_aux_class, ¬ (u.relid = r ∧ u.attnum = n)) := by
  unfold InsertAuxClassTuple CatalogUpdateIndexes at h
  simp only [heap_open, heap_close, recordDependencyOn, simple_heap_insert] at h
  split at h
  · exact absurd h (by simp)
  · rename_i heq
    split at heq
    · exact absurd heq (by simp)
    · split at heq
      · exact absurd heq (by simp)
      · rename_i h1 h2
        simp only [Except.ok.injEq] at h
        subst h
        refine ⟨rfl, ?_, ?_⟩
        · intro u hu hua
          exact h1 (List.any_eq_true.mpr ⟨u, hu, by simp [hua]⟩)
        · intro u hu hur
          exact h2 (List.any_eq_true.mpr ⟨u, hu, by simp [hur.1, hur.2]⟩)

theorem RemoveAuxClassTuple_rows_subset (c : Catalog) (a r : Oid) (n : AttrNumber) :
    ∀ u ∈ (RemoveAuxClassTuple c a r n).pg_aux_class, u ∈ c.pg_aux_class := by
  intro u hu
  unfold RemoveAuxClassTuple at hu
  simp only [heap_open, heap_close, simple_heap_delete, SearchSysCache1_AUXCLASSIDENT,
    SearchSysCache2_AUXCLASSRELIDATT] at hu
  split at hu
  · split at hu
    · exact hu
    · exact List.eraseP_subset _ hu
  · split at hu
    · exact hu
    · exact List.eraseP_subset _ hu

/-- While the row `t` is in the catalog it is the sole owner of its keys:
this is kept by every successful call of the catalog manager. -/
theorem applyCatalogOp_soleOwner {t : FormData_pg_aux_class} {c c1 : Catalog}
    {op : CatalogOp} (hop : applyCatalogOp c op = .ok c1)
    (h : t ∈ c.pg_aux_class → SoleOwner t c.pg_aux_class) :
    t ∈ c1.pg_aux_class → SoleOwner t c1.pg_aux_class := by
  intro hmem
  cases op with
  | insert a r n =>
    obtain ⟨hrows, hna, hnr⟩ := InsertAuxClassTuple_rows hop
    rw [hrows] at hmem ⊢
    rcases List.mem_append.mp hmem with hin | hlast
    · have hs := h hin
      constructor
      · intro u hu hua
        rcases List.mem_append.mp hu with hu | hu
        · exact hs.1 u hu hua
        · simp only [List.mem_singleton] at hu
          subst hu
          exact absurd hua.symm (hna t hin)
      · intro u hu hur hun
        rcases List.mem_append.mp hu with hu | hu
        · exact hs.2 u hu hur hun
        · simp only [List.mem_singleton] at hu
          subst hu
          exact absurd ⟨hur.symm, hun.symm⟩ (hnr t hin)
    · simp only [List.mem_singleton] at hlast
      subst hlast
      constructor
      · intro u hu hua
        rcases List.mem_append.mp hu with hu | hu
        · exact absurd hua (hna u hu)
        · simpa using hu
      · intro u hu hur hun
        rcases List.mem_append.mp hu with hu | hu
        · exact absurd ⟨hur, hun⟩ (hnr u hu)
        · simpa using hu
  | remove a r n =>
    simp only [applyCatalogOp, Except.ok.injEq] at hop
    subst hop
    have hs := h (RemoveAuxClassTuple_rows_subset c a r n t hmem)
    exact ⟨fun u hu => hs.1 u (RemoveAuxClassTuple_rows_subset c a r n u hu),
      fun u hu => hs.2 u (RemoveAuxClassTuple_rows_subset c a r n u hu)⟩

theorem runCatalogOps_soleOwner {t : FormData_pg_aux_class} (ops : List CatalogOp) :
    ∀ {c c1 : Catalog}, runCatalogOps c ops = .ok c1 →
      (t ∈ c.pg_aux_class → SoleOwner t c.pg_aux_class) →
      t ∈ c1.pg_aux_class → SoleOwner t c1.pg_aux_class := by
  induction ops with
  | nil =>
    intro c c1 hrun h
    simp only [runCatalogOps, Except.ok.injEq] at hrun
    subst hrun
    exact h
  | cons op ops ih =>
    intro c c1 hrun h
    simp only [runCatalogOps] at hrun
    split at hrun
    · exact absurd hrun (by simp)
    · rename_i c2 hop
      exact ih hrun (applyCatalogOp_soleOwner hop h)

theorem lookups_of_soleOwner {c : Catalog} {a r : Oid} {n : AttrNumber}
    (ha : OidIsValid a = true) (hr : OidIsValid r = true)
    (hn : AttrNumberIsForUserDefinedAttr n = true)
    (hmem : (⟨a, r, n⟩ : FormData_pg_aux_class) ∈ c.pg_aux_class)
    (h : SoleOwner ⟨a, r, n⟩ c.pg_aux_class) (cell : AttrNumber) :
    LookupAuxRelation c r n = a ∧
    LookupAuxMasterRel c a (some cell) = (r, some n) ∧
    (LookupAuxMasterRel c a none).1 = r := by
  have h1 := find_auxrelid_of_soleOwner hmem h
  have h2 := find_relidatt_of_soleOwner hmem h
  simp only at h1 h2
  simp [LookupAuxRelation, LookupAuxMasterRel, SearchSysCache1_AUXCLASSIDENT,
    SearchSysCache2_AUXCLASSRELIDATT, ha, hr, hn, h1, h2]

/-- C1. After `InsertAuxClassTuple(auxrelid, relid, attnum)` succeeds on any
catalog with valid `auxrelid`, `relid` and a user-defined `attnum`, and after any
further run of successful inserts and removes that leaves the record in
`pg_aux_class`, `LookupAuxRelation(relid, attnum)` returns `auxrelid` and
`LookupAuxMasterRel(auxrelid, &cell)` returns `relid` and stores `attnum` in the
cell (and returns `relid` also when called with a null out-parameter). -/
theorem insert_then_lookup (c c1 c2 : Catalog) (auxrelid relid : Oid) (attnum : AttrNumber)
    (ops : List CatalogOp) (cell : AttrNumber)
    (ha : OidIsValid auxrelid = true) (hr : OidIsValid relid = true)
    (hn : AttrNumberIsForUserDefinedAttr attnum = true)
    (hins : InsertAuxClassTuple c auxrelid relid attnum = .ok c1)
    (hrun : runCatalogOps c1 ops = .ok c2)
    (hkept : (⟨auxrelid, relid, attnum⟩ : FormData_pg_aux_class) ∈ c2.pg_aux_class) :
    LookupAuxRelation c2 relid attnum = auxrelid ∧
    LookupAuxMasterRel c2 auxrelid (some cell) = (relid, some attnum) ∧
    (LookupAuxMasterRel c2 auxrelid none).1 = relid := by
  have h1 : (⟨auxrelid, relid, attnum⟩ : FormData_pg_aux_class) ∈ c1.pg_aux_class →
      SoleOwner ⟨auxrelid, relid, attnum⟩ c1.pg_aux_class :=
    @applyCatalogOp_soleOwner _ c c1 (.insert auxrelid relid attnum) hins
      (fun hin => absurd rfl ((InsertAuxClassTuple_rows hins).2.1 _ hin))
  exact lookups_of_soleOwner ha hr hn hkept (runCatalogOps_soleOwner ops hrun h1 hkept) cell

/-- Concrete run for C1: insert (16385, 16384, 2) into the empty catalog, then
insert a second record and remove it again. -/
theorem insert_then_lookup_witness :
    LookupAuxRelation
      ⟨[⟨16385, 16384, 2⟩],
        [⟨⟨.AuxClassRelationId, 16385, 0⟩, ⟨.RelationRelationId, 16384, 2⟩, .DEPENDENCY_AUTO⟩,
         ⟨⟨.RelationRelationId, 16385, 0⟩, ⟨.RelationRelationId, 16384, 2⟩, .DEPENDENCY_NORMAL⟩,
         ⟨⟨.AuxClassRelationId, 16386, 0⟩, ⟨.RelationRelationId, 16384, 3⟩, .DEPENDENCY_AUTO⟩,
         ⟨⟨.RelationRelationId, 16386, 0⟩, ⟨.RelationRelationId, 16384, 3⟩, .DEPENDENCY_NORMAL⟩],
        0⟩ 16384 2 = 16385 ∧
    LookupAuxMasterRel
      ⟨[⟨16385, 16384, 2⟩],
        [⟨⟨.AuxClassRelationId, 16385, 0⟩, ⟨.RelationRelationId, 16384, 2⟩, .DEPENDENCY_AUTO⟩,
         ⟨⟨.RelationRelationId, 16385, 0⟩, ⟨.RelationRelationId, 16384, 2⟩, .DEPENDENCY_NORMAL⟩,
         ⟨⟨.AuxClassRelationId, 16386, 0⟩, ⟨.RelationRelationId, 16384, 3⟩, .DEPENDENCY_AUTO⟩,
         ⟨⟨.RelationRelationId, 16386, 0⟩, ⟨.RelationRelationId, 16384, 3⟩, .DEPENDENCY_NORMAL⟩],
        0⟩ 16385 (some 7) = (16384, some 2) ∧
    (LookupAuxMasterRel
      ⟨[⟨16385, 16384, 2⟩],
        [⟨⟨.AuxClassRelationId, 16385, 0⟩, ⟨.RelationRelationId, 16384, 2⟩, .DEPENDENCY_AUTO⟩,
         ⟨⟨.RelationRelationId, 16385, 0⟩, ⟨.RelationRelationId, 16384, 2⟩, .DEPENDENCY_NORMAL⟩,
         ⟨⟨.AuxClassRelationId, 16386, 0⟩, ⟨.RelationRelationId, 16384, 3⟩, .DEPENDENCY_AUTO⟩,
         ⟨⟨.RelationRelationId, 16386, 0⟩, ⟨.RelationRelationId, 16384, 3⟩, .DEPENDENCY_NORMAL⟩],
        0⟩ 16385 none).1 = 16384 :=
  insert_then_lookup ⟨[], [], 0⟩
    ⟨[⟨16385, 16384, 2⟩],
      [⟨⟨.AuxClassRelationId, 16385, 0⟩, ⟨.RelationRelationId, 16384, 2⟩, .DEPENDENCY_AUTO⟩,
       ⟨⟨.RelationRelationId, 16385, 0⟩, ⟨.RelationRelationId, 16384, 2⟩, .DEPENDENCY_NORMAL⟩],
      0⟩
    _ 16385 16384 2 [.insert 16386 16384 3, .remove 0 16384 3] 7
    (by decide) (by decide) (by decide) rfl rfl (by decide)

theorem eraseP_no_match_left {p : FormData_pg_aux_class → Bool}
    {R : FormData_pg_aux_class → FormData_pg_aux_class → Prop}
    (hR : ∀ u v, R u v → p u = true → p v = false) :
    ∀ l : List FormData_pg_aux_class, l.Pairwise R → ∀ x ∈ l.eraseP p, p x = false := by
  intro l
  induction l with
  | nil => intro _ x hx; simp at hx
  | cons a l ih =>
    intro hpw x hx
    rw [List.pairwise_cons] at hpw
    by_cases hpa : p a = true
    · rw [List.eraseP_cons_of_pos hpa] at hx
      exact hR a x (hpw.1 x hx) hpa
    · rw [List.eraseP_cons_of_neg hpa] at hx
      rcases List.mem_cons.mp hx with rfl | hx
      · simpa using hpa
      · exact ih hpw.2 x hx

theorem RemoveAuxClassTuple_no_target {c : Catalog} {a r : Oid} {n : AttrNumber}
    (h : RemoveTarget c a r n = none) :
    RemoveAuxClassTuple c a r n = heap_open c := by
  unfold RemoveTarget at h
  unfold RemoveAuxClassTuple
  simp only [SearchSysCache1_AUXCLASSIDENT, SearchSysCache2_AUXCLASSRELIDATT, heap_open] at h ⊢
  split
  · rename_i hv
    rw [if_pos hv] at h
    rw [h]
  · rename_i hv
    rw [if_neg hv] at h
    rw [h]

theorem RemoveAuxClassTuple_target_gone {c : Catalog} {a r : Oid} {n : AttrNumber}
    (hu : UniqueKeys c.pg_aux_class) :
    RemoveTarget (RemoveAuxClassTuple c a r n) a r n = none := by
  unfold RemoveTarget RemoveAuxClassTuple
  simp only [SearchSysCache1_AUXCLASSIDENT, SearchSysCache2_AUXCLASSRELIDATT, heap_open,
    heap_close, simple_heap_delete]
  by_cases hv : OidIsValid a = true
  · simp only [hv, if_true]
    split
    · rename_i hf; exact hf
    · rw [List.find?_eq_none]
      intro x hx
      have := eraseP_no_match_left (p := fun t => t.auxrelid == a)
        (R := fun u v => u.auxrelid ≠ v.auxrelid ∧ ¬ (u.relid = v.relid ∧ u.attnum = v.attnum))
        (by
          intro u v huv hpu
          simp only [beq_iff_eq] at hpu
          simp only [beq_eq_false_iff_ne, ne_eq]
          intro hv; exact huv.1 (hpu.trans hv.symm)) _ hu x hx
      simp [this]
  · simp only [hv, if_false, Bool.false_eq_true]
    split
    · rename_i hf; exact hf
    · rw [List.find?_eq_none]
      intro x hx
      have := eraseP_no_match_left (p := fun t => t.relid == r && t.attnum == n)
        (R := fun u v => u.auxrelid ≠ v.auxrelid ∧ ¬ (u.relid = v.relid ∧ u.attnum = v.attnum))
        (by
          intro u v huv hpu
          simp only [Bool.and_eq_true, beq_iff_eq] at hpu
          rw [Bool.eq_false_iff]
          intro hv
          simp only [Bool.and_eq_true, beq_iff_eq] at hv
          exact huv.2 ⟨hpu.1.trans hv.1.symm, hpu.2.trans hv.2.symm⟩) _ hu x hx
      simp [this]

/-- C9. `RemoveAuxClassTuple` has no error exit.  If no record matches the
lookup key (`auxrelid` when valid, else `(relid, attnum)`), the call leaves the
rows of `pg_aux_class` and of `pg_depend` unchanged.  On a catalog whose keys
are unique, calling it twice in a row with the same arguments leaves the same
rows as calling it once. -/
theorem RemoveAuxClassTuple_idempotent (c : Catalog) (auxrelid relid : Oid)
    (attnum : AttrNumber) :
    (RemoveTarget c auxrelid relid attnum = none →
      (RemoveAuxClassTuple c auxrelid relid attnum).pg_aux_class = c.pg_aux_class ∧
      (RemoveAuxClassTuple c auxrelid relid attnum).pg_depend = c.pg_depend) ∧
    (UniqueKeys c.pg_aux_class →
      (RemoveAuxClassTuple (RemoveAuxClassTuple c auxrelid relid attnum)
          auxrelid relid attnum).pg_aux_class
        = (RemoveAuxClassTuple c auxrelid relid attnum).pg_aux_class ∧
      (RemoveAuxClassTuple (RemoveAuxClassTuple c auxrelid relid attnum)
          auxrelid relid attnum).pg_depend
        = (RemoveAuxClassTuple c auxrelid relid attnum).pg_depend) := by
  constructor
  · intro h
    rw [RemoveAuxClassTuple_no_target h]
    exact ⟨rfl, rfl⟩
  · intro hu
    rw [RemoveAuxClassTuple_no_target (RemoveAuxClassTuple_target_gone hu)]
    exact ⟨rfl, rfl⟩

/-- Concrete run for C9: a catalog of two records, the record of auxiliary
relation 16385 removed twice, and a removal that finds nothing. -/
theorem RemoveAuxClassTuple_idempotent_witness :
    (RemoveAuxClassTuple ⟨[⟨16385, 16384, 2⟩, ⟨16386, 16384, 3⟩], [], 0⟩
        16390 0 0).pg_aux_class = [⟨16385, 16384, 2⟩, ⟨16386, 16384, 3⟩] ∧
    (RemoveAuxClassTuple (RemoveAuxClassTuple
        ⟨[⟨16385, 16384, 2⟩, ⟨16386, 16384, 3⟩], [], 0⟩ 16385 0 0) 16385 0 0).pg_aux_class
      = [⟨16386, 16384, 3⟩] :=
  ⟨((RemoveAuxClassTuple_idempotent ⟨[⟨16385, 16384, 2⟩, ⟨16386, 16384, 3⟩], [], 0⟩
      16390 0 0).1 (by decide)).1,
   (((RemoveAuxClassTuple_idempotent ⟨[⟨16385, 16384, 2⟩, ⟨16386, 16384, 3⟩], [], 0⟩
      16385 0 0).2 (by unfold UniqueKeys; decide)).1).trans (by decide)⟩

/-! The uniqueness invariants hold of the empty catalog and are kept by the
catalog manager. -/

theorem UniqueKeys_nil : UniqueKeys [] := List.Pairwise.nil

theorem InsertAuxClassTuple_uniqueKeys {c c1 : Catalog} {a r : Oid} {n : AttrNumber}
    (h : InsertAuxClassTuple c a r n = .ok c1) (hu : UniqueKeys c.pg_aux_class) :
    UniqueKeys c1.pg_aux_class := by
  obtain ⟨hrows, hna, hnr⟩ := InsertAuxClassTuple_rows h
  rw [hrows]
  unfold UniqueKeys at hu ⊢
  rw [List.pairwise_append]
  refine ⟨hu, List.pairwise_singleton _ _, ?_⟩
  intro u hu1 v hv
  simp only [List.mem_singleton] at hv
  subst hv
  exact ⟨hna u hu1, hnr u hu1⟩

theorem RemoveAuxClassTuple_uniqueKeys (c : Catalog) (a r : Oid) (n : AttrNumber)
    (hu : UniqueKeys c.pg_aux_class) :
    UniqueKeys (RemoveAuxClassTuple c a r n).pg_aux_class := by
  unfold RemoveAuxClassTuple
  simp only [heap_open, heap_close, simple_heap_delete, SearchSysCache1_AUXCLASSIDENT,
    SearchSysCache2_AUXCLASSRELIDATT]
  split
  · split
    · exact hu
    · exact List.Pairwise.sublist (List.eraseP_sublist _) hu
  · split
    · exact hu
    · exact List.Pairwise.sublist (List.eraseP_sublist _) hu

theorem runCatalogOps_uniqueKeys (ops : List CatalogOp) :
    ∀ {c c1 : Catalog}, runCatalogOps c ops = .ok c1 → UniqueKeys c.pg_aux_class →
      UniqueKeys c1.pg_aux_class := by
  induction ops with
  | nil =>
    intro c c1 hrun hu
    simp only [runCatalogOps, Except.ok.injEq] at hrun
    subst hrun
    exact hu
  | cons op ops ih =>
    intro c c1 hrun hu
    simp only [runCatalogOps] at hrun
    split at hrun
    · exact absurd hrun (by simp)
    · rename_i c2 hop
      refine ih hrun ?_
      cases op with
      | insert a r n => exact InsertAuxClassTuple_uniqueKeys hop hu
      | remove a r n =>
        simp only [applyCatalogOp, Except.ok.injEq] at hop
        subst hop
        exact RemoveAuxClassTuple_uniqueKeys c a r n hu

/-! ### The rewrite pipeline: gates -/

theorem masterRelationCheck_error_iff (loc : RelationLocInfo) :
    masterRelationCheck loc = .error (.ereport .FEATURE_NOT_SUPPORTED []) ↔
      RejectedDistribution loc := by
  unfold masterRelationCheck RejectedDistribution
  cases hloc : loc.locatorType <;> simp

theorem masterRelationCheck_ok_iff (loc : RelationLocInfo) :
    masterRelationCheck loc = .ok () ↔ ¬ RejectedDistribution loc := by
  unfold masterRelationCheck RejectedDistribution
  cases hloc : loc.locatorType <;> simp

/-- C3. With the master relation resolved and opened, the locator-type switch
of `QueryRewriteAuxStmt` raises `ERRCODE_FEATURE_NOT_SUPPORTED` exactly for the
replicated, round-robin and more-than-one-argument user-defined descriptors; it
passes hash, modulo, custom, range and user-defined with at most one argument.
When it raises, `QueryRewriteAuxStmt` ends with that error, no statement passed
to `ProcessUtility`, no analysis run, and the flag, the database and the
caller's query as they were; when it passes, the call goes on to the column
check. -/
theorem distribution_gate {DB : Type} (d : Decls) (svc : Services DB) (fuel : Nat)
    (flag : Bool) (db : DB) (auxquery : Query) (auxstmt : CreateAuxStmt) (master_relid : Oid)
    (master_relation : Relation)
    (hcmd : auxquery.commandType = .CMD_UTILITY)
    (hstmt : auxquery.utilityStmt = some (.CreateAuxStmt auxstmt))
    (hrel : svc.RangeVarGetRelidExtended db auxstmt.master_relation = .ok master_relid)
    (hopen : svc.relation_open db master_relid = .ok master_relation) :
    (masterRelationCheck master_relation.rd_locator_info
        = .error (.ereport .FEATURE_NOT_SUPPORTED []) ↔
      RejectedDistribution master_relation.rd_locator_info) ∧
    (masterRelationCheck master_relation.rd_locator_info = .ok () ↔
      ¬ RejectedDistribution master_relation.rd_locator_info) ∧
    ((master_relation.rd_locator_info.locatorType = .LOCATOR_TYPE_HASH ∨
      master_relation.rd_locator_info.locatorType = .LOCATOR_TYPE_MODULO ∨
      master_relation.rd_locator_info.locatorType = .LOCATOR_TYPE_CUSTOM ∨
      master_relation.rd_locator_info.locatorType = .LOCATOR_TYPE_RANGE ∨
      (master_relation.rd_locator_info.locatorType = .LOCATOR_TYPE_USER_DEFINED ∧
        master_relation.rd_locator_info.funcAttrNums.length ≤ 1)) →
      masterRelationCheck master_relation.rd_locator_info = .ok ()) ∧
    (RejectedDistribution master_relation.rd_locator_info →
      QueryRewriteAuxStmt d svc fuel flag db auxquery
        = some ⟨.error (.ereport .FEATURE_NOT_SUPPORTED []), flag, db, [], [], auxquery⟩) ∧
    (¬ RejectedDistribution master_relation.rd_locator_info →
      QueryRewriteAuxStmt d svc fuel flag db auxquery
        = match auxiliaryColumnCheck svc db master_relid auxstmt.aux_column with
          | .error e => some ⟨.error e, flag, db, [], [], auxquery⟩
          | .ok auxattform =>
            rewriteCheckedAuxStmt d svc fuel flag db auxquery auxstmt master_relation
              auxattform) := by
  refine ⟨masterRelationCheck_error_iff _, masterRelationCheck_ok_iff _, ?_, ?_, ?_⟩
  · intro h
    rw [masterRelationCheck_ok_iff]
    unfold RejectedDistribution
    rcases h with h | h | h | h | ⟨h, hl⟩
    · simp [h]
    · simp [h]
    · simp [h]
    · simp [h]
    · simp [h]; omega
  · intro hrej
    have hchk := (masterRelationCheck_error_iff _).mpr hrej
    simp [QueryRewriteAuxStmt, hcmd, hstmt, hrel, hopen, hchk]
  · intro hrej
    have hchk := (masterRelationCheck_ok_iff _).mpr hrej
    simp only [QueryRewriteAuxStmt, hcmd, hstmt, hrel, hopen, hchk]
    simp

/-- Concrete run for C3: the master relation `orders` made replicated; the
rewrite of the statement on `status` is refused before anything is done. -/
theorem distribution_gate_witness :
    QueryRewriteAuxStmt exampleDecls
        (exampleServices
          { ordersRelation with rd_locator_info := ⟨.LOCATOR_TYPE_REPLICATED, 0, []⟩ } [⟨0⟩])
        1 false [] (exampleAuxQuery "status".toList)
      = some ⟨.error (.ereport .FEATURE_NOT_SUPPORTED []), false, [], [], [],
          exampleAuxQuery "status".toList⟩ :=
  (distribution_gate exampleDecls
      (exampleServices
        { ordersRelation with rd_locator_info := ⟨.LOCATOR_TYPE_REPLICATED, 0, []⟩ } [⟨0⟩])
      1 false [] (exampleAuxQuery "status".toList) _ 16384
      { ordersRelation with rd_locator_info := ⟨.LOCATOR_TYPE_REPLICATED, 0, []⟩ }
      rfl rfl rfl rfl).2.2.2.1 (Or.inl rfl)

/-- C4. With the master relation resolved, opened and past the locator-type
switch, `QueryRewriteAuxStmt` ends with `ERRCODE_UNDEFINED_COLUMN` if the named
column has no `pg_attribute` row in the master relation, with
`ERRCODE_FEATURE_NOT_SUPPORTED` if the row is a system column (`attnum <= 0`),
with `ERRCODE_FEATURE_NOT_SUPPORTED` if `IsDistribColumn` holds of it, and
otherwise goes on with that row; when it fails, no statement has been passed to
`ProcessUtility` and the flag, the database and the caller's query are as they
were. -/
theorem attribute_gate {DB : Type} (d : Decls) (svc : Services DB) (fuel : Nat)
    (flag : Bool) (db : DB) (auxquery : Query) (auxstmt : CreateAuxStmt) (master_relid : Oid)
    (master_relation : Relation)
    (hcmd : auxquery.commandType = .CMD_UTILITY)
    (hstmt : auxquery.utilityStmt = some (.CreateAuxStmt auxstmt))
    (hrel : svc.RangeVarGetRelidExtended db auxstmt.master_relation = .ok master_relid)
    (hopen : svc.relation_open db master_relid = .ok master_relation)
    (hgate : masterRelationCheck master_relation.rd_locator_info = .ok ()) :
    (svc.SearchSysCacheAttName db master_relid auxstmt.aux_column = none →
      QueryRewriteAuxStmt d svc fuel flag db auxquery
        = some ⟨.error (.ereport .UNDEFINED_COLUMN auxstmt.aux_column), flag, db, [], [],
            auxquery⟩) ∧
    (∀ auxattform : FormData_pg_attribute,
      svc.SearchSysCacheAttName db master_relid auxstmt.aux_column = some auxattform →
      (auxattform.attnum ≤ 0 →
        QueryRewriteAuxStmt d svc fuel flag db auxquery
          = some ⟨.error (.ereport .FEATURE_NOT_SUPPORTED auxstmt.aux_column), flag, db, [], [],
              auxquery⟩) ∧
      (0 < auxattform.attnum →
        svc.IsDistribColumn db master_relid auxattform.attnum = true →
        QueryRewriteAuxStmt d svc fuel flag db auxquery
          = some ⟨.error (.ereport .FEATURE_NOT_SUPPORTED auxstmt.aux_column), flag, db, [], [],
              auxquery⟩) ∧
      (0 < auxattform.attnum →
        svc.IsDistribColumn db master_relid auxattform.attnum = false →
        QueryRewriteAuxStmt d svc fuel flag db auxquery
          = rewriteCheckedAuxStmt d svc fuel flag db auxquery auxstmt master_relation
              auxattform)) := by
  refine ⟨?_, ?_⟩
  · intro hnone
    simp [QueryRewriteAuxStmt, hcmd, hstmt, hrel, hopen, hgate, auxiliaryColumnCheck, hnone]
  · intro auxattform hsome
    refine ⟨?_, ?_, ?_⟩
    · intro hsys
      have : AttrNumberIsForUserDefinedAttr auxattform.attnum = false := by
        simp [AttrNumberIsForUserDefinedAttr, hsys]
      simp [QueryRewriteAuxStmt, hcmd, hstmt, hrel, hopen, hgate, auxiliaryColumnCheck, hsome,
        this]
    · intro huser hdist
      have : AttrNumberIsForUserDefinedAttr auxattform.attnum = true := by
        simp [AttrNumberIsForUserDefinedAttr, huser]
      simp [QueryRewriteAuxStmt, hcmd, hstmt, hrel, hopen, hgate, auxiliaryColumnCheck, hsome,
        this, hdist]
    · intro huser hdist
      have : AttrNumberIsForUserDefinedAttr auxattform.attnum = true := by
        simp [AttrNumberIsForUserDefinedAttr, huser]
      simp [QueryRewriteAuxStmt, hcmd, hstmt, hrel, hopen, hgate, auxiliaryColumnCheck, hsome,
        this, hdist]

/-- Concrete run for C4: on `orders`, hash-distributed on `region`, the
statement on `region` is refused as naming the distribution column. -/
theorem attribute_gate_witness :
    QueryRewriteAuxStmt exampleDecls (exampleServices ordersRelation [⟨0⟩]) 1 false []
        (exampleAuxQuery "region".toList)
      = some ⟨.error (.ereport .FEATURE_NOT_SUPPORTED "region".toList), false, [], [], [],
          exampleAuxQuery "region".toList⟩ :=
  ((attribute_gate exampleDecls (exampleServices ordersRelation [⟨0⟩]) 1 false []
      (exampleAuxQuery "region".toList) _ 16384 ordersRelation rfl rfl rfl rfl rfl).2
    ⟨"region".toList, 25, -1, 2, false, 100⟩ rfl).2.1 (by decide) rfl

/-! ### The rewrite pipeline: the flag `enable_aux_dml` -/

theorem populationAnalysis_spec {DB : Type} (svc : Services DB) (flag : Bool) (db : DB)
    (querystr : CString) (raws : List RawStmt) :
    (populationAnalysis svc flag db querystr raws).2.1 = flag ∧
    (populationAnalysis svc flag db querystr raws).1
      = (analyzeLoop svc true db querystr raws []).1 ∧
    (populationAnalysis svc flag db querystr raws).2.2
      = List.replicate (analyzeLoop svc true db querystr raws []).2 true := by
  unfold populationAnalysis
  simp only
  split <;> rename_i h <;> simp [h]

theorem populationAnalysis_eq {DB : Type} {svc : Services DB} {flag : Bool} {db : DB}
    {querystr : CString} {raws : List RawStmt} {r : Except Err (List TreeNode) × Bool × List Bool}
    (h : populationAnalysis svc flag db querystr raws = r) :
    r.2.1 = flag ∧ r.1 = (analyzeLoop svc true db querystr raws []).1 ∧
    r.2.2 = List.replicate (analyzeLoop svc true db querystr raws []).2 true :=
  h ▸ populationAnalysis_spec svc flag db querystr raws

theorem rewriteCheckedAuxStmt_flag {DB : Type} (d : Decls) (svc : Services DB) (fuel : Nat)
    (flag : Bool) (db : DB) (auxquery : Query) (auxstmt : CreateAuxStmt)
    (master_relation : Relation) (auxattform : FormData_pg_attribute) (out : Outcome DB)
    (h : rewriteCheckedAuxStmt d svc fuel flag db auxquery auxstmt master_relation auxattform
      = some out) :
    out.enable_aux_dml = flag ∧ ∀ b ∈ out.analysis_flags, b = true := by
  unfold rewriteCheckedAuxStmt at h
  simp only at h
  split at h
  · exact absurd h (by simp)
  · split at h
    · simp only [Option.some.injEq] at h; subst h; simp
    · split at h
      · simp only [Option.some.injEq] at h; subst h; simp
      · split at h
        · simp only [Option.some.injEq] at h; subst h; simp
        · split at h
          · simp only [Option.some.injEq] at h; subst h; simp
          · rename_i raws hparse
            split at h
            · rename_i e fl flags hpa
              have hs := populationAnalysis_eq hpa
              simp only [Option.some.injEq] at h; subst h
              simp only at hs ⊢
              refine ⟨hs.1, ?_⟩
              rw [hs.2.2]
              intro b hb
              exact (List.mem_replicate.mp hb).2
            · rename_i l fl flags hpa
              have hs := populationAnalysis_eq hpa
              simp only [Option.some.injEq] at h; subst h
              simp only at hs ⊢
              refine ⟨hs.1, ?_⟩
              rw [hs.2.2]
              intro b hb
              exact (List.mem_replicate.mp hb).2

/-- C8. Every outcome of `QueryRewriteAuxStmt` has the flag `enable_aux_dml`
at the value it had on entry, whatever the result (the returned list or any
error), and every call of `pg_analyze_and_rewrite` was made with the flag on.
For the region between the save and the restore: it leaves the flag at its
entry value, its result is the result of the analysis loop run with the flag
on (an error raised by the analysis is re-thrown as it is), and the flag was
on at each call of the analysis. -/
theorem enable_aux_dml_restored {DB : Type} (d : Decls) (svc : Services DB) (fuel : Nat)
    (flag : Bool) (db : DB) (auxquery : Query) :
    (∀ out : Outcome DB, QueryRewriteAuxStmt d svc fuel flag db auxquery = some out →
      out.enable_aux_dml = flag ∧ ∀ b ∈ out.analysis_flags, b = true) ∧
    (∀ (db1 : DB) (querystr : CString) (raws : List RawStmt),
      (populationAnalysis svc flag db1 querystr raws).2.1 = flag ∧
      (populationAnalysis svc flag db1 querystr raws).1
        = (analyzeLoop svc true db1 querystr raws []).1 ∧
      (populationAnalysis svc flag db1 querystr raws).2.2
        = List.replicate (analyzeLoop svc true db1 querystr raws []).2 true) := by
  refine ⟨?_, fun db1 querystr raws => populationAnalysis_spec svc flag db1 querystr raws⟩
  intro out h
  unfold QueryRewriteAuxStmt at h
  simp only at h
  split at h
  · simp only [Option.some.injEq] at h; subst h; simp
  · split at h
    · simp only [Option.some.injEq] at h; subst h; simp
    · simp only [Option.some.injEq] at h; subst h; simp
    · simp only [Option.some.injEq] at h; subst h; simp
    · simp only [Option.some.injEq] at h; subst h; simp
    · split at h
      · simp only [Option.some.injEq] at h; subst h; simp
      · split at h
        · simp only [Option.some.injEq] at h; subst h; simp
        · split at h
          · simp only [Option.some.injEq] at h; subst h; simp
          · split at h
            · simp only [Option.some.injEq] at h; subst h; simp
            · exact rewriteCheckedAuxStmt_flag d svc fuel flag db auxquery _ _ _ out h

/-- Concrete run for C8: entered with the flag off, the population statement
parses to two raw trees and the analysis of the second raises; the error comes
out as raised, the flag is off again, and it was on at both analysis calls. -/
theorem enable_aux_dml_restored_witness :
    (QueryRewriteAuxStmt exampleDecls (exampleServices ordersRelation [⟨0⟩, ⟨1⟩]) 1 false []
        (exampleAuxQuery "status".toList)).map
        (fun out => (out.result, out.enable_aux_dml, out.analysis_flags))
      = some (.error (.ereport (.EXTERNAL 1) []), false, [true, true]) ∧
    false = false ∧ ∀ b ∈ [true, true], b = true :=
  ⟨rfl, (enable_aux_dml_restored exampleDecls (exampleServices ordersRelation [⟨0⟩, ⟨1⟩]) 1
      false [] (exampleAuxQuery "status".toList)).1
    ⟨.error (.ereport (.EXTERNAL 1) []), false, ["orders_status_aux".toList],
      [.CreateStmt ⟨some ⟨none, "orders_status_aux".toList⟩,
        [⟨"status".toList, 25, -1, 100⟩, ⟨"region".toList, 25, -1, 100⟩,
         ⟨"auxnodeid".toList, 23, -1, 0⟩, ⟨"auxctid".toList, 27, -1, 0⟩],
        some ⟨none, "orders".toList⟩, 3⟩],
      [true, true],
      { exampleAuxQuery "status".toList with
        utilityStmt := some (.CreateAuxStmt
          { create_stmt := ⟨some ⟨none, "orders_status_aux".toList⟩,
              [⟨"status".toList, 25, -1, 100⟩, ⟨"region".toList, 25, -1, 100⟩,
               ⟨"auxnodeid".toList, 23, -1, 0⟩, ⟨"auxctid".toList, 27, -1, 0⟩],
              some ⟨none, "orders".toList⟩, 3⟩
            index_stmt := ⟨some ⟨none, "orders_status_aux".toList⟩, [], ["status".toList]⟩
            master_relation := ⟨none, "orders".toList⟩
            aux_column := "status".toList }) }⟩
    rfl⟩

/-! ### The rewrite pipeline: the returned list -/

theorem analyzeLoop_ok {DB : Type} (svc : Services DB) (flag : Bool) (db : DB)
    (querystr : CString) :
    ∀ (raws : List RawStmt) (acc l : List TreeNode),
      (analyzeLoop svc flag db querystr raws acc).1 = .ok l →
      ∃ each : List (List TreeNode),
        List.Forall₂ (fun raw e => svc.pg_analyze_and_rewrite flag db raw querystr = .ok e)
          raws each ∧
        l = acc ++ each.flatten.map markInsertQuery := by
  intro raws
  induction raws with
  | nil =>
    intro acc l h
    simp only [analyzeLoop, Except.ok.injEq] at h
    exact ⟨[], List.Forall₂.nil, by simp [h]⟩
  | cons raw rest ih =>
    intro acc l h
    simp only [analyzeLoop] at h
    split at h
    · exact absurd h (by simp)
    · rename_i e he
      obtain ⟨each, hall, hl⟩ := ih _ _ h
      refine ⟨e :: each, List.Forall₂.cons he hall, ?_⟩
      simp [hl, List.append_assoc]

theorem insertQueryString_text (auxrel master : RangeVar) (auxattname disattname : CString) :
    insertQueryString auxrel master auxattname disattname
      = "INSERT INTO ".toList
        ++ (match auxrel.schemaname with
            | some s => s ++ ".".toList
            | none => [])
        ++ auxrel.relname ++ " SELECT ".toList ++ auxattname ++ ", ".toList ++ disattname
        ++ ", xc_node_id, ctid FROM ".toList
        ++ (match master.schemaname with
            | some s => s ++ ".".toList
            | none => [])
        ++ master.relname ++ ";".toList := by
  obtain ⟨s1, r1⟩ := auxrel
  obtain ⟨s2, r2⟩ := master
  have hsel : " SELECT ".toList = " ".toList ++ "SELECT ".toList := rfl
  rw [hsel]
  unfold insertQueryString
  cases s1 <;> cases s2 <;> simp only [List.append_assoc]

theorem rewriteCheckedAuxStmt_list {DB : Type} (d : Decls) (svc : Services DB) (fuel : Nat)
    (flag : Bool) (db : DB) (auxquery : Query) (auxstmt : CreateAuxStmt)
    (master_relation : Relation) (auxattform : FormData_pg_attribute) (out : Outcome DB)
    (l : List TreeNode)
    (h : rewriteCheckedAuxStmt d svc fuel flag db auxquery auxstmt master_relation auxattform
      = some out)
    (hl : out.result = .ok l) :
    ∃ (create_relation : RangeVar) (index_relation : Option RangeVar)
      (tableElts : List ColumnDef) (distattnum : AttrNumber)
      (disattform : FormData_pg_attribute)
      (raws : List RawStmt) (each : List (List TreeNode)),
      namedRelations svc fuel db auxstmt master_relation auxattform
        = some (create_relation, index_relation) ∧
      MakeAuxTableColumns d auxattform master_relation = .ok (tableElts, distattnum) ∧
      attrsAt master_relation.rd_att (distattnum - 1) = .ok disattform ∧
      out.utility_calls = [.CreateStmt { auxstmt.create_stmt with
        relation := some create_relation,
        tableElts := tableElts,
        aux_attnum := auxattform.attnum }] ∧
      svc.ProcessUtility db
        (.CreateStmt { auxstmt.create_stmt with
          relation := some create_relation,
          tableElts := tableElts,
          aux_attnum := auxattform.attnum })
        (svc.deparse_query { auxquery with
          commandType := .CMD_UTILITY,
          utilityStmt := some (.CreateStmt { auxstmt.create_stmt with
            relation := some create_relation,
            tableElts := tableElts,
            aux_attnum := auxattform.attnum }) })
        = .ok out.db ∧
      svc.pg_parse_query
        (insertQueryString create_relation auxstmt.master_relation auxattform.attname
          disattform.attname) = .ok raws ∧
      List.Forall₂
        (fun raw e => svc.pg_analyze_and_rewrite true out.db raw
          (insertQueryString create_relation auxstmt.master_relation auxattform.attname
            disattform.attname) = .ok e) raws each ∧
      l = each.flatten.map markInsertQuery ++
        [.Query { auxquery with
          utilityStmt := some (.IndexStmt { auxstmt.index_stmt with
            relation := index_relation }),
          canSetTag := false,
          querySource := .QSRC_PARSER }] := by
  unfold rewriteCheckedAuxStmt at h
  simp only at h
  split at h
  · exact absurd h (by simp)
  · rename_i create_relation index_relation hnamed
    split at h
    · simp only [Option.some.injEq] at h; subst h; exact absurd hl (by simp)
    · rename_i tableElts distattnum hcols
      split at h
      · simp only [Option.some.injEq] at h; subst h; exact absurd hl (by simp)
      · rename_i disattform hdis
        split at h
        · simp only [Option.some.injEq] at h; subst h; exact absurd hl (by simp)
        · rename_i db1 hpu
          split at h
          · simp only [Option.some.injEq] at h; subst h; exact absurd hl (by simp)
          · rename_i raws hparse
            split at h
            · simp only [Option.some.injEq] at h; subst h; exact absurd hl (by simp)
            · rename_i pops fl flags hpa
              have hs := populationAnalysis_eq hpa
              simp only [Option.some.injEq] at h; subst h
              simp only [Except.ok.injEq] at hl
              simp only at hs
              obtain ⟨each, hall, hpops⟩ := analyzeLoop_ok svc true _ _ raws [] pops hs.2.1.symm
              refine ⟨create_relation, index_relation, tableElts, distattnum, disattform, raws,
                each, hnamed, hcols, hdis, rfl, hpu, hparse, hall, ?_⟩
              rw [← hl, hpops, List.nil_append]

/-- C2 as amended. On every input on which `QueryRewriteAuxStmt` succeeds: the
statement of the input query is a `CreateAuxStmt`; its master relation resolves
and opens, the named column passes the column check with row `auxattform`, the
name step gives `create_relation` and `index_relation`, and
`MakeAuxTableColumns` gives the columns and the shard-key attribute
`disattform`.  The create-table statement (the create-table payload with that
relation, those columns and the column's number) has been passed to
`ProcessUtility` during the call: it is the one utility call made, and it
succeeded.  The text parsed and then analysed, with the flag on and in the
database the create-table statement left, is
`INSERT INTO [schema.]aux SELECT auxcol, discol, xc_node_id, ctid FROM [schema.]master;`
with the names of `create_relation`, `auxattform`, `disattform` and the
statement's master relation.  The returned list is, in order, the marked
sub-statements that this analysis gave for the raw trees of that text, then the
create-index statement, which is the caller's query with the index payload
(under `index_relation`) as its utility statement.  When the analysis yields
exactly one sub-statement the list has exactly two elements. -/
theorem rewrite_returned_list {DB : Type} (d : Decls) (svc : Services DB) (fuel : Nat)
    (flag : Bool) (db : DB) (auxquery : Query) (out : Outcome DB) (l : List TreeNode)
    (h : QueryRewriteAuxStmt d svc fuel flag db auxquery = some out)
    (hl : out.result = .ok l) :
    ∃ (auxstmt : CreateAuxStmt) (master_relid : Oid) (master_relation : Relation)
      (auxattform disattform : FormData_pg_attribute)
      (create_relation : RangeVar) (index_relation : Option RangeVar)
      (tableElts : List ColumnDef) (distattnum : AttrNumber)
      (create_stmt : CreateStmt) (index_stmt : IndexStmt) (querystr : CString)
      (raws : List RawStmt) (each : List (List TreeNode)),
      auxquery.utilityStmt = some (.CreateAuxStmt auxstmt) ∧
      svc.RangeVarGetRelidExtended db auxstmt.master_relation = .ok master_relid ∧
      svc.relation_open db master_relid = .ok master_relation ∧
      auxiliaryColumnCheck svc db master_relid auxstmt.aux_column = .ok auxattform ∧
      namedRelations svc fuel db auxstmt master_relation auxattform
        = some (create_relation, index_relation) ∧
      MakeAuxTableColumns d auxattform master_relation = .ok (tableElts, distattnum) ∧
      attrsAt master_relation.rd_att (distattnum - 1) = .ok disattform ∧
      create_stmt = { auxstmt.create_stmt with
        relation := some create_relation,
        tableElts := tableElts,
        aux_attnum := auxattform.attnum } ∧
      index_stmt = { auxstmt.index_stmt with relation := index_relation } ∧
      querystr
        = "INSERT INTO ".toList
          ++ (match create_relation.schemaname with
              | some s => s ++ ".".toList
              | none => [])
          ++ create_relation.relname ++ " SELECT ".toList ++ auxattform.attname
          ++ ", ".toList ++ disattform.attname ++ ", xc_node_id, ctid FROM ".toList
          ++ (match auxstmt.master_relation.schemaname with
              | some s => s ++ ".".toList
              | none => [])
          ++ auxstmt.master_relation.relname ++ ";".toList ∧
      out.utility_calls = [.CreateStmt create_stmt] ∧
      svc.ProcessUtility db (.CreateStmt create_stmt)
        (svc.deparse_query { auxquery with
          commandType := .CMD_UTILITY, utilityStmt := some (.CreateStmt create_stmt) })
        = .ok out.db ∧
      svc.pg_parse_query querystr = .ok raws ∧
      List.Forall₂
        (fun raw e => svc.pg_analyze_and_rewrite true out.db raw querystr = .ok e) raws each ∧
      l = each.flatten.map markInsertQuery ++
        [.Query { auxquery with
          utilityStmt := some (.IndexStmt index_stmt),
          canSetTag := false,
          querySource := .QSRC_PARSER }] ∧
      (each.flatten.length = 1 → l.length = 2) := by
  unfold QueryRewriteAuxStmt at h
  simp only at h
  split at h
  · simp only [Option.some.injEq] at h; subst h; exact absurd hl (by simp)
  · split at h
    · simp only [Option.some.injEq] at h; subst h; exact absurd hl (by simp)
    · simp only [Option.some.injEq] at h; subst h; exact absurd hl (by simp)
    · simp only [Option.some.injEq] at h; subst h; exact absurd hl (by simp)
    · simp only [Option.some.injEq] at h; subst h; exact absurd hl (by simp)
    · rename_i auxstmt hstmt
      split at h
      · simp only [Option.some.injEq] at h; subst h; exact absurd hl (by simp)
      · rename_i master_relid hrelid
        split at h
        · simp only [Option.some.injEq] at h; subst h; exact absurd hl (by simp)
        · rename_i master_relation hopen
          split at h
          · simp only [Option.some.injEq] at h; subst h; exact absurd hl (by simp)
          · split at h
            · simp only [Option.some.injEq] at h; subst h; exact absurd hl (by simp)
            · rename_i auxattform hatt
              obtain ⟨create_relation, index_relation, tableElts, distattnum, disattform, raws,
                  each, hnamed, hcols, hdis, hcalls, hpu, hparse, hall, hlist⟩ :=
                rewriteCheckedAuxStmt_list d svc fuel flag db auxquery auxstmt master_relation
                  auxattform out l h hl
              rw [insertQueryString_text] at hparse hall
              refine ⟨auxstmt, master_relid, master_relation, auxattform, disattform,
                create_relation, index_relation, tableElts, distattnum, _, _, _, raws, each,
                hstmt, hrelid, hopen, hatt, hnamed, hcols, hdis, rfl, rfl, rfl, hcalls, hpu,
                hparse, hall, hlist, ?_⟩
              intro hone
              rw [hlist, List.length_append, List.length_map, hone]
              rfl

/-- C2, counterexample.  On the spec's scenario (an auxiliary table on
`status` of `orders`, no name given, the analysis of the population statement
yielding exactly one sub-statement) `QueryRewriteAuxStmt` succeeds; the
create-table statement is the utility call it made, and the list it returns has
two elements, the `INSERT` query and the create-index query: not three, and no
create-table statement first. -/
theorem rewrite_returned_list_counterexample :
    (QueryRewriteAuxStmt exampleDecls (exampleServices ordersRelation [⟨0⟩]) 1 false []
        (exampleAuxQuery "status".toList)).map (fun out => (out.result, out.utility_calls))
      = some
          (.ok [.Query ⟨.CMD_INSERT, .QSRC_PARSER, false, none, 1⟩,
                .Query ⟨.CMD_UTILITY, .QSRC_PARSER, false,
                  some (.IndexStmt ⟨some ⟨none, "orders_status_aux".toList⟩, [],
                    ["status".toList]⟩), 0⟩],
           [.CreateStmt ⟨some ⟨none, "orders_status_aux".toList⟩,
              [⟨"status".toList, 25, -1, 100⟩, ⟨"region".toList, 25, -1, 100⟩,
               ⟨"auxnodeid".toList, 23, -1, 0⟩, ⟨"auxctid".toList, 27, -1, 0⟩],
              some ⟨none, "orders".toList⟩, 3⟩]) ∧
    (exampleServices ordersRelation [⟨0⟩]).pg_analyze_and_rewrite true
        ["orders_status_aux".toList] ⟨0⟩
        "INSERT INTO orders_status_aux SELECT status, region, xc_node_id, ctid FROM orders;".toList
      = .ok [.Query ⟨.CMD_INSERT, .QSRC_ORIGINAL, true, none, 1⟩] ∧
    ([.Query ⟨.CMD_INSERT, .QSRC_PARSER, false, none, 1⟩,
      .Query ⟨.CMD_UTILITY, .QSRC_PARSER, false,
        some (.IndexStmt ⟨some ⟨none, "orders_status_aux".toList⟩, [],
          ["status".toList]⟩), 0⟩] : List TreeNode).length ≠ 3 := by
  refine ⟨rfl, rfl, by decide⟩

/-- Concrete run for C2 as amended: the same scenario, with the text analysed
and the returned list read off the theorem.  The text is the population
statement of `orders_status_aux` from `orders`. -/
theorem rewrite_returned_list_witness :
    ∃ (raws : List RawStmt) (each : List (List TreeNode)),
      (exampleServices ordersRelation [⟨0⟩]).ProcessUtility []
        (.CreateStmt ⟨some ⟨none, "orders_status_aux".toList⟩,
          [⟨"status".toList, 25, -1, 100⟩, ⟨"region".toList, 25, -1, 100⟩,
           ⟨"auxnodeid".toList, 23, -1, 0⟩, ⟨"auxctid".toList, 27, -1, 0⟩],
          some ⟨none, "orders".toList⟩, 3⟩)
        "CREATE TABLE".toList
        = .ok ["orders_status_aux".toList] ∧
      (exampleServices ordersRelation [⟨0⟩]).pg_parse_query
        "INSERT INTO orders_status_aux SELECT status, region, xc_node_id, ctid FROM orders;".toList
        = .ok raws ∧
      List.Forall₂
        (fun raw e => (exampleServices ordersRelation [⟨0⟩]).pg_analyze_and_rewrite true
          ["orders_status_aux".toList] raw
          "INSERT INTO orders_status_aux SELECT status, region, xc_node_id, ctid FROM orders;".toList
          = .ok e) raws each ∧
      [TreeNode.Query ⟨.CMD_INSERT, .QSRC_PARSER, false, none, 1⟩,
        .Query ⟨.CMD_UTILITY, .QSRC_PARSER, false,
          some (.IndexStmt ⟨some ⟨none, "orders_status_aux".toList⟩, [],
            ["status".toList]⟩), 0⟩]
        = each.flatten.map markInsertQuery ++
          [.Query ⟨.CMD_UTILITY, .QSRC_PARSER, false,
            some (.IndexStmt ⟨some ⟨none, "orders_status_aux".toList⟩, [],
              ["status".toList]⟩), 0⟩] ∧
      (each.flatten.length = 1 →
        ([TreeNode.Query ⟨.CMD_INSERT, .QSRC_PARSER, false, none, 1⟩,
          .Query ⟨.CMD_UTILITY, .QSRC_PARSER, false,
            some (.IndexStmt ⟨some ⟨none, "orders_status_aux".toList⟩, [],
              ["status".toList]⟩), 0⟩] : List TreeNode).length = 2) := by
  obtain ⟨auxstmt, master_relid, master_relation, auxattform, disattform, create_relation,
      index_relation, tableElts, distattnum, create_stmt, index_stmt, querystr, raws, each,
      hstmt, hrelid, hopen, hatt, hnamed, hcols, hdis, hcs, his, hqs, _, hpu, hparse, hall,
      hlist, hlen⟩ :=
    rewrite_returned_list exampleDecls (exampleServices ordersRelation [⟨0⟩]) 1 false []
      (exampleAuxQuery "status".toList)
      ⟨.ok [.Query ⟨.CMD_INSERT, .QSRC_PARSER, false, none, 1⟩,
            .Query ⟨.CMD_UTILITY, .QSRC_PARSER, false,
              some (.IndexStmt ⟨some ⟨none, "orders_status_aux".toList⟩, [],
                ["status".toList]⟩), 0⟩],
        false, ["orders_status_aux".toList],
        [.CreateStmt ⟨some ⟨none, "orders_status_aux".toList⟩,
            [⟨"status".toList, 25, -1, 100⟩, ⟨"region".toList, 25, -1, 100⟩,
             ⟨"auxnodeid".toList, 23, -1, 0⟩, ⟨"auxctid".toList, 27, -1, 0⟩],
            some ⟨none, "orders".toList⟩, 3⟩],
        [true],
        ⟨.CMD_UTILITY, .QSRC_PARSER, false,
          some (.IndexStmt ⟨some ⟨none, "orders_status_aux".toList⟩, [], ["status".toList]⟩),
          0⟩⟩
      _ rfl rfl
  have e1 : auxstmt = ⟨⟨none, [], some ⟨none, "orders".toList⟩, 0⟩, ⟨none, [], ["status".toList]⟩,
      ⟨none, "orders".toList⟩, "status".toList⟩ :=
    (Node.CreateAuxStmt.inj (Option.some.inj hstmt)).symm
  subst e1
  have e2 : master_relid = 16384 := (Except.ok.inj hrelid).symm
  subst e2
  have e3 : master_relation = ordersRelation := (Except.ok.inj hopen).symm
  subst e3
  have e4 : auxattform = ⟨"status".toList, 25, -1, 3, false, 100⟩ := (Except.ok.inj hatt).symm
  subst e4
  have e5 : (create_relation, index_relation)
      = (⟨none, "orders_status_aux".toList⟩, some ⟨none, "orders_status_aux".toList⟩) :=
    (Option.some.inj hnamed).symm
  obtain ⟨e5a, e5b⟩ := Prod.mk.inj e5
  subst e5a e5b
  have e6 : (tableElts, distattnum)
      = ([⟨"status".toList, 25, -1, 100⟩, ⟨"region".toList, 25, -1, 100⟩,
          ⟨"auxnodeid".toList, 23, -1, 0⟩, ⟨"auxctid".toList, 27, -1, 0⟩], 2) :=
    (Except.ok.inj hcols).symm
  obtain ⟨e6a, e6b⟩ := Prod.mk.inj e6
  subst e6a e6b
  have e7 : disattform = ⟨"region".toList, 25, -1, 2, false, 100⟩ := (Except.ok.inj hdis).symm
  subst e7
  subst hcs his
  have e8 : querystr
      = "INSERT INTO orders_status_aux SELECT status, region, xc_node_id, ctid FROM orders;".toList :=
    hqs
  subst e8
  exact ⟨raws, each, hpu, hparse, hall, hlist, hlen⟩

/-! ### Name and column synthesis -/

/-- C5. When the master's distribution descriptor resolves to the one
shard-key attribute number `S` (by value on `partAttrNum`, or the single
element of `funcAttrNums`) and `S` numbers the attribute `discolumn` of the
master, `MakeAuxTableColumns` returns, for any indexed attribute `auxcolumn`,
exactly four column definitions in this order: the indexed attribute's name
with its type, typmod and collation; the shard-key attribute's name with its
type, typmod and collation; `auxnodeid` of type `INT4OID` with typmod -1;
`auxctid` of type `TIDOID` with typmod -1; and it stores `S` through
`distattnum`. -/
theorem MakeAuxTableColumns_layout (d : Decls) (auxcolumn : FormData_pg_attribute)
    (rel : Relation) (S : AttrNumber) (discolumn : FormData_pg_attribute)
    (hkey : ShardKey d rel.rd_locator_info S) (hpos : 0 < S)
    (hatt : rel.rd_att.get? (S - 1).toNat = some discolumn) :
    MakeAuxTableColumns d auxcolumn rel
      = .ok ([⟨auxcolumn.attname, auxcolumn.atttypid, auxcolumn.atttypmod,
                auxcolumn.attcollation⟩,
              ⟨discolumn.attname, discolumn.atttypid, discolumn.atttypmod,
                discolumn.attcollation⟩,
              ⟨"auxnodeid".toList, INT4OID, -1, 0⟩,
              ⟨"auxctid".toList, TIDOID, -1, 0⟩], S) := by
  have hidx : attrsAt rel.rd_att (S - 1) = .ok discolumn := by
    have hS : ¬ (S - 1 < 0) := by
      simp only [AttrNumber] at *
      omega
    unfold attrsAt
    rw [if_neg hS, hatt]
  unfold MakeAuxTableColumns
  rcases hkey with ⟨hv, _, hS⟩ | ⟨hv, hu, hS⟩
  · simp [hv, hS, hidx, makeColumnDef]
  · simp [hv, hu, hS, linitial_int, hidx, makeColumnDef]

/-- Concrete run for C5: `orders(id, region, status)` hash-distributed on
`region` and indexed on `status` gives the columns
`[status, region, auxnodeid, auxctid]` and the shard-key number 2. -/
theorem MakeAuxTableColumns_layout_witness :
    MakeAuxTableColumns exampleDecls ⟨"status".toList, 25, -1, 3, false, 100⟩ ordersRelation
      = .ok ([⟨"status".toList, 25, -1, 100⟩, ⟨"region".toList, 25, -1, 100⟩,
              ⟨"auxnodeid".toList, INT4OID, -1, 0⟩, ⟨"auxctid".toList, TIDOID, -1, 0⟩], 2) :=
  MakeAuxTableColumns_layout exampleDecls ⟨"status".toList, 25, -1, 3, false, 100⟩
    ordersRelation 2 ⟨"region".toList, 25, -1, 2, false, 100⟩
    (Or.inl ⟨rfl, rfl, rfl⟩) (by decide) rfl

/-! ### Execution-time column mapper: the attribute set -/

theorem bms_add_member_ok (a : Bitmapset) (x : Int) (hx : 0 ≤ x) :
    ∃ a1, bms_add_member a x = .ok a1 ∧ x.toNat ∈ a1 ∧ ∀ y ∈ a, y ∈ a1 := by
  unfold bms_add_member
  rw [if_neg (by omega)]
  by_cases hmem : x.toNat ∈ a
  · rw [if_pos hmem]
    exact ⟨a, rfl, hmem, fun y hy => hy⟩
  · rw [if_neg hmem]
    exact ⟨a ++ [x.toNat], rfl, by simp, fun y hy => List.mem_append_left _ hy⟩

theorem filter_length_le_of_imp {α : Type} (p q : α → Bool) (himp : ∀ x, p x = true → q x = true) :
    ∀ l : List α, (l.filter p).length ≤ (l.filter q).length := by
  intro l
  induction l with
  | nil => simp
  | cons a l ih =>
    by_cases hp : p a = true
    · simp only [List.filter_cons, hp, himp a hp, if_true, List.length_cons]
      omega
    · by_cases hq : q a = true
      · simp only [List.filter_cons, hp, hq, if_true, List.length_cons]
        simp only [Bool.false_eq_true, if_false] at *
        omega
      · simp only [List.filter_cons, hp, hq]
        simpa using ih

theorem filter_length_lt_of_imp {α : Type} (p q : α → Bool)
    (himp : ∀ x, p x = true → q x = true) (m : α) (hq : q m = true) (hp : p m = false) :
    ∀ l : List α, m ∈ l → (l.filter p).length < (l.filter q).length := by
  intro l
  induction l with
  | nil => intro h; simp at h
  | cons a l ih =>
    intro hm
    have hle := filter_length_le_of_imp p q himp l
    rcases List.mem_cons.mp hm with rfl | hm
    · simp only [List.filter_cons, hp, hq, if_true, List.length_cons]
      simp only [Bool.false_eq_true, if_false]
      omega
    · have := ih hm
      by_cases hpa : p a = true
      · simp only [List.filter_cons, hpa, himp a hpa, if_true, List.length_cons]
        omega
      · by_cases hqa : q a = true
        · simp only [List.filter_cons, hpa, hqa, if_true, List.length_cons]
          simp only [Bool.false_eq_true, if_false] at *
          omega
        · simp only [List.filter_cons, hpa, hqa]
          simpa using this

/-- The loop over `rd_auxatt` ends within one pass per member still ahead plus
one, keeps what the set held, and adds every member ahead of `x`, offset. -/
theorem auxiliaryColumnsLoop_spec (d : Decls) (a : Bitmapset) :
    ∀ (fuel : Nat) (x : Int) (attr : Bitmapset),
      (a.filter (fun (m : Nat) => decide (x < (m : Int)))).length < fuel →
      ∃ attr1, auxiliaryColumnsLoop d a fuel x attr = some (.ok attr1) ∧
        (∀ y ∈ attr, y ∈ attr1) ∧
        ∀ m ∈ a, x < (m : Int) →
          ((m : Int) - d.FirstLowInvalidHeapAttributeNumber).toNat ∈ attr1 := by
  have hlow : d.FirstLowInvalidHeapAttributeNumber < 0 := by
    have h1 := d.low_lt_nodeid
    have h2 := d.nodeid_lt_self
    simp only [AttrNumber] at *
    omega
  intro fuel
  induction fuel with
  | zero => intro x attr h; exact absurd h (Nat.not_lt_zero _)
  | succ fuel ih =>
    intro x attr hlen
    unfold auxiliaryColumnsLoop
    simp only [bms_next_member]
    cases hmin : (a.filter (fun (m : Nat) => decide (x < (m : Int)))).min? with
    | none =>
      have hnil : a.filter (fun (m : Nat) => decide (x < (m : Int))) = [] :=
        List.min?_eq_none_iff.mp hmin
      simp only [ge_iff_le]
      rw [if_neg (by omega)]
      refine ⟨attr, rfl, fun y hy => hy, ?_⟩
      intro m hm hxm
      have : m ∈ a.filter (fun (m : Nat) => decide (x < (m : Int))) :=
        List.mem_filter.mpr ⟨hm, by simpa using hxm⟩
      rw [hnil] at this
      exact absurd this (List.not_mem_nil _)
    | some m0 =>
      obtain ⟨hm0, hleast⟩ := List.min?_eq_some_iff'.mp hmin
      have hm0a : m0 ∈ a := (List.mem_filter.mp hm0).1
      have hxm0 : x < (m0 : Int) := by simpa using (List.mem_filter.mp hm0).2
      simp only [ge_iff_le]
      rw [if_pos (by omega)]
      have hnonneg : 0 ≤ (m0 : Int) - d.FirstLowInvalidHeapAttributeNumber := by
        simp only [AttrNumber] at *
        omega
      obtain ⟨attr1, hadd, hin, hkeep⟩ := bms_add_member_ok attr _ hnonneg
      rw [hadd]
      have hdec : (a.filter (fun (m : Nat) => decide ((m0 : Int) < (m : Int)))).length < fuel := by
        have := filter_length_lt_of_imp
          (fun m : Nat => decide ((m0 : Int) < (m : Int)))
          (fun m : Nat => decide (x < (m : Int)))
          (by intro y hy; simp only [decide_eq_true_eq] at hy ⊢; omega)
          m0 (by simpa using hxm0) (by simp) a hm0a
        omega
      obtain ⟨attr2, hloop, hkeep2, hall⟩ := ih (m0 : Int) attr1 hdec
      refine ⟨attr2, hloop, fun y hy => hkeep2 y (hkeep y hy), ?_⟩
      intro m hm hxm
      have hmf : m ∈ a.filter (fun (m : Nat) => decide (x < (m : Int))) :=
        List.mem_filter.mpr ⟨hm, by simpa using hxm⟩
      have hle := hleast m hmf
      rcases Nat.lt_or_eq_of_le hle with hlt | heq
      · exact hall m hm (by omega)
      · subst heq
        exact hkeep2 _ hin

theorem bms_is_member_of_mem {x : Int} {a : Bitmapset} (hx : 0 ≤ x) (h : x.toNat ∈ a) :
    bms_is_member x a = true := by
  simp [bms_is_member, hx, h]

/-- C10. When the master's distribution descriptor resolves to the one
shard-key attribute number `S` (by value, or user-defined with exactly one
argument; `S` not below `FirstLowInvalidHeapAttributeNumber`, as every
attribute number is), `MakeAuxMainRelResultAttnos` returns, once its loop has
one pass more than `rd_auxatt` has members, a set that contains the
self-tuple-identifier attribute, the node-identifier attribute, `S`, and every
member of `rd_auxatt`, each offset by `-FirstLowInvalidHeapAttributeNumber`.
When the descriptor is user-defined with a number of arguments other than one,
or neither user-defined nor by value, the call raises
`ERRCODE_FEATURE_NOT_SUPPORTED`. -/
theorem MakeAuxMainRelResultAttnos_members (d : Decls) (rel : Relation) :
    (∀ (S : AttrNumber) (fuel : Nat),
      ShardKey d rel.rd_locator_info S →
      d.FirstLowInvalidHeapAttributeNumber ≤ S →
      rel.rd_auxatt.length < fuel →
      ∃ attr, MakeAuxMainRelResultAttnos d fuel rel = some (.ok attr) ∧
        bms_is_member
          (SelfItemPointerAttributeNumber - d.FirstLowInvalidHeapAttributeNumber) attr = true ∧
        bms_is_member
          (d.XC_NodeIdAttributeNumber - d.FirstLowInvalidHeapAttributeNumber) attr = true ∧
        bms_is_member (S - d.FirstLowInvalidHeapAttributeNumber) attr = true ∧
        ∀ x : Int, bms_is_member x rel.rd_auxatt = true →
          bms_is_member (x - d.FirstLowInvalidHeapAttributeNumber) attr = true) ∧
    (((IsRelationDistributedByUserDefined rel.rd_locator_info = true ∧
          rel.rd_locator_info.funcAttrNums.length ≠ 1) ∨
        (IsRelationDistributedByUserDefined rel.rd_locator_info = false ∧
          IsRelationDistributedByValue d rel.rd_locator_info = false)) →
      ∀ fuel : Nat, MakeAuxMainRelResultAttnos d fuel rel
        = some (.error (.ereport .FEATURE_NOT_SUPPORTED []))) := by
  have h1 := d.low_lt_nodeid
  have h2 := d.nodeid_lt_self
  have hself : 0 ≤ SelfItemPointerAttributeNumber - d.FirstLowInvalidHeapAttributeNumber := by
    simp only [AttrNumber, SelfItemPointerAttributeNumber] at *
    omega
  have hnode : 0 ≤ d.XC_NodeIdAttributeNumber - d.FirstLowInvalidHeapAttributeNumber := by
    simp only [AttrNumber] at *
    omega
  have hsing : bms_make_singleton
      (SelfItemPointerAttributeNumber - d.FirstLowInvalidHeapAttributeNumber)
      = .ok [(SelfItemPointerAttributeNumber - d.FirstLowInvalidHeapAttributeNumber).toNat] := by
    unfold bms_make_singleton
    rw [if_neg (not_lt.mpr hself)]
  obtain ⟨attr1, hadd1, hin1, hkeep1⟩ := bms_add_member_ok
    [(SelfItemPointerAttributeNumber - d.FirstLowInvalidHeapAttributeNumber).toNat] _ hnode
  constructor
  · intro S fuel hkey hS hfuel
    have hSn : 0 ≤ S - d.FirstLowInvalidHeapAttributeNumber := by
      simp only [AttrNumber] at *
      omega
    obtain ⟨attr2, hadd2, hin2, hkeep2⟩ := bms_add_member_ok attr1 _ hSn
    have hlen : (rel.rd_auxatt.filter
        (fun (m : Nat) => decide ((-1 : Int) < (m : Int)))).length < fuel :=
      Nat.lt_of_le_of_lt (List.length_filter_le _ _) hfuel
    obtain ⟨attr3, hloop, hkeep3, hall⟩ :=
      auxiliaryColumnsLoop_spec d rel.rd_auxatt fuel (-1) attr2 hlen
    refine ⟨attr3, ?_, ?_, ?_, ?_, ?_⟩
    · unfold MakeAuxMainRelResultAttnos
      rw [hsing]
      simp only [hadd1]
      rcases hkey with ⟨hv, hu, hp⟩ | ⟨hv, hu, hf⟩
      · simp only [hu, hv, hp, hadd2, if_true, Bool.false_eq_true, if_false]
        exact hloop
      · simp only [hu, hf, linitial_int, hadd2, if_true, List.length_singleton, bne_self_eq_false,
          Bool.false_eq_true, if_false]
        exact hloop
    · exact bms_is_member_of_mem hself (hkeep3 _ (hkeep2 _ (hkeep1 _ (by simp))))
    · exact bms_is_member_of_mem hnode (hkeep3 _ (hkeep2 _ hin1))
    · exact bms_is_member_of_mem hSn (hkeep3 _ hin2)
    · intro x hx
      simp only [bms_is_member, Bool.and_eq_true, decide_eq_true_eq] at hx
      obtain ⟨hx0, hxm⟩ := hx
      have hxa := hall x.toNat hxm (by omega)
      have hcast : ((x.toNat : Nat) : Int) = x := Int.toNat_of_nonneg hx0
      rw [hcast] at hxa
      refine bms_is_member_of_mem ?_ hxa
      simp only [AttrNumber] at *
      omega
  · intro hbad fuel
    unfold MakeAuxMainRelResultAttnos
    rw [hsing]
    simp only [hadd1]
    rcases hbad with ⟨hu, hlen⟩ | ⟨hu, hv⟩
    · simp [hu, hlen]
    · simp [hu, hv]

/-- Concrete run for C10: `orders`, hash-distributed on `region` (attribute 2),
with auxiliary tables on attributes 1 and 3, under the Postgres-XC numbering
(`FirstLowInvalidHeapAttributeNumber` is -9): the set holds 8 (`ctid`), 1
(`xc_node_id`), 11 (`region`), 10 and 12. -/
theorem MakeAuxMainRelResultAttnos_members_witness :
    MakeAuxMainRelResultAttnos exampleDecls 3 { ordersRelation with rd_auxatt := [3, 1] }
      = some (.ok [8, 1, 11, 10, 12]) ∧
    ∃ attr,
      MakeAuxMainRelResultAttnos exampleDecls 3 { ordersRelation with rd_auxatt := [3, 1] }
        = some (.ok attr) ∧
      bms_is_member (SelfItemPointerAttributeNumber - (-9)) attr = true ∧
      bms_is_member ((-8) - (-9)) attr = true ∧
      bms_is_member (2 - (-9)) attr = true ∧
      ∀ x : Int, bms_is_member x [3, 1] = true → bms_is_member (x - (-9)) attr = true :=
  ⟨rfl, (MakeAuxMainRelResultAttnos_members exampleDecls
      { ordersRelation with rd_auxatt := [3, 1] }).1 2 3
    (Or.inl ⟨rfl, rfl, rfl⟩) (by decide) (by decide)⟩

/-! ### The name of the auxiliary table -/

theorem toDigitsCore_append (fuel : Nat) :
    ∀ (n : Nat) (ds : List Char),
      Nat.toDigitsCore 10 fuel n ds = Nat.toDigitsCore 10 fuel n [] ++ ds := by
  induction fuel with
  | zero => intro n ds; simp [Nat.toDigitsCore]
  | succ fuel ih =>
    intro n ds
    simp only [Nat.toDigitsCore]
    split
    · simp
    · rw [ih (n / 10) (Nat.digitChar (n % 10) :: ds), ih (n / 10) [Nat.digitChar (n % 10)]]
      simp

theorem toDigitsCore_fuel (f1 : Nat) :
    ∀ (f2 n : Nat), n < f1 → n < f2 →
      Nat.toDigitsCore 10 f1 n [] = Nat.toDigitsCore 10 f2 n [] := by
  induction f1 with
  | zero => intro f2 n h; omega
  | succ f1 ih =>
    intro f2 n h1 h2
    cases f2 with
    | zero => omega
    | succ f2 =>
      simp only [Nat.toDigitsCore]
      split
      · rfl
      · rename_i hne
        rw [toDigitsCore_append f1, toDigitsCore_append f2,
          ih f2 (n / 10) (by omega) (by omega)]

theorem decimal_eq (k : Nat) :
    decimal k = if k < 10 then [Nat.digitChar k]
      else decimal (k / 10) ++ [Nat.digitChar (k % 10)] := by
  have hL : Nat.toDigitsCore 10 (k + 1) k []
      = if k / 10 = 0 then [Nat.digitChar (k % 10)]
        else Nat.toDigitsCore 10 k (k / 10) [Nat.digitChar (k % 10)] := rfl
  unfold decimal Nat.toDigits
  rw [hL]
  by_cases hk : k < 10
  · have h0 : k / 10 = 0 := by omega
    have h1 : k % 10 = k := by omega
    simp [hk, h0, h1]
  · have h0 : ¬ k / 10 = 0 := by omega
    rw [if_neg h0, if_neg hk, toDigitsCore_append k,
      toDigitsCore_fuel k (k / 10 + 1) (k / 10) (by omega) (by omega)]

theorem decimal_length_pos (k : Nat) : 0 < (decimal k).length := by
  rw [decimal_eq]; split <;> simp

theorem decimal_length_mono : ∀ (k j : Nat), j ≤ k → (decimal j).length ≤ (decimal k).length := by
  intro k
  induction k using Nat.strong_induction_on with
  | _ k ih =>
    intro j hj
    rw [decimal_eq k, decimal_eq j]
    by_cases hk : k < 10
    · have : j < 10 := by omega
      simp [hk, this]
    · by_cases hj10 : j < 10
      · simp [hk, hj10]
      · simp only [hk, hj10, if_false, List.length_append, List.length_singleton]
        have := ih (k / 10) (by omega) (j / 10) (by omega)
        omega

/-- A proper non-empty initial segment of the digits of `k` is the digits of a smaller positive number. -/
theorem decimal_take : ∀ (k : Nat), 1 ≤ k → ∀ t, 1 ≤ t → t < (decimal k).length →
    ∃ k1, 1 ≤ k1 ∧ k1 < k ∧ decimal k1 = (decimal k).take t := by
  intro k
  induction k using Nat.strong_induction_on with
  | _ k ih =>
    intro hk t ht hlt
    rw [decimal_eq k] at hlt ⊢
    by_cases hk10 : k < 10
    · simp [hk10] at hlt; omega
    · simp only [hk10, if_false, List.length_append, List.length_singleton] at hlt ⊢
      by_cases hfull : t = (decimal (k / 10)).length
      · refine ⟨k / 10, by omega, by omega, ?_⟩
        rw [hfull, List.take_left]
      · have hlt2 : t < (decimal (k / 10)).length := by omega
        obtain ⟨k1, h1, h2, h3⟩ := ih (k / 10) (by omega) (by omega) t ht hlt2
        refine ⟨k1, h1, by omega, ?_⟩
        rw [h3, List.take_append_of_le_length (by omega)]

theorem ChooseAuxTableNameLoop_sound (mk : CString → CString → CString → CString)
    (ex : CString → Bool) (name1 name2 label : CString) :
    ∀ (fuel pass : Nat) (r : CString),
      ChooseAuxTableNameLoop mk ex name1 name2 label fuel pass (modlabelAt label pass) = some r →
      ∃ k, pass ≤ k ∧ k < pass + fuel ∧ r = mk name1 name2 (modlabelAt label k) ∧
        ex r = false ∧
        ∀ j, pass ≤ j → j < k → ex (mk name1 name2 (modlabelAt label j)) = true := by
  intro fuel
  induction fuel with
  | zero => intro pass r h; simp [ChooseAuxTableNameLoop] at h
  | succ fuel ih =>
    intro pass r h
    unfold ChooseAuxTableNameLoop at h
    simp only at h
    by_cases hex : ex (mk name1 name2 (modlabelAt label pass)) = true
    · simp only [hex, Bool.not_true, Bool.false_eq_true, if_false] at h
      have hnext : snprintf_s_d NAMEDATALEN label (pass + 1) = modlabelAt label (pass + 1) := by
        simp [modlabelAt]
      rw [hnext] at h
      obtain ⟨k, h1, h2, h3, h4, h5⟩ := ih (pass + 1) r h
      refine ⟨k, by omega, by omega, h3, h4, ?_⟩
      intro j hj hjk
      rcases Nat.eq_or_lt_of_le hj with rfl | hlt
      · exact hex
      · exact h5 j hlt hjk
    · have hfree : ex (mk name1 name2 (modlabelAt label pass)) = false := by
        simpa using hex
      simp only [hfree, Bool.not_false, if_true, Option.some.injEq] at h
      refine ⟨pass, Nat.le_refl _, by omega, h.symm, by rw [← h]; exact hfree, ?_⟩
      intro j hj hjk
      omega

theorem ChooseAuxTableNameLoop_complete (mk : CString → CString → CString → CString)
    (ex : CString → Bool) (name1 name2 label : CString) (k : Nat)
    (hfree : ex (mk name1 name2 (modlabelAt label k)) = false) :
    ∀ (fuel pass : Nat), pass ≤ k → k - pass < fuel →
      (∀ j, pass ≤ j → j < k → ex (mk name1 name2 (modlabelAt label j)) = true) →
      ChooseAuxTableNameLoop mk ex name1 name2 label fuel pass (modlabelAt label pass)
        = some (mk name1 name2 (modlabelAt label k)) := by
  intro fuel
  induction fuel with
  | zero => intro pass _ h; omega
  | succ fuel ih =>
    intro pass hle hfuel htaken
    unfold ChooseAuxTableNameLoop
    simp only
    rcases Nat.eq_or_lt_of_le hle with rfl | hlt
    · simp [hfree]
    · have hex := htaken pass (Nat.le_refl _) hlt
      simp only [hex, Bool.not_true, Bool.false_eq_true, if_false]
      have hnext : snprintf_s_d NAMEDATALEN label (pass + 1) = modlabelAt label (pass + 1) := by
        simp [modlabelAt]
      rw [hnext]
      exact ih (pass + 1) (by omega) (by omega) (fun j hj hjk => htaken j (by omega) hjk)

theorem modlabelAt_zero_of_fits (label : CString) (hfit : label.length ≤ NAMEDATALEN - 1) :
    modlabelAt label 0 = label := by
  simp only [modlabelAt, if_true, StrNCpy]
  exact List.take_of_length_le hfit

theorem modlabelAt_of_fits (label : CString) (k : Nat) (hk : 1 ≤ k)
    (hfit : label.length + (decimal k).length ≤ NAMEDATALEN - 1) :
    modlabelAt label k = label ++ decimal k := by
  have hk0 : ¬ k = 0 := by omega
  simp only [modlabelAt, hk0, if_false, snprintf_s_d]
  exact List.take_of_length_le (by rw [List.length_append]; exact hfit)

/-- With a label that fits the buffer, a pass whose suffixed label does not
fit tries a label that an earlier pass has tried already. -/
theorem modlabelAt_repeats (label : CString) (k : Nat) (hk : 1 ≤ k)
    (hfit : label.length ≤ NAMEDATALEN - 1)
    (hcut : NAMEDATALEN - 1 < label.length + (decimal k).length) :
    ∃ j, j < k ∧ modlabelAt label j = modlabelAt label k := by
  have hk0 : ¬ k = 0 := by omega
  have hcand : modlabelAt label k
      = label ++ (decimal k).take (NAMEDATALEN - 1 - label.length) := by
    simp only [modlabelAt, hk0, if_false, snprintf_s_d]
    rw [List.take_append_eq_append_take, List.take_of_length_le hfit]
  by_cases ht : NAMEDATALEN - 1 - label.length = 0
  · refine ⟨0, by omega, ?_⟩
    rw [hcand, ht, modlabelAt_zero_of_fits label hfit]
    simp
  · obtain ⟨k1, h1, h2, h3⟩ := decimal_take k hk (NAMEDATALEN - 1 - label.length)
      (by omega) (by omega)
    refine ⟨k1, h2, ?_⟩
    have hlen : (decimal k1).length = NAMEDATALEN - 1 - label.length := by
      rw [h3, List.length_take]
      omega
    rw [hcand, ← h3]
    exact modlabelAt_of_fits label k1 h1 (by omega)

/-- C7 as amended. For every `makeObjectName`, every existence test and all
`name1`, `name2`, `label`, with `L` the label as `StrNCpy` leaves it in the
buffer (its first `NAMEDATALEN - 1` bytes; the label itself when it is no
longer than that):
(1) a name `ChooseAuxTableName` returns does not exist, and it is the name
composed with the content of `modlabel` in the first pass whose name does not
exist;
(2) the function returns as soon as the name of some pass does not exist;
(3) the returned name is the name composed from `(name1, name2, L)` if that
name does not exist, and otherwise the name composed from `(name1, name2, L`
followed by `k)` for the smallest `k >= 1` whose composed name does not exist;
(4) with label `aux`, when the unsuffixed name exists and the name with `aux1`
does not, the result is the name with `aux1`. -/
theorem ChooseAuxTableName_first_free (mk : CString → CString → CString → CString)
    (ex : CString → Bool) (name1 name2 label : CString) :
    (∀ (fuel : Nat) (r : CString), ChooseAuxTableName mk ex fuel name1 name2 label = some r →
      ex r = false ∧
      ∃ k, r = mk name1 name2 (modlabelAt label k) ∧
        ∀ j, j < k → ex (mk name1 name2 (modlabelAt label j)) = true) ∧
    (∀ k : Nat, ex (mk name1 name2 (modlabelAt label k)) = false →
      ∃ r, ∀ fuel : Nat, k < fuel → ChooseAuxTableName mk ex fuel name1 name2 label = some r) ∧
    ((label.length ≤ NAMEDATALEN - 1 → StrNCpy label NAMEDATALEN = label) ∧
      ∀ (fuel : Nat) (r : CString), ChooseAuxTableName mk ex fuel name1 name2 label = some r →
        ex r = false ∧
        ((ex (mk name1 name2 (StrNCpy label NAMEDATALEN)) = false ∧
            r = mk name1 name2 (StrNCpy label NAMEDATALEN)) ∨
         (ex (mk name1 name2 (StrNCpy label NAMEDATALEN)) = true ∧
          ∃ k, 1 ≤ k ∧ r = mk name1 name2 (StrNCpy label NAMEDATALEN ++ decimal k) ∧
            ∀ j, 1 ≤ j → j < k →
              ex (mk name1 name2 (StrNCpy label NAMEDATALEN ++ decimal j)) = true))) ∧
    (label = "aux".toList →
      ex (mk name1 name2 "aux".toList) = true →
      ex (mk name1 name2 "aux1".toList) = false →
      ∀ fuel : Nat, 2 ≤ fuel →
        ChooseAuxTableName mk ex fuel name1 name2 label
          = some (mk name1 name2 "aux1".toList)) := by
  have hsound : ∀ (fuel : Nat) (r : CString),
      ChooseAuxTableName mk ex fuel name1 name2 label = some r →
      ex r = false ∧
      ∃ k, r = mk name1 name2 (modlabelAt label k) ∧
        ∀ j, j < k → ex (mk name1 name2 (modlabelAt label j)) = true := by
    intro fuel r h
    have h0 : StrNCpy label NAMEDATALEN = modlabelAt label 0 := by simp [modlabelAt]
    unfold ChooseAuxTableName at h
    rw [h0] at h
    obtain ⟨k, _, _, h3, h4, h5⟩ :=
      ChooseAuxTableNameLoop_sound mk ex name1 name2 label fuel 0 r h
    exact ⟨h4, k, h3, fun j hj => h5 j (Nat.zero_le _) hj⟩
  have hcomplete : ∀ k : Nat, ex (mk name1 name2 (modlabelAt label k)) = false →
      (∀ j, j < k → ex (mk name1 name2 (modlabelAt label j)) = true) →
      ∀ fuel : Nat, k < fuel →
        ChooseAuxTableName mk ex fuel name1 name2 label
          = some (mk name1 name2 (modlabelAt label k)) := by
    intro k hfree htaken fuel hfuel
    have h0 : StrNCpy label NAMEDATALEN = modlabelAt label 0 := by simp [modlabelAt]
    unfold ChooseAuxTableName
    rw [h0]
    exact ChooseAuxTableNameLoop_complete mk ex name1 name2 label k hfree fuel 0
      (Nat.zero_le _) (by omega) (fun j _ hj => htaken j hj)
  refine ⟨hsound, ?_, ?_, ?_⟩
  · intro k hfree
    have hex : ∃ k, ex (mk name1 name2 (modlabelAt label k)) = false := ⟨k, hfree⟩
    refine ⟨mk name1 name2 (modlabelAt label (Nat.find hex)), ?_⟩
    intro fuel hfuel
    refine hcomplete (Nat.find hex) (Nat.find_spec hex) ?_ fuel ?_
    · intro j hj
      have := Nat.find_min hex hj
      simpa using this
    · exact Nat.lt_of_le_of_lt (Nat.find_min' hex hfree) hfuel
  · refine ⟨fun hfit => List.take_of_length_le hfit, ?_⟩
    intro fuel r h
    obtain ⟨hfree, k, hr, htaken⟩ := hsound fuel r h
    refine ⟨hfree, ?_⟩
    have hL0 : modlabelAt label 0 = StrNCpy label NAMEDATALEN := by simp [modlabelAt]
    rcases Nat.eq_zero_or_pos k with rfl | hk
    · left
      rw [hL0] at hr
      exact ⟨by rw [← hr]; exact hfree, hr⟩
    · right
      have h0 := htaken 0 hk
      rw [hL0] at h0
      by_cases hfit : label.length ≤ NAMEDATALEN - 1
      · have hL : StrNCpy label NAMEDATALEN = label := List.take_of_length_le hfit
        rw [hL] at h0 ⊢
        have hnocut : label.length + (decimal k).length ≤ NAMEDATALEN - 1 := by
          by_contra hcut
          obtain ⟨j, hj, hsame⟩ := modlabelAt_repeats label k hk hfit (by omega)
          have h1 := htaken j hj
          rw [hsame, ← hr, hfree] at h1
          exact absurd h1 (by simp)
        refine ⟨h0, k, hk, ?_, ?_⟩
        · rw [hr, modlabelAt_of_fits label k hk hnocut]
        · intro j hj1 hjk
          have hlen := decimal_length_mono k j (by omega)
          have := htaken j hjk
          rw [modlabelAt_of_fits label j hj1 (by omega)] at this
          exact this
      · exfalso
        have hk0 : ¬ k = 0 := by omega
        have hsame : modlabelAt label k = StrNCpy label NAMEDATALEN := by
          simp only [modlabelAt, hk0, if_false, snprintf_s_d, StrNCpy]
          exact List.take_append_of_le_length (by omega)
        rw [hsame] at hr
        rw [← hr, hfree] at h0
        exact absurd h0 (by simp)
  · intro hlabel h0 h1 fuel hfuel
    subst hlabel
    have hm0 : modlabelAt "aux".toList 0 = "aux".toList := by decide
    have hm1 : modlabelAt "aux".toList 1 = "aux1".toList := by decide
    refine hcomplete 1 (by rw [hm1]; exact h1) ?_ fuel (by omega) |>.trans (by rw [hm1])
    intro j hj
    have : j = 0 := by omega
    subst this
    rw [hm0]
    exact h0

/-- C7, counterexample.  With a label of 64 bytes and no relation in the
namespace, `ChooseAuxTableName` returns the name composed with the first 63
bytes of the label, while the name composed from `(name1, name2, label)` does
not exist and is another name. -/
theorem ChooseAuxTableName_counterexample :
    ChooseAuxTableName exampleObjectName (fun _ => false) 1 "orders".toList "status".toList
        (List.replicate 64 'a')
      = some (exampleObjectName "orders".toList "status".toList (List.replicate 63 'a')) ∧
    (fun _ => false : CString → Bool)
        (exampleObjectName "orders".toList "status".toList (List.replicate 64 'a')) = false ∧
    exampleObjectName "orders".toList "status".toList (List.replicate 63 'a')
      ≠ exampleObjectName "orders".toList "status".toList (List.replicate 64 'a') := by
  refine ⟨by decide, rfl, by decide⟩

/-- Concrete run for C7 as amended: `orders_status_aux` exists, so the name
chosen for `(orders, status, aux)` is `orders_status_aux1`. -/
theorem ChooseAuxTableName_first_free_witness :
    ChooseAuxTableName exampleObjectName
        (fun relname => decide (relname ∈ ["orders_status_aux".toList]))
        2 "orders".toList "status".toList "aux".toList
      = some "orders_status_aux1".toList :=
  (ChooseAuxTableName_first_free exampleObjectName
      (fun relname => decide (relname ∈ ["orders_status_aux".toList]))
      "orders".toList "status".toList "aux".toList).2.2.2 rfl (by decide) (by decide) 2
    (by decide)

/-! ### Execution-time column mapper: the projection list -/

theorem MakeMainRelTargetForAuxLoop_filter (d : Decls) (main_rel : Relation) (relid : Nat)
    (target_entry : Bool) :
    ∀ (attrs : List FormData_pg_attribute) (anum : Int) (result : List TargetNode),
      MakeMainRelTargetForAuxLoop d main_rel relid target_entry attrs anum result
        = MakeMainRelTargetForAuxLoop d main_rel relid target_entry
            (attrs.filter (fun a => !a.attisdropped)) anum result := by
  intro attrs
  induction attrs with
  | nil => intro anum result; rfl
  | cons a rest ih =>
    intro anum result
    by_cases hdrop : a.attisdropped = true
    · rw [List.filter_cons_of_neg (by simp [hdrop])]
      rw [← ih]
      simp [MakeMainRelTargetForAuxLoop, hdrop]
    · have hlive : a.attisdropped = false := by simpa using hdrop
      rw [List.filter_cons_of_pos (by simp [hlive])]
      simp only [MakeMainRelTargetForAuxLoop, hlive, Bool.false_eq_true, if_false]
      split
      · rfl
      · split
        · rfl
        · exact ih _ _

theorem findMainAttr_of_distinct (main_rel : Relation) (a : FormData_pg_attribute)
    (hmem : a ∈ main_rel.rd_att) (hlive : a.attisdropped = false)
    (hdistinct : DistinctLiveNames main_rel) :
    findMainAttr main_rel.rd_att a.attname = some a := by
  unfold findMainAttr
  cases hf : main_rel.rd_att.find?
      (fun main_attr => !main_attr.attisdropped && main_attr.attname == a.attname) with
  | none =>
    rw [List.find?_eq_none] at hf
    exact absurd (by simp [hlive]) (hf a hmem)
  | some x =>
    have hx : x ∈ main_rel.rd_att := List.mem_of_find?_eq_some hf
    have hp := List.find?_some hf
    simp only [Bool.and_eq_true, Bool.not_eq_true', beq_iff_eq] at hp
    have hxl : x ∈ main_rel.rd_att.filter (fun a => !a.attisdropped) :=
      List.mem_filter.mpr ⟨hx, by simp [hp.1]⟩
    have hal : a ∈ main_rel.rd_att.filter (fun a => !a.attisdropped) :=
      List.mem_filter.mpr ⟨hmem, by simp [hlive]⟩
    by_cases hxa : x = a
    · rw [hxa]
    · exact absurd hp.2
        (List.Pairwise.forall (fun _ _ h => Ne.symm h) hdistinct hxl hal hxa)

theorem MakeAuxTableColumns_ok_inv (d : Decls) (auxcolumn : FormData_pg_attribute)
    (rel : Relation) (cols : List ColumnDef) (S : AttrNumber)
    (h : MakeAuxTableColumns d auxcolumn rel = .ok (cols, S)) :
    ∃ discolumn, attrsAt rel.rd_att (S - 1) = .ok discolumn ∧
      cols = [columnDefOf auxcolumn, columnDefOf discolumn,
        ⟨"auxnodeid".toList, INT4OID, -1, 0⟩, ⟨"auxctid".toList, TIDOID, -1, 0⟩] := by
  unfold MakeAuxTableColumns at h
  simp only at h
  split at h
  · exact absurd h (by simp)
  · rename_i attnum hattnum
    split at h
    · exact absurd h (by simp)
    · rename_i discolumn hdis
      simp only [Except.ok.injEq, Prod.mk.injEq] at h
      obtain ⟨hc, hs⟩ := h
      subst hs
      exact ⟨discolumn, hdis, by rw [← hc]; rfl⟩

theorem mem_of_attrsAt {attrs : List FormData_pg_attribute} {i : Int}
    {a : FormData_pg_attribute} (h : attrsAt attrs i = .ok a) : a ∈ attrs := by
  unfold attrsAt at h
  split at h
  · exact absurd h (by simp)
  · split at h
    · exact absurd h (by simp)
    · rename_i b hb
      simp only [Except.ok.injEq] at h
      subst h
      exact List.get?_mem hb

/-- C6. Let the master relation have distinctly named live columns, let
`MakeAuxTableColumns` on the live master column `auxcolumn` succeed with the
columns `cols` and the shard-key number `S`, let `S` number the live master
column `discolumn`, and let the live columns of the auxiliary relation be
exactly `cols`.  Then `MakeMainRelTargetForAux` succeeds and returns exactly
four elements, for the ordinal positions 1 to 4, that reference in order the
attribute number of `auxcolumn`, the attribute number of `discolumn`,
`XC_NodeIdAttributeNumber` and `SelfItemPointerAttributeNumber`, each `Var`
with the caller's `relid`. -/
theorem MakeMainRelTargetForAux_left_inverse (d : Decls) (main_rel aux_rel : Relation)
    (auxcolumn discolumn : FormData_pg_attribute) (cols : List ColumnDef) (S : AttrNumber)
    (relid : Nat) (target_entry : Bool)
    (hcols : MakeAuxTableColumns d auxcolumn main_rel = .ok (cols, S))
    (hS : attrsAt main_rel.rd_att (S - 1) = .ok discolumn)
    (haux : liveColumns aux_rel = cols)
    (hA : auxcolumn ∈ main_rel.rd_att)
    (hAlive : auxcolumn.attisdropped = false)
    (hSlive : discolumn.attisdropped = false)
    (hdistinct : DistinctLiveNames main_rel) :
    MakeMainRelTargetForAux d main_rel aux_rel relid target_entry
      = .ok [mainRelTarget relid target_entry 1 auxcolumn,
             mainRelTarget relid target_entry 2 discolumn,
             mainRelTarget relid target_entry 3
               ⟨"xc_node_id".toList, INT4OID, -1, d.XC_NodeIdAttributeNumber, false, 0⟩,
             mainRelTarget relid target_entry 4
               ⟨"ctid".toList, TIDOID, -1, SelfItemPointerAttributeNumber, false, 0⟩] ∧
    ([mainRelTarget relid target_entry 1 auxcolumn,
      mainRelTarget relid target_entry 2 discolumn,
      mainRelTarget relid target_entry 3
        ⟨"xc_node_id".toList, INT4OID, -1, d.XC_NodeIdAttributeNumber, false, 0⟩,
      mainRelTarget relid target_entry 4
        ⟨"ctid".toList, TIDOID, -1, SelfItemPointerAttributeNumber, false, 0⟩].map
        (fun t => ((targetVar t).varno, (targetVar t).varattno))
      = [(relid, auxcolumn.attnum), (relid, discolumn.attnum),
         (relid, d.XC_NodeIdAttributeNumber), (relid, SelfItemPointerAttributeNumber)]) := by
  constructor
  · obtain ⟨dc, hdc, hshape⟩ := MakeAuxTableColumns_ok_inv d auxcolumn main_rel cols S hcols
    rw [hS] at hdc
    simp only [Except.ok.injEq] at hdc
    subst hdc
    have hSmem : discolumn ∈ main_rel.rd_att := mem_of_attrsAt hS
    have hfA := findMainAttr_of_distinct main_rel auxcolumn hA hAlive hdistinct
    have hfS := findMainAttr_of_distinct main_rel discolumn hSmem hSlive hdistinct
    have hxc : ¬ d.XC_NodeIdAttributeNumber = SelfItemPointerAttributeNumber := by
      have := d.nodeid_lt_self
      simp only [AttrNumber, SelfItemPointerAttributeNumber] at *
      omega
    unfold MakeMainRelTargetForAux
    rw [MakeMainRelTargetForAuxLoop_filter]
    rw [hshape] at haux
    unfold liveColumns at haux
    rcases hf : aux_rel.rd_att.filter (fun a => !a.attisdropped) with
      _ | ⟨a1, _ | ⟨a2, _ | ⟨a3, _ | ⟨a4, _ | ⟨a5, t⟩⟩⟩⟩⟩
    all_goals rw [hf] at haux
    all_goals simp only [List.map_nil, List.map_cons, List.cons.injEq, and_true, and_false,
      List.nil_eq, List.cons_ne_nil, reduceCtorEq] at haux
    have hmem : ∀ a ∈ [a1, a2, a3, a4], a.attisdropped = false := by
      intro a ha
      rw [← hf] at ha
      simpa using (List.mem_filter.mp ha).2
    have h1 := hmem a1 (by simp)
    have h2 := hmem a2 (by simp)
    have h3 := hmem a3 (by simp)
    have h4 := hmem a4 (by simp)
    obtain ⟨e1, e2, e3, e4⟩ := haux
    simp only [columnDefOf, ColumnDef.mk.injEq] at e1 e2 e3 e4
    rw [hf]
    simp [MakeMainRelTargetForAuxLoop, h1, h2, h3, h4, Anum_aux_table_auxnodeid,
      Anum_aux_table_auxctid, SystemAttributeDefinition, hxc, e1.1, e2.1, hfA, hfS,
      e1.2.1, e1.2.2.1, e2.2.1, e2.2.2.1, e3.2.1, e3.2.2.1, e4.2.1, e4.2.2.1]
  · cases target_entry <;> simp [mainRelTarget, targetVar, makeVar, makeTargetEntry]

/-- Concrete run for C6: the auxiliary relation of `orders` on `status` (with a
dropped column before `auxnodeid`) maps back to the master's attributes 3
(`status`), 2 (`region`), -8 (`xc_node_id`) and -1 (`ctid`), under the caller's
range-table index 1. -/
theorem MakeMainRelTargetForAux_left_inverse_witness :
    MakeMainRelTargetForAux exampleDecls ordersRelation ordersStatusAux 1 false
      = .ok [.Var ⟨1, 3, 25, -1, 100, 0⟩, .Var ⟨1, 2, 25, -1, 100, 0⟩,
             .Var ⟨1, -8, 23, -1, 0, 0⟩, .Var ⟨1, -1, 27, -1, 0, 0⟩] :=
  (MakeMainRelTargetForAux_left_inverse exampleDecls ordersRelation ordersStatusAux
    ⟨"status".toList, 25, -1, 3, false, 100⟩ ⟨"region".toList, 25, -1, 2, false, 100⟩
    [⟨"status".toList, 25, -1, 100⟩, ⟨"region".toList, 25, -1, 100⟩,
     ⟨"auxnodeid".toList, INT4OID, -1, 0⟩, ⟨"auxctid".toList, TIDOID, -1, 0⟩]
    2 1 false rfl rfl (by decide) (by decide) rfl rfl
    (by unfold DistinctLiveNames; decide)).1

/-! ### Execution-time column mapper: type mismatches -/

theorem mismatched_iff (d : Decls) (main_rel : Relation) (anum : Int)
    (aux_attr : FormData_pg_attribute) :
    mismatched d main_rel anum aux_attr = true ↔
      NoMasterColumn main_rel anum aux_attr ∨ TypeDiffers d main_rel anum aux_attr := by
  have hxc : ¬ d.XC_NodeIdAttributeNumber = SelfItemPointerAttributeNumber := by
    have := d.nodeid_lt_self
    simp only [AttrNumber, SelfItemPointerAttributeNumber] at *
    omega
  unfold mismatched NoMasterColumn TypeDiffers
  cases hm : mainAttrFor d main_rel anum aux_attr.attname with
  | none =>
    simp only [true_iff]
    left
    unfold mainAttrFor at hm
    by_cases h3 : anum = Anum_aux_table_auxnodeid
    · simp [h3, SystemAttributeDefinition, hxc] at hm
    · by_cases h4 : anum = Anum_aux_table_auxctid
      · have h43 : ¬ Anum_aux_table_auxctid = Anum_aux_table_auxnodeid := by decide
        simp [h4, h43, SystemAttributeDefinition] at hm
      · simp only [beq_iff_eq, h3, h4, if_false] at hm
        refine ⟨h3, h4, ?_⟩
        intro m hmem hlive hname
        unfold findMainAttr at hm
        rw [List.find?_eq_none] at hm
        exact hm m hmem (by simp [hlive, hname])
  | some m =>
    constructor
    · intro h
      right
      refine ⟨m, rfl, ?_⟩
      simp only [Bool.or_eq_true, bne_iff_ne, ne_eq] at h
      exact h
    · intro h
      rcases h with ⟨h3, h4, hno⟩ | ⟨m1, hm1, hdiff⟩
      · exfalso
        unfold mainAttrFor at hm
        simp only [beq_iff_eq, h3, h4, if_false] at hm
        unfold findMainAttr at hm
        have hmem := List.mem_of_find?_eq_some hm
        have hp := List.find?_some hm
        simp only [Bool.and_eq_true, Bool.not_eq_true', beq_iff_eq] at hp
        exact hno m hmem hp.1 hp.2
      · simp only [Option.some.injEq] at hm1
        subst hm1
        simp only [Bool.or_eq_true, bne_iff_ne, ne_eq]
        exact hdiff

theorem MakeMainRelTargetForAuxLoop_step_error (d : Decls) (main_rel : Relation) (relid : Nat)
    (target_entry : Bool) (a : FormData_pg_attribute) (rest : List FormData_pg_attribute)
    (n : Int) (acc : List TargetNode) (hlive : a.attisdropped = false)
    (hbad : mismatched d main_rel (n + 1) a = true) :
    MakeMainRelTargetForAuxLoop d main_rel relid target_entry (a :: rest) n acc
      = .error (.ereport .DATATYPE_MISMATCH a.attname) := by
  unfold mismatched mainAttrFor at hbad
  simp only [MakeMainRelTargetForAuxLoop, hlive, Bool.false_eq_true, if_false]
  split
  · rfl
  · rename_i m hm
    rw [hm] at hbad
    simp only at hbad
    rw [if_pos hbad]

theorem MakeMainRelTargetForAuxLoop_step_ok (d : Decls) (main_rel : Relation) (relid : Nat)
    (target_entry : Bool) (a : FormData_pg_attribute) (rest : List FormData_pg_attribute)
    (n : Int) (acc : List TargetNode) (hlive : a.attisdropped = false)
    (hgood : mismatched d main_rel (n + 1) a = false) :
    ∃ m, mainAttrFor d main_rel (n + 1) a.attname = some m ∧
      MakeMainRelTargetForAuxLoop d main_rel relid target_entry (a :: rest) n acc
        = MakeMainRelTargetForAuxLoop d main_rel relid target_entry rest (n + 1)
            (acc ++ [mainRelTarget relid target_entry (n + 1) m]) := by
  unfold mismatched at hgood
  cases hm : mainAttrFor d main_rel (n + 1) a.attname with
  | none => rw [hm] at hgood; exact absurd hgood (by simp)
  | some m =>
    rw [hm] at hgood
    simp only at hgood
    refine ⟨m, rfl, ?_⟩
    unfold mainAttrFor at hm
    simp only [MakeMainRelTargetForAuxLoop, hlive, Bool.false_eq_true, if_false, hm]
    rw [if_neg (by simp [hgood])]

theorem MakeMainRelTargetForAuxLoop_first_mismatch (d : Decls) (main_rel : Relation)
    (relid : Nat) (target_entry : Bool) :
    ∀ (attrs : List FormData_pg_attribute) (n : Int) (acc : List TargetNode) (j : Nat)
      (a : FormData_pg_attribute),
      (∀ b ∈ attrs, b.attisdropped = false) →
      attrs.get? j = some a →
      mismatched d main_rel (n + 1 + (j : Int)) a = true →
      (∀ (i : Nat) (b : FormData_pg_attribute), i < j → attrs.get? i = some b →
        mismatched d main_rel (n + 1 + (i : Int)) b = false) →
      MakeMainRelTargetForAuxLoop d main_rel relid target_entry attrs n acc
        = .error (.ereport .DATATYPE_MISMATCH a.attname) := by
  intro attrs
  induction attrs with
  | nil => intro n acc j a _ hget; simp at hget
  | cons x xs ih =>
    intro n acc j a hlive hget hbad hbefore
    have hx : x.attisdropped = false := hlive x (by simp)
    cases j with
    | zero =>
      simp only [List.get?_cons_zero, Option.some.injEq] at hget
      subst hget
      simp only [Nat.cast_zero, add_zero] at hbad
      exact MakeMainRelTargetForAuxLoop_step_error d main_rel relid target_entry x xs n acc hx hbad
    | succ j =>
      have h0 := hbefore 0 x (Nat.succ_pos j) (by simp)
      simp only [Nat.cast_zero, add_zero] at h0
      obtain ⟨m, _, hstep⟩ :=
        MakeMainRelTargetForAuxLoop_step_ok d main_rel relid target_entry x xs n acc hx h0
      rw [hstep]
      simp only [List.get?_cons_succ] at hget
      refine ih (n + 1) _ j a (fun b hb => hlive b (List.mem_cons_of_mem _ hb)) hget ?_ ?_
      · have : n + 1 + 1 + (j : Int) = n + 1 + ((j + 1 : Nat) : Int) := by push_cast; ring
        rw [this]; exact hbad
      · intro i b hij hgi
        have : n + 1 + 1 + (i : Int) = n + 1 + ((i + 1 : Nat) : Int) := by push_cast; ring
        rw [this]
        exact hbefore (i + 1) b (by omega) (by simpa using hgi)

theorem MakeMainRelTargetForAuxLoop_no_mismatch (d : Decls) (main_rel : Relation)
    (relid : Nat) (target_entry : Bool) :
    ∀ (attrs : List FormData_pg_attribute) (n : Int) (acc : List TargetNode),
      (∀ b ∈ attrs, b.attisdropped = false) →
      (∀ (i : Nat) (b : FormData_pg_attribute), attrs.get? i = some b →
        mismatched d main_rel (n + 1 + (i : Int)) b = false) →
      ∃ l, MakeMainRelTargetForAuxLoop d main_rel relid target_entry attrs n acc
          = .ok (acc ++ l) ∧ l.length = attrs.length := by
  intro attrs
  induction attrs with
  | nil => intro n acc _ _; exact ⟨[], by simp [MakeMainRelTargetForAuxLoop], rfl⟩
  | cons x xs ih =>
    intro n acc hlive hgood
    have hx : x.attisdropped = false := hlive x (by simp)
    have h0 := hgood 0 x (by simp)
    simp only [Nat.cast_zero, add_zero] at h0
    obtain ⟨m, _, hstep⟩ :=
      MakeMainRelTargetForAuxLoop_step_ok d main_rel relid target_entry x xs n acc hx h0
    obtain ⟨l, hl, hlen⟩ := ih (n + 1) (acc ++ [mainRelTarget relid target_entry (n + 1) m])
      (fun b hb => hlive b (List.mem_cons_of_mem _ hb))
      (by
        intro i b hgi
        have : n + 1 + 1 + (i : Int) = n + 1 + ((i + 1 : Nat) : Int) := by push_cast; ring
        rw [this]
        exact hgood (i + 1) b (by simpa using hgi))
    refine ⟨mainRelTarget relid target_entry (n + 1) m :: l, ?_, by simp [hlen]⟩
    rw [hstep, hl]
    simp

/-- C11. Number the live (non-dropped) columns of the auxiliary relation from 1
in ordinal order.  A live column is mismatched exactly when it is at neither the
`auxnodeid` nor the `auxctid` ordinal and no live master column has its name,
or when the master attribute mapped to it (the first live master column of its
name, or the pseudo-column of a fixed ordinal) differs from it in type OID or
type modifier.  If some live column is mismatched, `MakeMainRelTargetForAux`
raises `ERRCODE_DATATYPE_MISMATCH` naming the first such column; if none is, it
succeeds with one element per live column. -/
theorem MakeMainRelTargetForAux_mismatch (d : Decls) (main_rel aux_rel : Relation)
    (relid : Nat) (target_entry : Bool) :
    (∀ (anum : Int) (aux_attr : FormData_pg_attribute),
      mismatched d main_rel anum aux_attr = true ↔
        NoMasterColumn main_rel anum aux_attr ∨ TypeDiffers d main_rel anum aux_attr) ∧
    ((∃ (j : Nat) (a : FormData_pg_attribute), (liveAttrs aux_rel).get? j = some a ∧
        mismatched d main_rel ((j : Int) + 1) a = true) →
      ∃ (j : Nat) (a : FormData_pg_attribute), (liveAttrs aux_rel).get? j = some a ∧
        mismatched d main_rel ((j : Int) + 1) a = true ∧
        (∀ (i : Nat) (b : FormData_pg_attribute), i < j → (liveAttrs aux_rel).get? i = some b →
          mismatched d main_rel ((i : Int) + 1) b = false) ∧
        MakeMainRelTargetForAux d main_rel aux_rel relid target_entry
          = .error (.ereport .DATATYPE_MISMATCH a.attname)) ∧
    ((∀ (j : Nat) (a : FormData_pg_attribute), (liveAttrs aux_rel).get? j = some a →
        mismatched d main_rel ((j : Int) + 1) a = false) →
      ∃ l, MakeMainRelTargetForAux d main_rel aux_rel relid target_entry = .ok l ∧
        l.length = (liveAttrs aux_rel).length) := by
  have hlive : ∀ b ∈ liveAttrs aux_rel, b.attisdropped = false := by
    intro b hb
    simpa [liveAttrs] using (List.mem_filter.mp hb).2
  have hrun : MakeMainRelTargetForAux d main_rel aux_rel relid target_entry
      = MakeMainRelTargetForAuxLoop d main_rel relid target_entry (liveAttrs aux_rel) 0 [] := by
    unfold MakeMainRelTargetForAux liveAttrs
    exact MakeMainRelTargetForAuxLoop_filter d main_rel relid target_entry _ 0 []
  refine ⟨mismatched_iff d main_rel, ?_, ?_⟩
  · intro hex
    have hdec : ∃ j : Nat, ∃ a, (liveAttrs aux_rel).get? j = some a ∧
        mismatched d main_rel ((j : Int) + 1) a = true := hex
    classical
    obtain ⟨a, hget, hbad⟩ := Nat.find_spec hdec
    have hbefore : ∀ (i : Nat) (b : FormData_pg_attribute), i < Nat.find hdec →
        (liveAttrs aux_rel).get? i = some b →
        mismatched d main_rel ((i : Int) + 1) b = false := by
      intro i b hi hgi
      have hmin := Nat.find_min hdec hi
      by_contra hne
      exact hmin ⟨b, hgi, by simpa using hne⟩
    refine ⟨Nat.find hdec, a, hget, hbad, hbefore, ?_⟩
    rw [hrun]
    refine MakeMainRelTargetForAuxLoop_first_mismatch d main_rel relid target_entry
      (liveAttrs aux_rel) 0 [] (Nat.find hdec) a hlive hget ?_ ?_
    · have : (0 : Int) + 1 + ((Nat.find hdec : Nat) : Int) = ((Nat.find hdec : Nat) : Int) + 1 := by
        ring
      rw [this]; exact hbad
    · intro i b hi hgi
      have : (0 : Int) + 1 + (i : Int) = (i : Int) + 1 := by ring
      rw [this]; exact hbefore i b hi hgi
  · intro hgood
    obtain ⟨l, hl, hlen⟩ := MakeMainRelTargetForAuxLoop_no_mismatch d main_rel relid target_entry
      (liveAttrs aux_rel) 0 [] hlive
      (by
        intro i b hgi
        have : (0 : Int) + 1 + (i : Int) = (i : Int) + 1 := by ring
        rw [this]; exact hgood i b hgi)
    refine ⟨l, ?_, hlen⟩
    rw [hrun, hl]
    simp

/-- Concrete run for C11: the master's column `status` has been altered to type
`int4` (OID 23); the auxiliary relation still has it as `text`, and the call
raises `ERRCODE_DATATYPE_MISMATCH` naming `status`. -/
theorem MakeMainRelTargetForAux_mismatch_witness :
    MakeMainRelTargetForAux exampleDecls
        { ordersRelation with rd_att :=
            [ ⟨"id".toList, 23, -1, 1, false, 0⟩,
              ⟨"region".toList, 25, -1, 2, false, 100⟩,
              ⟨"status".toList, 23, -1, 3, false, 0⟩ ] }
        ordersStatusAux 1 false
      = .error (.ereport .DATATYPE_MISMATCH "status".toList) ∧
    ∃ (j : Nat) (a : FormData_pg_attribute), (liveAttrs ordersStatusAux).get? j = some a ∧
      mismatched exampleDecls
        { ordersRelation with rd_att :=
            [ ⟨"id".toList, 23, -1, 1, false, 0⟩,
              ⟨"region".toList, 25, -1, 2, false, 100⟩,
              ⟨"status".toList, 23, -1, 3, false, 0⟩ ] } ((j : Int) + 1) a = true ∧
      (∀ (i : Nat) (b : FormData_pg_attribute), i < j →
        (liveAttrs ordersStatusAux).get? i = some b →
        mismatched exampleDecls
          { ordersRelation with rd_att :=
              [ ⟨"id".toList, 23, -1, 1, false, 0⟩,
                ⟨"region".toList, 25, -1, 2, false, 100⟩,
                ⟨"status".toList, 23, -1, 3, false, 0⟩ ] } ((i : Int) + 1) b = false) ∧
      MakeMainRelTargetForAux exampleDecls
          { ordersRelation with rd_att :=
              [ ⟨"id".toList, 23, -1, 1, false, 0⟩,
                ⟨"region".toList, 25, -1, 2, false, 100⟩,
                ⟨"status".toList, 23, -1, 3, false, 0⟩ ] }
          ordersStatusAux 1 false
        = .error (.ereport .DATATYPE_MISMATCH a.attname) :=
  ⟨rfl, (MakeMainRelTargetForAux_mismatch exampleDecls
      { ordersRelation with rd_att :=
          [ ⟨"id".toList, 23, -1, 1, false, 0⟩,
            ⟨"region".toList, 25, -1, 2, false, 100⟩,
            ⟨"status".toList, 23, -1, 3, false, 0⟩ ] }
      ordersStatusAux 1 false).2.1
    ⟨0, ⟨"status".toList, 25, -1, 1, false, 100⟩, rfl, rfl⟩⟩

/-! ### The relation-cache view -/

theorem bms_add_member_mem_iff (a a1 : Bitmapset) (x : Int)
    (h : bms_add_member a x = .ok a1) :
    0 ≤ x ∧ ∀ y : Nat, y ∈ a1 ↔ y ∈ a ∨ y = x.toNat := by
  unfold bms_add_member at h
  split at h
  · exact absurd h (by simp)
  · rename_i hx
    refine ⟨by omega, ?_⟩
    split at h
    · rename_i hmem
      simp only [Except.ok.injEq] at h
      subst h
      intro y
      constructor
      · intro hy; exact Or.inl hy
      · rintro (hy | hy)
        · exact hy
        · rw [hy]; exact hmem
    · simp only [Except.ok.injEq] at h
      subst h
      intro y
      simp

theorem RelationBuildAuxiliaryLoop_spec :
    ∀ (rows : List FormData_pg_aux_class) (auxlist : List Oid) (auxatt : Bitmapset),
      (∀ t ∈ rows, 0 ≤ t.attnum) →
      ∃ auxatt1, RelationBuildAuxiliaryLoop rows auxlist auxatt
          = .ok (auxlist ++ rows.map (fun t => t.auxrelid), auxatt1) ∧
        ∀ y : Nat, y ∈ auxatt1 ↔ y ∈ auxatt ∨ ∃ t ∈ rows, t.attnum.toNat = y := by
  intro rows
  induction rows with
  | nil =>
    intro auxlist auxatt _
    exact ⟨auxatt, by simp [RelationBuildAuxiliaryLoop], by simp⟩
  | cons r rest ih =>
    intro auxlist auxatt hpos
    obtain ⟨a1, hadd, _, _⟩ := bms_add_member_ok auxatt r.attnum (hpos r (by simp))
    have hiff := (bms_add_member_mem_iff auxatt a1 r.attnum hadd).2
    obtain ⟨a2, hloop, hmem⟩ := ih (auxlist ++ [r.auxrelid]) a1
      (fun t ht => hpos t (List.mem_cons_of_mem _ ht))
    refine ⟨a2, ?_, ?_⟩
    · simp only [RelationBuildAuxiliaryLoop, hadd, hloop]
      simp
    · intro y
      rw [hmem y, hiff y]
      constructor
      · rintro ((hy | hy) | ⟨t, ht, hty⟩)
        · exact Or.inl hy
        · exact Or.inr ⟨r, by simp, hy.symm⟩
        · exact Or.inr ⟨t, List.mem_cons_of_mem _ ht, hty⟩
      · rintro (hy | ⟨t, ht, hty⟩)
        · exact Or.inl (Or.inl hy)
        · rcases List.mem_cons.mp ht with rfl | ht
          · exact Or.inl (Or.inr hty.symm)
          · exact Or.inr ⟨t, ht, hty⟩

theorem mem_systable_scan_relid (c : Catalog) (relid : Oid) (t : FormData_pg_aux_class) :
    t ∈ systable_scan_relid c relid ↔ t ∈ c.pg_aux_class ∧ t.relid = relid := by
  unfold systable_scan_relid
  rw [(List.perm_insertionSort attnumLE _).mem_iff, List.mem_filter]
  simp

/-- C12 as amended. For a relation whose identifier is below
`FirstNormalObjectId`, `RelationBuildAuxiliary` returns at once and leaves the
relation as it was.  For any other relation, on a catalog whose records for it
carry non-negative attribute numbers, it sets `rd_auxlist` to the `auxrelid`
values of the rows the index scan returns, which are the catalog records whose
`relid` is the relation's, each once, in the order of the index (by `attnum`),
and `rd_auxatt` to a set that holds `x` exactly when some record
`(aux, relid, x)` exists; the other fields of the relation stay as they were. -/
theorem RelationBuildAuxiliary_view (c : Catalog) (rel : Relation) :
    (rel.rd_id < FirstNormalObjectId → RelationBuildAuxiliary c rel = .ok rel) ∧
    (FirstNormalObjectId ≤ rel.rd_id →
      (∀ t ∈ c.pg_aux_class, t.relid = rel.rd_id → 0 ≤ t.attnum) →
      ∃ auxatt,
        RelationBuildAuxiliary c rel
          = .ok { rel with
              rd_auxlist := (systable_scan_relid c rel.rd_id).map (fun t => t.auxrelid),
              rd_auxatt := auxatt } ∧
        (systable_scan_relid c rel.rd_id).Perm
          (c.pg_aux_class.filter (fun t => t.relid == rel.rd_id)) ∧
        (systable_scan_relid c rel.rd_id).Sorted attnumLE ∧
        ∀ x : Int, bms_is_member x auxatt = true ↔
          ∃ t ∈ c.pg_aux_class, t.relid = rel.rd_id ∧ t.attnum = x) := by
  constructor
  · intro hsys
    unfold RelationBuildAuxiliary
    rw [if_pos hsys]
  · intro huser hpos
    have hrows : ∀ t ∈ systable_scan_relid c rel.rd_id, 0 ≤ t.attnum := by
      intro t ht
      obtain ⟨hmem, hrel⟩ := (mem_systable_scan_relid c rel.rd_id t).mp ht
      exact hpos t hmem hrel
    obtain ⟨auxatt, hloop, hmem⟩ :=
      RelationBuildAuxiliaryLoop_spec (systable_scan_relid c rel.rd_id) [] [] hrows
    refine ⟨auxatt, ?_, ?_, ?_, ?_⟩
    · unfold RelationBuildAuxiliary
      rw [if_neg (Nat.not_lt.mpr huser), hloop]
      simp
    · exact List.perm_insertionSort attnumLE _
    · haveI : IsTotal FormData_pg_aux_class attnumLE :=
        ⟨fun a b => le_total a.attnum b.attnum⟩
      haveI : IsTrans FormData_pg_aux_class attnumLE :=
        ⟨fun a b c hab hbc => le_trans (α := Int) hab hbc⟩
      exact List.sorted_insertionSort attnumLE _
    · intro x
      simp only [bms_is_member, Bool.and_eq_true, decide_eq_true_eq]
      constructor
      · rintro ⟨hx, hxm⟩
        rcases (hmem x.toNat).mp hxm with hnil | ⟨t, ht, htx⟩
        · exact absurd hnil (List.not_mem_nil _)
        · obtain ⟨htc, htr⟩ := (mem_systable_scan_relid c rel.rd_id t).mp ht
          refine ⟨t, htc, htr, ?_⟩
          have ht0 := hpos t htc htr
          simp only [AttrNumber] at *
          omega
      · rintro ⟨t, htc, htr, htx⟩
        have ht0 := hpos t htc htr
        refine ⟨by rw [← htx]; exact ht0, ?_⟩
        refine (hmem x.toNat).mpr (Or.inr ⟨t, ?_, by rw [htx]⟩)
        exact (mem_systable_scan_relid c rel.rd_id t).mpr ⟨htc, htr⟩

/-- C12, counterexample.  The relation 100 is below `FirstNormalObjectId`.  With
the record `(16385, 100, 1)` in the catalog, `RelationBuildAuxiliary` leaves its
empty `rd_auxlist` and `rd_auxatt` empty; with no record in the catalog, it
leaves a non-empty `rd_auxlist` and `rd_auxatt` as they are. -/
theorem RelationBuildAuxiliary_counterexample :
    RelationBuildAuxiliary ⟨[⟨16385, 100, 1⟩], [], 0⟩ { ordersRelation with rd_id := 100 }
      = .ok { ordersRelation with rd_id := 100, rd_auxlist := [], rd_auxatt := [] } ∧
    (⟨16385, 100, 1⟩ : FormData_pg_aux_class) ∈
      (⟨[⟨16385, 100, 1⟩], [], 0⟩ : Catalog).pg_aux_class ∧
    RelationBuildAuxiliary ⟨[], [], 0⟩
        { ordersRelation with rd_id := 100, rd_auxlist := [16385], rd_auxatt := [1] }
      = .ok { ordersRelation with rd_id := 100, rd_auxlist := [16385], rd_auxatt := [1] } := by
  refine ⟨rfl, by decide, rfl⟩

/-- Concrete run for C12 as amended: `orders` (16384) with auxiliary relations
on its attributes 3 and 1, recorded in that order, beside a record of another
relation; the view lists them in index order. -/
theorem RelationBuildAuxiliary_view_witness :
    RelationBuildAuxiliary
        ⟨[⟨16386, 16384, 3⟩, ⟨16390, 16388, 1⟩, ⟨16385, 16384, 1⟩], [], 0⟩ ordersRelation
      = .ok { ordersRelation with rd_auxlist := [16385, 16386], rd_auxatt := [1, 3] } ∧
    ∃ auxatt,
      RelationBuildAuxiliary
          ⟨[⟨16386, 16384, 3⟩, ⟨16390, 16388, 1⟩, ⟨16385, 16384, 1⟩], [], 0⟩ ordersRelation
        = .ok { ordersRelation with
            rd_auxlist := (systable_scan_relid
              ⟨[⟨16386, 16384, 3⟩, ⟨16390, 16388, 1⟩, ⟨16385, 16384, 1⟩], [], 0⟩
              ordersRelation.rd_id).map (fun t => t.auxrelid),
            rd_auxatt := auxatt } ∧
      (systable_scan_relid
          ⟨[⟨16386, 16384, 3⟩, ⟨16390, 16388, 1⟩, ⟨16385, 16384, 1⟩], [], 0⟩
          ordersRelation.rd_id).Perm
        ((⟨[⟨16386, 16384, 3⟩, ⟨16390, 16388, 1⟩, ⟨16385, 16384, 1⟩], [], 0⟩ :
          Catalog).pg_aux_class.filter (fun t => t.relid == ordersRelation.rd_id)) ∧
      (systable_scan_relid
          ⟨[⟨16386, 16384, 3⟩, ⟨16390, 16388, 1⟩, ⟨16385, 16384, 1⟩], [], 0⟩
          ordersRelation.rd_id).Sorted attnumLE ∧
      ∀ x : Int, bms_is_member x auxatt = true ↔
        ∃ t ∈ (⟨[⟨16386, 16384, 3⟩, ⟨16390, 16388, 1⟩, ⟨16385, 16384, 1⟩], [], 0⟩ :
          Catalog).pg_aux_class, t.relid = ordersRelation.rd_id ∧ t.attnum = x :=
  ⟨rfl, (RelationBuildAuxiliary_view
      ⟨[⟨16386, 16384, 3⟩, ⟨16390, 16388, 1⟩, ⟨16385, 16384, 1⟩], [], 0⟩ ordersRelation).2
    (by decide) (by decide)⟩

/-! ### Descriptors that resolve to no single shard-key attribute -/

theorem attrsAt_invalid (attrs : List FormData_pg_attribute) :
    attrsAt attrs (InvalidAttrNumber - 1) = .error .fault := by
  unfold attrsAt
  rw [if_pos (by decide)]

/-- C13, the code at the failing inputs.  `MakeAuxTableColumns` has no
`ereport`.  On a descriptor that is neither by value nor user-defined it takes
the branch "should not reach here" and reads `attrs[-1]`; on a user-defined
descriptor without argument attributes it reads the head of the empty list; on
a user-defined descriptor with the two argument attributes 2 and 3 it returns
the column list built on the first of them. -/
theorem MakeAuxTableColumns_unresolved (d : Decls) (auxcolumn : FormData_pg_attribute) :
    (∀ rel : Relation,
      IsRelationDistributedByValue d rel.rd_locator_info = false →
      IsRelationDistributedByUserDefined rel.rd_locator_info = false →
      MakeAuxTableColumns d auxcolumn rel = .error .fault) ∧
    (∀ rel : Relation,
      IsRelationDistributedByValue d rel.rd_locator_info = false →
      IsRelationDistributedByUserDefined rel.rd_locator_info = true →
      rel.rd_locator_info.funcAttrNums = [] →
      MakeAuxTableColumns d auxcolumn rel = .error .fault) ∧
    MakeAuxTableColumns exampleDecls auxcolumn
        { ordersRelation with rd_locator_info := ⟨.LOCATOR_TYPE_CUSTOM, 0, []⟩ }
      = .error .fault ∧
    MakeAuxTableColumns exampleDecls auxcolumn
        { ordersRelation with rd_locator_info := ⟨.LOCATOR_TYPE_USER_DEFINED, 0, []⟩ }
      = .error .fault ∧
    MakeAuxTableColumns exampleDecls auxcolumn
        { ordersRelation with rd_locator_info := ⟨.LOCATOR_TYPE_USER_DEFINED, 0, [2, 3]⟩ }
      = .ok ([⟨auxcolumn.attname, auxcolumn.atttypid, auxcolumn.atttypmod,
                auxcolumn.attcollation⟩,
              ⟨"region".toList, 25, -1, 100⟩,
              ⟨"auxnodeid".toList, INT4OID, -1, 0⟩,
              ⟨"auxctid".toList, TIDOID, -1, 0⟩], 2) := by
  have hgen : ∀ rel : Relation,
      IsRelationDistributedByValue d rel.rd_locator_info = false →
      IsRelationDistributedByUserDefined rel.rd_locator_info = false →
      MakeAuxTableColumns d auxcolumn rel = .error .fault := by
    intro rel hv hu
    unfold MakeAuxTableColumns
    simp [hv, hu, attrsAt_invalid]
  have hnil : ∀ rel : Relation,
      IsRelationDistributedByValue d rel.rd_locator_info = false →
      IsRelationDistributedByUserDefined rel.rd_locator_info = true →
      rel.rd_locator_info.funcAttrNums = [] →
      MakeAuxTableColumns d auxcolumn rel = .error .fault := by
    intro rel hv hu hf
    unfold MakeAuxTableColumns
    simp [hv, hu, hf, linitial_int]
  exact ⟨hgen, hnil, rfl, rfl, rfl⟩

/-- C16, the code at the failing inputs.  The locator-type switch of
`QueryRewriteAuxStmt` passes a custom descriptor and a user-defined descriptor
without argument attributes.  For the first, `MakeAuxTableColumns` takes the
branch "should not reach here" and reads `attrs[-1]`; for the second it reads
the head of the empty `funcAttrNums`.  The whole rewrite of the statement on
`status` of a custom-distributed `orders` ends in that fault, after it has
named the two payloads and before any table is created. -/
theorem gate_passes_unresolved :
    masterRelationCheck ⟨.LOCATOR_TYPE_CUSTOM, 0, []⟩ = .ok () ∧
    MakeAuxTableColumns exampleDecls ⟨"status".toList, 25, -1, 3, false, 100⟩
        { ordersRelation with rd_locator_info := ⟨.LOCATOR_TYPE_CUSTOM, 0, []⟩ }
      = .error .fault ∧
    masterRelationCheck ⟨.LOCATOR_TYPE_USER_DEFINED, 0, []⟩ = .ok () ∧
    MakeAuxTableColumns exampleDecls ⟨"status".toList, 25, -1, 3, false, 100⟩
        { ordersRelation with rd_locator_info := ⟨.LOCATOR_TYPE_USER_DEFINED, 0, []⟩ }
      = .error .fault ∧
    QueryRewriteAuxStmt exampleDecls
        (exampleServices
          { ordersRelation with rd_locator_info := ⟨.LOCATOR_TYPE_CUSTOM, 0, []⟩ } [⟨0⟩])
        1 false [] (exampleAuxQuery "status".toList)
      = some ⟨.error .fault, false, [], [], [],
          { exampleAuxQuery "status".toList with
            utilityStmt := some (.CreateAuxStmt
              { create_stmt := ⟨some ⟨none, "orders_status_aux".toList⟩, [],
                  some ⟨none, "orders".toList⟩, 0⟩
                index_stmt := ⟨some ⟨none, "orders_status_aux".toList⟩, [], ["status".toList]⟩
                master_relation := ⟨none, "orders".toList⟩
                aux_column := "status".toList }) }⟩ := by
  exact ⟨rfl, rfl, rfl, rfl, rfl⟩

/-! ### The rewrite pipeline: the create-index statement -/

theorem rewriteCheckedAuxStmt_success {DB : Type} (d : Decls) (svc : Services DB) (fuel : Nat)
    (flag : Bool) (db : DB) (auxquery : Query) (auxstmt : CreateAuxStmt)
    (master_relation : Relation) (auxattform : FormData_pg_attribute) (out : Outcome DB)
    (l : List TreeNode)
    (h : rewriteCheckedAuxStmt d svc fuel flag db auxquery auxstmt master_relation auxattform
      = some out)
    (hl : out.result = .ok l) :
    ∃ (create_relation : RangeVar) (index_relation : Option RangeVar)
      (tableElts : List ColumnDef) (pops : List TreeNode),
      namedRelations svc fuel db auxstmt master_relation auxattform
        = some (create_relation, index_relation) ∧
      out.utility_calls = [.CreateStmt { auxstmt.create_stmt with
        relation := some create_relation,
        tableElts := tableElts,
        aux_attnum := auxattform.attnum }] ∧
      l = pops.map markInsertQuery ++
        [.Query { auxquery with
          utilityStmt := some (.IndexStmt { auxstmt.index_stmt with
            relation := index_relation }),
          canSetTag := false,
          querySource := .QSRC_PARSER }] := by
  unfold rewriteCheckedAuxStmt at h
  simp only at h
  split at h
  · exact absurd h (by simp)
  · rename_i create_relation index_relation hnamed
    split at h
    · simp only [Option.some.injEq] at h; subst h; exact absurd hl (by simp)
    · rename_i tableElts distattnum hcols
      split at h
      · simp only [Option.some.injEq] at h; subst h; exact absurd hl (by simp)
      · split at h
        · simp only [Option.some.injEq] at h; subst h; exact absurd hl (by simp)
        · split at h
          · simp only [Option.some.injEq] at h; subst h; exact absurd hl (by simp)
          · rename_i raws hparse
            split at h
            · simp only [Option.some.injEq] at h; subst h; exact absurd hl (by simp)
            · rename_i pops fl flags hpa
              have hs := populationAnalysis_eq hpa
              simp only [Option.some.injEq] at h; subst h
              simp only [Except.ok.injEq] at hl
              simp only at hs
              obtain ⟨each, _, hpops⟩ := analyzeLoop_ok svc true _ _ raws [] pops hs.2.1.symm
              refine ⟨create_relation, index_relation, tableElts, each.flatten, hnamed, rfl, ?_⟩
              rw [← hl, hpops, List.nil_append]

theorem markInsertQuery_marked (pops : List TreeNode) (q : Query)
    (h : TreeNode.Query q ∈ pops.map markInsertQuery) :
    q.canSetTag = false ∧ q.querySource = .QSRC_PARSER := by
  obtain ⟨t, _, ht⟩ := List.mem_map.mp h
  cases t with
  | Query q0 =>
    simp only [markInsertQuery, TreeNode.Query.injEq] at ht
    subst ht
    exact ⟨rfl, rfl⟩
  | NotQuery n => simp [markInsertQuery] at ht

/-- C14. On every input on which `QueryRewriteAuxStmt` succeeds, the statement
of the input query is a `CreateAuxStmt`, the last element of the returned list
is the input query with the index payload as its utility statement, every
`Query` of the returned list (population sub-statement or index statement) has
`canSetTag = false` and `querySource = QSRC_PARSER`, and, when the create-table
payload carried no name, the create-table payload that was executed and the
index payload name the same relation, the one `ChooseAuxTableName` returned. -/
theorem rewrite_index_last {DB : Type} (d : Decls) (svc : Services DB) (fuel : Nat)
    (flag : Bool) (db : DB) (auxquery : Query) (out : Outcome DB) (l : List TreeNode)
    (h : QueryRewriteAuxStmt d svc fuel flag db auxquery = some out)
    (hl : out.result = .ok l) :
    ∃ (auxstmt : CreateAuxStmt) (create_stmt : CreateStmt) (index_stmt : IndexStmt),
      auxquery.utilityStmt = some (.CreateAuxStmt auxstmt) ∧
      out.utility_calls = [.CreateStmt create_stmt] ∧
      index_stmt.idxname = auxstmt.index_stmt.idxname ∧
      index_stmt.indexParams = auxstmt.index_stmt.indexParams ∧
      l.getLast? = some (.Query { auxquery with
        utilityStmt := some (.IndexStmt index_stmt),
        canSetTag := false,
        querySource := .QSRC_PARSER }) ∧
      (∀ q : Query, TreeNode.Query q ∈ l →
        q.canSetTag = false ∧ q.querySource = .QSRC_PARSER) ∧
      (auxstmt.create_stmt.relation = none →
        ∃ relname : CString,
          create_stmt.relation = some ⟨none, relname⟩ ∧
          index_stmt.relation = some ⟨none, relname⟩) := by
  have finish : ∀ (auxstmt : CreateAuxStmt) (master_relation : Relation)
      (auxattform : FormData_pg_attribute),
      auxquery.utilityStmt = some (.CreateAuxStmt auxstmt) →
      rewriteCheckedAuxStmt d svc fuel flag db auxquery auxstmt master_relation auxattform
        = some out →
      ∃ (auxstmt : CreateAuxStmt) (create_stmt : CreateStmt) (index_stmt : IndexStmt),
        auxquery.utilityStmt = some (.CreateAuxStmt auxstmt) ∧
        out.utility_calls = [.CreateStmt create_stmt] ∧
        index_stmt.idxname = auxstmt.index_stmt.idxname ∧
        index_stmt.indexParams = auxstmt.index_stmt.indexParams ∧
        l.getLast? = some (.Query { auxquery with
          utilityStmt := some (.IndexStmt index_stmt),
          canSetTag := false,
          querySource := .QSRC_PARSER }) ∧
        (∀ q : Query, TreeNode.Query q ∈ l →
          q.canSetTag = false ∧ q.querySource = .QSRC_PARSER) ∧
        (auxstmt.create_stmt.relation = none →
          ∃ relname : CString,
            create_stmt.relation = some ⟨none, relname⟩ ∧
            index_stmt.relation = some ⟨none, relname⟩) := by
    intro auxstmt master_relation auxattform hstmt hrun
    obtain ⟨create_relation, index_relation, tableElts, pops, hnamed, hcalls, hlist⟩ :=
      rewriteCheckedAuxStmt_success d svc fuel flag db auxquery auxstmt master_relation
        auxattform out l hrun hl
    refine ⟨auxstmt, _, { auxstmt.index_stmt with relation := index_relation },
      hstmt, hcalls, rfl, rfl, ?_, ?_, ?_⟩
    · rw [hlist]; simp
    · intro q hq
      rw [hlist] at hq
      rcases List.mem_append.mp hq with hq | hq
      · exact markInsertQuery_marked pops q hq
      · simp only [List.mem_singleton, TreeNode.Query.injEq] at hq
        subst hq
        exact ⟨rfl, rfl⟩
    · intro hnone
      unfold namedRelations at hnamed
      rw [hnone] at hnamed
      simp only at hnamed
      split at hnamed
      · exact absurd hnamed (by simp)
      · rename_i relname _
        simp only [Option.some.injEq, Prod.mk.injEq] at hnamed
        exact ⟨relname, by rw [← hnamed.1]; rfl, by rw [← hnamed.2]; rfl⟩
  unfold QueryRewriteAuxStmt at h
  simp only at h
  split at h
  · simp only [Option.some.injEq] at h; subst h; exact absurd hl (by simp)
  · split at h
    · simp only [Option.some.injEq] at h; subst h; exact absurd hl (by simp)
    · simp only [Option.some.injEq] at h; subst h; exact absurd hl (by simp)
    · simp only [Option.some.injEq] at h; subst h; exact absurd hl (by simp)
    · simp only [Option.some.injEq] at h; subst h; exact absurd hl (by simp)
    · rename_i auxstmt hstmt
      split at h
      · simp only [Option.some.injEq] at h; subst h; exact absurd hl (by simp)
      · split at h
        · simp only [Option.some.injEq] at h; subst h; exact absurd hl (by simp)
        · split at h
          · simp only [Option.some.injEq] at h; subst h; exact absurd hl (by simp)
          · split at h
            · simp only [Option.some.injEq] at h; subst h; exact absurd hl (by simp)
            · exact finish auxstmt _ _ hstmt h

/-- Concrete run for C14: the spec's scenario; the list ends with the
create-index query on `orders_status_aux`, the table the executed create-table
statement names. -/
theorem rewrite_index_last_witness :
    ∃ (auxstmt : CreateAuxStmt) (create_stmt : CreateStmt) (index_stmt : IndexStmt),
      (exampleAuxQuery "status".toList).utilityStmt = some (.CreateAuxStmt auxstmt) ∧
      [Node.CreateStmt ⟨some ⟨none, "orders_status_aux".toList⟩,
          [⟨"status".toList, 25, -1, 100⟩, ⟨"region".toList, 25, -1, 100⟩,
           ⟨"auxnodeid".toList, 23, -1, 0⟩, ⟨"auxctid".toList, 27, -1, 0⟩],
          some ⟨none, "orders".toList⟩, 3⟩] = [.CreateStmt create_stmt] ∧
      index_stmt.idxname = auxstmt.index_stmt.idxname ∧
      index_stmt.indexParams = auxstmt.index_stmt.indexParams ∧
      ([.Query ⟨.CMD_INSERT, .QSRC_PARSER, false, none, 1⟩,
        .Query ⟨.CMD_UTILITY, .QSRC_PARSER, false,
          some (.IndexStmt ⟨some ⟨none, "orders_status_aux".toList⟩, [],
            ["status".toList]⟩), 0⟩] : List TreeNode).getLast?
        = some (.Query { exampleAuxQuery "status".toList with
            utilityStmt := some (.IndexStmt index_stmt),
            canSetTag := false,
            querySource := .QSRC_PARSER }) ∧
      (∀ q : Query,
        TreeNode.Query q ∈
          ([.Query ⟨.CMD_INSERT, .QSRC_PARSER, false, none, 1⟩,
            .Query ⟨.CMD_UTILITY, .QSRC_PARSER, false,
              some (.IndexStmt ⟨some ⟨none, "orders_status_aux".toList⟩, [],
                ["status".toList]⟩), 0⟩] : List TreeNode) →
        q.canSetTag = false ∧ q.querySource = .QSRC_PARSER) ∧
      (auxstmt.create_stmt.relation = none →
        ∃ relname : CString,
          create_stmt.relation = some ⟨none, relname⟩ ∧
          index_stmt.relation = some ⟨none, relname⟩) :=
  rewrite_index_last exampleDecls (exampleServices ordersRelation [⟨0⟩]) 1 false []
    (exampleAuxQuery "status".toList)
    ⟨.ok [.Query ⟨.CMD_INSERT, .QSRC_PARSER, false, none, 1⟩,
          .Query ⟨.CMD_UTILITY, .QSRC_PARSER, false,
            some (.IndexStmt ⟨some ⟨none, "orders_status_aux".toList⟩, [],
              ["status".toList]⟩), 0⟩],
      false, ["orders_status_aux".toList],
      [.CreateStmt ⟨some ⟨none, "orders_status_aux".toList⟩,
          [⟨"status".toList, 25, -1, 100⟩, ⟨"region".toList, 25, -1, 100⟩,
           ⟨"auxnodeid".toList, 23, -1, 0⟩, ⟨"auxctid".toList, 27, -1, 0⟩],
          some ⟨none, "orders".toList⟩, 3⟩],
      [true],
      ⟨.CMD_UTILITY, .QSRC_PARSER, false,
        some (.IndexStmt ⟨some ⟨none, "orders_status_aux".toList⟩, [], ["status".toList]⟩), 0⟩⟩
    _ rfl rfl

/-! ### Termination of `ChooseAuxTableName` -/

theorem digitChar_injective_lt_ten :
    ∀ a < 10, ∀ b < 10, Nat.digitChar a = Nat.digitChar b → a = b := by
  decide

theorem decimal_injective : ∀ (k j : Nat), decimal k = decimal j → k = j := by
  intro k
  induction k using Nat.strong_induction_on with
  | _ k ih =>
    intro j h
    have hk := decimal_eq k
    have hj := decimal_eq j
    by_cases hk10 : k < 10
    · by_cases hj10 : j < 10
      · rw [hk, hj, if_pos hk10, if_pos hj10] at h
        simp only [List.cons.injEq, and_true] at h
        exact digitChar_injective_lt_ten k hk10 j hj10 h
      · exfalso
        have hlen := congrArg List.length h
        rw [hk, hj, if_pos hk10, if_neg hj10] at hlen
        have := decimal_length_pos (j / 10)
        simp only [List.length_singleton, List.length_append] at hlen
        omega
    · by_cases hj10 : j < 10
      · exfalso
        have hlen := congrArg List.length h
        rw [hk, hj, if_neg hk10, if_pos hj10] at hlen
        have := decimal_length_pos (k / 10)
        simp only [List.length_singleton, List.length_append] at hlen
        omega
      · rw [hk, hj, if_neg hk10, if_neg hj10] at h
        obtain ⟨h1, h2⟩ := List.append_inj' h rfl
        simp only [List.cons.injEq, and_true] at h2
        have hq := ih (k / 10) (by omega) (j / 10) h1
        have hr := digitChar_injective_lt_ten (k % 10) (Nat.mod_lt _ (by decide)) (j % 10)
          (Nat.mod_lt _ (by decide)) h2
        omega

/-- While the suffixed labels fit the buffer, different passes hold different
labels in `modlabel`. -/
theorem modlabelAt_injective_of_fits (label : CString) (n : Nat)
    (hfit : label.length + (decimal n).length ≤ NAMEDATALEN - 1) :
    ∀ j k : Nat, j ≤ n → k ≤ n → modlabelAt label j = modlabelAt label k → j = k := by
  have hlabel : label.length ≤ NAMEDATALEN - 1 := by omega
  have hfits : ∀ j, 1 ≤ j → j ≤ n → modlabelAt label j = label ++ decimal j := by
    intro j hj1 hjn
    have := decimal_length_mono n j hjn
    exact modlabelAt_of_fits label j hj1 (by omega)
  have hzero : ∀ k, 1 ≤ k → k ≤ n → modlabelAt label 0 ≠ modlabelAt label k := by
    intro k hk1 hkn h
    rw [modlabelAt_zero_of_fits label hlabel, hfits k hk1 hkn] at h
    have hlen := congrArg List.length h
    have := decimal_length_pos k
    rw [List.length_append] at hlen
    omega
  intro j k hj hk h
  rcases Nat.eq_zero_or_pos j with rfl | hj1
  · rcases Nat.eq_zero_or_pos k with rfl | hk1
    · rfl
    · exact absurd h (hzero k hk1 hk)
  · rcases Nat.eq_zero_or_pos k with rfl | hk1
    · exact absurd h.symm (hzero j hj1 hj)
    · rw [hfits j hj1 hj, hfits k hk1 hk] at h
      exact decimal_injective j k (List.append_cancel_left h)

theorem ChooseAuxTableName_of_first_free (mk : CString → CString → CString → CString)
    (ex : CString → Bool) (name1 name2 label : CString) (k : Nat)
    (hfree : ex (mk name1 name2 (modlabelAt label k)) = false)
    (htaken : ∀ j, j < k → ex (mk name1 name2 (modlabelAt label j)) = true)
    (fuel : Nat) (hfuel : k < fuel) :
    ChooseAuxTableName mk ex fuel name1 name2 label
      = some (mk name1 name2 (modlabelAt label k)) := by
  have h0 : StrNCpy label NAMEDATALEN = modlabelAt label 0 := by simp [modlabelAt]
  unfold ChooseAuxTableName
  rw [h0]
  exact ChooseAuxTableNameLoop_complete mk ex name1 name2 label k hfree fuel 0
    (Nat.zero_le _) (by omega) (fun j _ hj => htaken j hj)

/-- C15 as amended. Let `names` be the relation names that exist in the
namespace.  If the label followed by the decimal digits of the number of those
names still fits in `NAMEDATALEN - 1` bytes, and `makeObjectName` composes
different names from the labels of different passes, then `ChooseAuxTableName`
returns: there is a name that it returns whenever its loop is given more
passes than there are existing names. -/
theorem ChooseAuxTableName_terminates (mk : CString → CString → CString → CString)
    (names : List CString) (name1 name2 label : CString)
    (hfit : label.length + (decimal names.length).length ≤ NAMEDATALEN - 1)
    (hinj : ∀ j k : Nat, j ≤ names.length → k ≤ names.length →
      mk name1 name2 (modlabelAt label j) = mk name1 name2 (modlabelAt label k) →
      modlabelAt label j = modlabelAt label k) :
    ∃ r : CString, ∀ fuel : Nat, names.length < fuel →
      ChooseAuxTableName mk (fun relname => decide (relname ∈ names)) fuel name1 name2 label
        = some r := by
  have hfreeEx : ∃ k, k ≤ names.length ∧ mk name1 name2 (modlabelAt label k) ∉ names := by
    by_contra hall
    have hall1 : ∀ k, k ≤ names.length → mk name1 name2 (modlabelAt label k) ∈ names := by
      intro k hk
      by_contra hk1
      exact hall ⟨k, hk, hk1⟩
    have hnodup : ((List.range (names.length + 1)).map
        (fun k => mk name1 name2 (modlabelAt label k))).Nodup := by
      refine List.Nodup.map_on ?_ (List.nodup_range _)
      intro j hj k hk hjk
      have hj1 : j ≤ names.length := by
        have := List.mem_range.mp hj; omega
      have hk1 : k ≤ names.length := by
        have := List.mem_range.mp hk; omega
      exact modlabelAt_injective_of_fits label names.length hfit j k hj1 hk1
        (hinj j k hj1 hk1 hjk)
    have hsub : (List.range (names.length + 1)).map
        (fun k => mk name1 name2 (modlabelAt label k)) ⊆ names := by
      intro x hx
      obtain ⟨k, hk, rfl⟩ := List.mem_map.mp hx
      exact hall1 k (by have := List.mem_range.mp hk; omega)
    have hle := (hnodup.subperm hsub).length_le
    simp only [List.length_map, List.length_range] at hle
    omega
  have hdec : ∃ k, decide (mk name1 name2 (modlabelAt label k) ∈ names) = false := by
    obtain ⟨k, _, hk⟩ := hfreeEx
    exact ⟨k, by simpa using hk⟩
  refine ⟨mk name1 name2 (modlabelAt label (Nat.find hdec)), ?_⟩
  intro fuel hfuel
  refine ChooseAuxTableName_of_first_free mk _ name1 name2 label (Nat.find hdec)
    (Nat.find_spec hdec) ?_ fuel ?_
  · intro j hj
    have := Nat.find_min hdec hj
    simpa using this
  · obtain ⟨k, hk, hkfree⟩ := hfreeEx
    have : Nat.find hdec ≤ k := Nat.find_min' hdec (by simpa using hkfree)
    omega

/-- With a label of `NAMEDATALEN - 1` bytes or more, every pass holds the same
label in `modlabel`; if the name composed with it exists, the loop goes on. -/
theorem ChooseAuxTableNameLoop_spins (mk : CString → CString → CString → CString)
    (ex : CString → Bool) (name1 name2 label : CString)
    (hlen : NAMEDATALEN - 1 ≤ label.length)
    (htaken : ex (mk name1 name2 (StrNCpy label NAMEDATALEN)) = true) :
    ∀ fuel pass : Nat,
      ChooseAuxTableNameLoop mk ex name1 name2 label fuel pass (StrNCpy label NAMEDATALEN)
        = none := by
  intro fuel
  induction fuel with
  | zero => intro pass; rfl
  | succ fuel ih =>
    intro pass
    unfold ChooseAuxTableNameLoop
    simp only [htaken, Bool.not_true, Bool.false_eq_true, if_false]
    have hsame : snprintf_s_d NAMEDATALEN label (pass + 1) = StrNCpy label NAMEDATALEN := by
      simp only [snprintf_s_d, StrNCpy]
      exact List.take_append_of_le_length hlen
    rw [hsame]
    exact ih (pass + 1)

/-- C15, counterexample.  With a label of 63 bytes (`NAMEDATALEN - 1`) and the
one existing relation whose name is composed from that label,
`ChooseAuxTableName` returns no name, however many passes its loop is given. -/
theorem ChooseAuxTableName_terminates_counterexample :
    ¬ ∃ (fuel : Nat) (r : CString),
      ChooseAuxTableName exampleObjectName
          (fun relname => decide (relname ∈
            [exampleObjectName "orders".toList "status".toList (List.replicate 63 'a')]))
          fuel "orders".toList "status".toList (List.replicate 63 'a')
        = some r := by
  rintro ⟨fuel, r, h⟩
  unfold ChooseAuxTableName at h
  rw [ChooseAuxTableNameLoop_spins exampleObjectName _ "orders".toList "status".toList
    (List.replicate 63 'a') (by decide) (by decide) fuel 0] at h
  exact absurd h (by simp)

/-- Concrete run for C15 as amended: `orders_status_aux` and
`orders_status_aux1` exist; the loop ends within three passes, on
`orders_status_aux2`. -/
theorem ChooseAuxTableName_terminates_witness :
    ChooseAuxTableName exampleObjectName
        (fun relname => decide (relname ∈
          ["orders_status_aux".toList, "orders_status_aux1".toList]))
        3 "orders".toList "status".toList "aux".toList
      = some "orders_status_aux2".toList ∧
    ∃ r : CString, ∀ fuel : Nat, 2 < fuel →
      ChooseAuxTableName exampleObjectName
          (fun relname => decide (relname ∈
            ["orders_status_aux".toList, "orders_status_aux1".toList]))
          fuel "orders".toList "status".toList "aux".toList
        = some r :=
  ⟨by decide,
   ChooseAuxTableName_terminates exampleObjectName
    ["orders_status_aux".toList, "orders_status_aux1".toList]
    "orders".toList "status".toList "aux".toList (by decide)
    (fun _ _ _ _ h => List.append_cancel_left h)⟩

/-! ### Removal from the catalog -/

theorem eraseP_of_find (p : FormData_pg_aux_class → Bool) :
    ∀ (l : List FormData_pg_aux_class) (t : FormData_pg_aux_class),
      l.find? p = some t →
      ∃ before after, l = before ++ t :: after ∧ (∀ u ∈ before, p u = false) ∧
        l.eraseP p = before ++ after := by
  intro l
  induction l with
  | nil => intro t h; simp at h
  | cons a l ih =>
    intro t h
    by_cases hpa : p a = true
    · rw [List.find?_cons_of_pos _ hpa] at h
      simp only [Option.some.injEq] at h
      subst h
      exact ⟨[], l, rfl, by simp, by rw [List.eraseP_cons_of_pos hpa]; rfl⟩
    · rw [List.find?_cons_of_neg _ hpa] at h
      obtain ⟨before, after, hl, hnot, herase⟩ := ih t h
      refine ⟨a :: before, after, by rw [hl]; rfl, ?_, ?_⟩
      · intro u hu
        rcases List.mem_cons.mp hu with rfl | hu
        · simpa using hpa
        · exact hnot u hu
      · rw [List.eraseP_cons_of_neg hpa, herase]; rfl

theorem RemoveAuxClassTuple_rows_of_target {c : Catalog} {a r : Oid} {n : AttrNumber}
    {t : FormData_pg_aux_class} (h : RemoveTarget c a r n = some t) :
    ∃ before after, c.pg_aux_class = before ++ t :: after ∧
      (RemoveAuxClassTuple c a r n).pg_aux_class = before ++ after ∧
      (RemoveAuxClassTuple c a r n).pg_depend = c.pg_depend ∧
      (RemoveAuxClassTuple c a r n).open_refs = c.open_refs := by
  unfold RemoveTarget at h
  unfold RemoveAuxClassTuple
  simp only [SearchSysCache1_AUXCLASSIDENT, SearchSysCache2_AUXCLASSRELIDATT, heap_open,
    heap_close, simple_heap_delete] at h ⊢
  by_cases hv : OidIsValid a = true
  · rw [if_pos hv] at h
    obtain ⟨before, after, hl, _, herase⟩ := eraseP_of_find _ _ t h
    simp only [hv, if_true, h]
    exact ⟨before, after, hl, herase, trivial, by simp⟩
  · rw [if_neg hv] at h
    obtain ⟨before, after, hl, _, herase⟩ := eraseP_of_find _ _ t h
    simp only [hv, Bool.false_eq_true, if_false, h]
    exact ⟨before, after, hl, herase, trivial, by simp⟩

/-- C17. On a catalog whose keys are unique: when `auxrelid` is valid the
target of `RemoveAuxClassTuple` is the record with that `auxrelid`, whatever
`relid` and `attnum` are; when it is invalid the target is the record with the
pair `(relid, attnum)`.  When a target `t` exists, the rows of `pg_aux_class`
afterwards are the rows before with that one row taken out, the others
unchanged and in place, `t` is no longer among them, `pg_depend` is unchanged,
and `LookupAuxMasterRel` of `t.auxrelid` and `LookupAuxRelation` of
`(t.relid, t.attnum)` return `InvalidOid`. -/
theorem RemoveAuxClassTuple_deletes_target (c : Catalog) (auxrelid relid : Oid)
    (attnum : AttrNumber) (hu : UniqueKeys c.pg_aux_class) :
    (OidIsValid auxrelid = true →
      (∀ (relid1 : Oid) (attnum1 : AttrNumber),
        RemoveTarget c auxrelid relid1 attnum1 = RemoveTarget c auxrelid relid attnum) ∧
      ∀ t, RemoveTarget c auxrelid relid attnum = some t → t.auxrelid = auxrelid) ∧
    (OidIsValid auxrelid = false →
      ∀ t, RemoveTarget c auxrelid relid attnum = some t →
        t.relid = relid ∧ t.attnum = attnum) ∧
    (∀ t, RemoveTarget c auxrelid relid attnum = some t →
      ∃ before after, c.pg_aux_class = before ++ t :: after ∧
        (RemoveAuxClassTuple c auxrelid relid attnum).pg_aux_class = before ++ after ∧
        t ∉ (RemoveAuxClassTuple c auxrelid relid attnum).pg_aux_class ∧
        (RemoveAuxClassTuple c auxrelid relid attnum).pg_depend = c.pg_depend ∧
        (∀ cell : Option AttrNumber,
          LookupAuxMasterRel (RemoveAuxClassTuple c auxrelid relid attnum) t.auxrelid cell
            = (InvalidOid, cell.map (fun _ => InvalidAttrNumber))) ∧
        LookupAuxRelation (RemoveAuxClassTuple c auxrelid relid attnum) t.relid t.attnum
          = InvalidOid) := by
  refine ⟨?_, ?_, ?_⟩
  · intro hv
    refine ⟨fun relid1 attnum1 => by simp [RemoveTarget, hv], ?_⟩
    intro t ht
    simp only [RemoveTarget, hv, if_true, SearchSysCache1_AUXCLASSIDENT] at ht
    simpa using List.find?_some ht
  · intro hv t ht
    simp only [RemoveTarget, hv, Bool.false_eq_true, if_false,
      SearchSysCache2_AUXCLASSRELIDATT] at ht
    simpa using List.find?_some ht
  · intro t ht
    obtain ⟨before, after, hl, hrows, hdep, _⟩ := RemoveAuxClassTuple_rows_of_target ht
    have hpw : (before ++ t :: after).Pairwise
        (fun u v => u.auxrelid ≠ v.auxrelid ∧ ¬ (u.relid = v.relid ∧ u.attnum = v.attnum)) := by
      rw [← hl]; exact hu
    rw [List.pairwise_append] at hpw
    obtain ⟨_, hta, hcross⟩ := hpw
    rw [List.pairwise_cons] at hta
    have hother : ∀ u ∈ before ++ after,
        u.auxrelid ≠ t.auxrelid ∧ ¬ (u.relid = t.relid ∧ u.attnum = t.attnum) := by
      intro u hmem
      rcases List.mem_append.mp hmem with hb | ha
      · exact hcross u hb t (by simp)
      · have := hta.1 u ha
        exact ⟨fun h => this.1 h.symm, fun h => this.2 ⟨h.1.symm, h.2.symm⟩⟩
    have hnotin : t ∉ before ++ after := fun hmem => (hother t hmem).1 rfl
    have hf1 : (before ++ after).find? (fun u => u.auxrelid == t.auxrelid) = none := by
      rw [List.find?_eq_none]
      intro u hmem
      simpa using (hother u hmem).1
    have hf2 : (before ++ after).find? (fun u => u.relid == t.relid && u.attnum == t.attnum)
        = none := by
      rw [List.find?_eq_none]
      intro u hmem
      have := (hother u hmem).2
      simpa using this
    refine ⟨before, after, hl, hrows, by rw [hrows]; exact hnotin, hdep, ?_, ?_⟩
    · intro cell
      unfold LookupAuxMasterRel
      simp only [SearchSysCache1_AUXCLASSIDENT, hrows, hf1]
      split <;> rfl
    · unfold LookupAuxRelation
      simp only [SearchSysCache2_AUXCLASSRELIDATT, hrows, hf2]
      split <;> rfl

/-- Concrete run for C17: from a catalog of two records, the call with the
valid `auxrelid` 16385 and a `relid` and `attnum` that match nothing removes
the record of 16385 and leaves the other. -/
theorem RemoveAuxClassTuple_deletes_target_witness :
    (RemoveAuxClassTuple ⟨[⟨16385, 16384, 2⟩, ⟨16386, 16384, 3⟩], [], 0⟩
        16385 999 7).pg_aux_class = [⟨16386, 16384, 3⟩] ∧
    ∃ before after,
      (⟨[⟨16385, 16384, 2⟩, ⟨16386, 16384, 3⟩], [], 0⟩ : Catalog).pg_aux_class
        = before ++ (⟨16385, 16384, 2⟩ : FormData_pg_aux_class) :: after ∧
      (RemoveAuxClassTuple ⟨[⟨16385, 16384, 2⟩, ⟨16386, 16384, 3⟩], [], 0⟩
          16385 999 7).pg_aux_class = before ++ after ∧
      (⟨16385, 16384, 2⟩ : FormData_pg_aux_class) ∉
        (RemoveAuxClassTuple ⟨[⟨16385, 16384, 2⟩, ⟨16386, 16384, 3⟩], [], 0⟩
          16385 999 7).pg_aux_class ∧
      (RemoveAuxClassTuple ⟨[⟨16385, 16384, 2⟩, ⟨16386, 16384, 3⟩], [], 0⟩
          16385 999 7).pg_depend
        = (⟨[⟨16385, 16384, 2⟩, ⟨16386, 16384, 3⟩], [], 0⟩ : Catalog).pg_depend ∧
      (∀ cell : Option AttrNumber,
        LookupAuxMasterRel
            (RemoveAuxClassTuple ⟨[⟨16385, 16384, 2⟩, ⟨16386, 16384, 3⟩], [], 0⟩
              16385 999 7)
            (⟨16385, 16384, 2⟩ : FormData_pg_aux_class).auxrelid cell
          = (InvalidOid, cell.map (fun _ => InvalidAttrNumber))) ∧
      LookupAuxRelation
          (RemoveAuxClassTuple ⟨[⟨16385, 16384, 2⟩, ⟨16386, 16384, 3⟩], [], 0⟩
            16385 999 7)
          (⟨16385, 16384, 2⟩ : FormData_pg_aux_class).relid
          (⟨16385, 16384, 2⟩ : FormData_pg_aux_class).attnum
        = InvalidOid :=
  ⟨by decide,
   (RemoveAuxClassTuple_deletes_target ⟨[⟨16385, 16384, 2⟩, ⟨16386, 16384, 3⟩], [], 0⟩
      16385 999 7 (by unfold UniqueKeys; decide)).2.2 ⟨16385, 16384, 2⟩ (by decide)⟩

end AntDB
